import Mathlib

/-! IXWebSocket HTTP client: parameter serializer, connection engine, dispatcher
and gzip codec.

A shallow embedding of `ixwebsocket/IXHttpClient.cpp` and of the codec glue in
`ixwebsocket/IXGzipCodec.cpp`, together with theorems about them.

A C++ `std::string` is a sequence of bytes; it is embedded as a list of values
below 256.  Stream output (`std::ostringstream`, `std::stringstream`) is
embedded as list concatenation, stream input as explicit extraction functions.
-/

namespace IX

/-! ## Bytes and strings -/

/-- One `char` of a `std::string`, by its unsigned value. -/
abbrev Byte := Fin 256

/-- A `std::string`. -/
abbrev Bytes := List Byte

/-- A character literal of the source. -/
def chr (c : Char) : Byte := Fin.ofNat c.toNat

/-- A string literal of the source (ASCII). -/
def str (s : String) : Bytes := s.toList.map chr

/-! ## `HttpClient::urlEncode` (IXHttpClient.cpp 690-714) -/

/-- `isalnum` of `<cctype>` in the default "C" locale: ASCII letters and digits. -/
def isalnum (c : Byte) : Bool :=
  (chr '0' ≤ c && c ≤ chr '9') || (chr 'A' ≤ c && c ≤ chr 'Z') || (chr 'a' ≤ c && c ≤ chr 'z')

/-- One digit as the stream prints it in base 16, with or without `std::uppercase`. -/
def hexDigit (uppercase : Bool) (d : Nat) : Byte :=
  if d < 10 then Fin.ofNat (48 + d)
  else if uppercase then Fin.ofNat (55 + d) else Fin.ofNat (87 + d)

/-- Digits of `n` in base `base`, most significant first, prepended to `acc`. -/
def formatAux (base : Nat) (uppercase : Bool) : Nat → Nat → Bytes → Bytes
  | 0, _, acc => acc
  | fuel + 1, n, acc =>
    if n / base = 0 then hexDigit uppercase (n % base) :: acc
    else formatAux base uppercase fuel (n / base) (hexDigit uppercase (n % base) :: acc)

/-- What `stream << std::hex << n` prints for a non-negative `int n`, before padding. -/
def formatHex (uppercase : Bool) (n : Nat) : Bytes :=
  formatAux 16 uppercase (n + 1) n []

/-- What `stream << n` prints for an unsigned `n` (decimal, the default base). -/
def formatDec (n : Nat) : Bytes :=
  formatAux 10 false (n + 1) n []

/-- What `stream << n` prints for an `int n` (decimal). -/
def formatInt (n : Int) : Bytes :=
  if n < 0 then chr '-' :: formatDec n.natAbs else formatDec n.natAbs

/-- The effect of `std::setw(w)` with fill character `fill` (right adjustment, the default). -/
def setw (w : Nat) (fill : Byte) (field : Bytes) : Bytes :=
  List.replicate (w - field.length) fill ++ field

/-- The function `HttpClient::urlEncode`: the loop over the characters of `value`,
the stream `escaped` being the result. -/
def urlEncode : Bytes → Bytes
  | [] => []
  | c :: rest =>
    if isalnum c || c == chr '-' || c == chr '_' || c == chr '.' || c == chr '~' then
      c :: urlEncode rest
    else
      chr '%' :: (setw 2 (chr '0') (formatHex true c.val) ++ urlEncode rest)

/-! ## `HttpClient::urlDecode` (IXHttpClient.cpp 642-688) -/

/-- The value of one digit for `stoul` in base 16. -/
def hexDigitValue (c : Byte) : Option Nat :=
  if chr '0' ≤ c && c ≤ chr '9' then some (c.val - 48)
  else if chr 'a' ≤ c && c ≤ chr 'f' then some (c.val - 87)
  else if chr 'A' ≤ c && c ≤ chr 'F' then some (c.val - 55)
  else none

/-- An ASCII letter. -/
def isAsciiLetter (c : Byte) : Bool :=
  (65 ≤ c.val && c.val ≤ 90) || (97 ≤ c.val && c.val ≤ 122)

/-- An ASCII digit. -/
def isAsciiDigit (c : Byte) : Bool := 48 ≤ c.val && c.val ≤ 57

/-- The characters that pass through `urlEncode` unchanged. -/
def isUnreserved (c : Byte) : Bool :=
  isAsciiLetter c || isAsciiDigit c || c.val = 45 || c.val = 95 || c.val = 46 || c.val = 126

/-- The uppercase hexadecimal digit of a value below 16. -/
def upperHexDigit (d : Nat) : Byte := (str "0123456789ABCDEF").getD d 0

/-- The encoding of one byte: itself, or `%` and two uppercase hexadecimal digits. -/
def encodeByteSpec (c : Byte) : Bytes :=
  if isUnreserved c then [c]
  else [chr '%', upperHexDigit (c.val / 16), upperHexDigit (c.val % 16)]

/-- The encoding of a string: the encodings of its bytes, in order. -/
def urlEncodeSpec (s : Bytes) : Bytes := s.flatMap encodeByteSpec

/-- The type `HttpParameters`: the entries of the mapping in iteration order. -/
abbrev HttpParameters := List (Bytes × Bytes)

/-- The type `HttpFormDataParameters`: the entries of the mapping in iteration order. -/
abbrev HttpFormDataParameters := List (Bytes × Bytes)

/-- The subtraction `count - 1` on `size_t` (64 bits). -/
def sizePred (count : Nat) : Nat := (count + 2 ^ 64 - 1) % 2 ^ 64

/-- The range-for loop of `serializeHttpParameters`; `i` is the counter, the
result is what the loop appends to `ss`. -/
def serializeHttpParametersLoop (count : Nat) : Nat → HttpParameters → Bytes
  | _, [] => []
  | i, it :: rest =>
    urlEncode it.1 ++ str "=" ++ urlEncode it.2 ++
      (if i < sizePred count then str "&" else []) ++
      serializeHttpParametersLoop count (i + 1) rest

/-- The function `HttpClient::serializeHttpParameters`. -/
def serializeHttpParameters (httpParameters : HttpParameters) : Bytes :=
  serializeHttpParametersLoop httpParameters.length 0 httpParameters

/-! ## `HttpClient::serializeHttpFormDataParameters` (IXHttpClient.cpp 734-779) -/

/-- What the first loop appends to `ss` for one entry (lines 755-763). -/
def formDataBlock (multipartBoundary : Bytes) (it : Bytes × Bytes) : Bytes :=
  str "--" ++ multipartBoundary ++ str "\r\n"
    ++ str "Content-Disposition:"
    ++ str " form-data; name=\"" ++ it.1 ++ str "\";"
    ++ str " filename=\"" ++ it.1 ++ str "\""
    ++ str "\r\n"
    ++ str "Content-Type: application/octet-stream"
    ++ str "\r\n"
    ++ str "\r\n"
    ++ it.2 ++ str "\r\n"

/-- What the second loop appends to `ss` for one entry (lines 768-773). -/
def parameterBlock (multipartBoundary : Bytes) (it : Bytes × Bytes) : Bytes :=
  str "--" ++ multipartBoundary ++ str "\r\n"
    ++ str "Content-Disposition:"
    ++ str " form-data; name=\"" ++ it.1 ++ str "\";"
    ++ str "\r\n"
    ++ str "\r\n"
    ++ it.2 ++ str "\r\n"

/-- The function `HttpClient::serializeHttpFormDataParameters`; each loop
appends its blocks to the stream `ss`. -/
def serializeHttpFormDataParameters (multipartBoundary : Bytes)
    (httpFormDataParameters : HttpFormDataParameters) (httpParameters : HttpParameters) :
    Bytes :=
  let ss : Bytes := []
  let ss := httpFormDataParameters.foldl (fun ss it => ss ++ formDataBlock multipartBoundary it) ss
  let ss := httpParameters.foldl (fun ss it => ss ++ parameterBlock multipartBoundary it) ss
  ss ++ (str "--" ++ multipartBoundary ++ str "--\r\n")

/-! ### The serializers as the specification words them -/

/-- One encoded pair, `urlEncode(k) + "=" + urlEncode(v)`. -/
def encodedPair (kv : Bytes × Bytes) : Bytes :=
  urlEncode kv.1 ++ str "=" ++ urlEncode kv.2

/-- The block of a file part for `(k, v)`. -/
def fileBlockSpec (b k v : Bytes) : Bytes :=
  str "--" ++ b ++ str "\r\n"
    ++ str "Content-Disposition: form-data; name=\"" ++ k ++ str "\"; filename=\"" ++ k
    ++ str "\"\r\n"
    ++ str "Content-Type: application/octet-stream\r\n"
    ++ str "\r\n" ++ v ++ str "\r\n"

/-- The block of a plain part for `(k, v)`: the file block without the
`filename` attribute and without the `Content-Type` line. -/
def plainBlockSpec (b k v : Bytes) : Bytes :=
  str "--" ++ b ++ str "\r\n"
    ++ str "Content-Disposition: form-data; name=\"" ++ k ++ str "\"" ++ str "\r\n"
    ++ str "\r\n" ++ v ++ str "\r\n"

/-- The block written for a plain part `(k, v)`: the boundary line, the
`Content-Disposition` line with the attribute `name` and a `;` after it, a blank
line, the raw value and CRLF. -/
def plainBlockEmitted (b k v : Bytes) : Bytes :=
  str "--" ++ b ++ str "\r\n"
    ++ str "Content-Disposition: form-data; name=\"" ++ k ++ str "\";\r\n"
    ++ str "\r\n" ++ v ++ str "\r\n"

/-- The closing line, `--boundary--`. -/
def closingLineSpec (b : Bytes) : Bytes := str "--" ++ b ++ str "--\r\n"

/-! ## Formatted input (`operator>>` on a string stream, `sscanf`) -/

/-- `isspace` in the "C" locale: space, `\t`, `\n`, `\v`, `\f`, `\r`. -/
def isspace (c : Byte) : Bool := c == chr ' ' || (9 ≤ c.val && c.val ≤ 13)

/-- Leading white space removed. -/
def skipSpace : Bytes → Bytes
  | [] => []
  | c :: cs => if isspace c then skipSpace cs else c :: cs

/-- The value of one digit in base 10 or 16. -/
def digitValue (base : Nat) (c : Byte) : Option Nat :=
  match hexDigitValue c with
  | some d => if d < base then some d else none
  | none => none

/-- The leading digits of the input: their value, their number, the input left. -/
def scanDigits (base : Nat) : Nat → Nat → Bytes → Nat × Nat × Bytes
  | acc, n, [] => (acc, n, [])
  | acc, n, c :: cs =>
    match digitValue base c with
    | some d => scanDigits base (acc * base + d) (n + 1) cs
    | none => (acc, n, c :: cs)

/-- An optional sign: whether it is `-`, and the input left. -/
def scanSign : Bytes → Bool × Bytes
  | [] => (false, [])
  | c :: cs =>
    if c == chr '-' then (true, cs)
    else if c == chr '+' then (false, cs)
    else (false, c :: cs)

/-- In base 16 a lead `0x` or `0X` is part of the number. -/
def scanHexLead (base : Nat) : Bytes → Bytes
  | z :: x :: rest =>
    if base == 16 && z == chr '0' && (x == chr 'x' || x == chr 'X') then rest else z :: x :: rest
  | input => input

/-- What one `stream >> n` for an integer `n` does. -/
inductive Extracted where
  /-- the stream was not `good()`, or held nothing but white space: `failbit`
  is set and `n` is not written -/
  | untouched
  /-- no number could be read: `n` is set to 0 and `failbit` is set; `eof`
  tells whether the end of the buffer was reached -/
  | zeroed (eof : Bool)
  /-- a number was read, of this sign and magnitude; `eof` tells whether the
  digits ran to the end of the buffer (`eofbit`) -/
  | number (negative : Bool) (magnitude : Nat) (eof : Bool)
  deriving DecidableEq, Repr

/-- The extraction `stream >> n` from a stream whose state is `good` (or not)
and whose buffer holds `buffer`: white space is skipped, then a sign, then in
base 16 a lead `0x`, then digits. -/
def extractInteger (base : Nat) (good : Bool) (buffer : Bytes) : Extracted :=
  if !good then .untouched
  else
    match skipSpace buffer with
    | [] => .untouched
    | c :: cs =>
      let signed := scanSign (c :: cs)
      let digits := scanDigits base 0 0 (scanHexLead base signed.2)
      if digits.2.1 = 0 then .zeroed digits.2.2.isEmpty
      else .number signed.1 digits.1 digits.2.2.isEmpty

/-- The variable `contentLength` (an `ssize_t`, 64 bits, initialised to -1)
after `ss.str(""); ss << value; ss >> contentLength;` (lines 398-401); the
stream `ss` is in a good state there, only output went through it. -/
def readContentLength (value : Bytes) : Int :=
  match extractInteger 10 true value with
  | .untouched => -1
  | .zeroed _ => 0
  | .number negative magnitude _ =>
    if negative then (if magnitude > 2 ^ 63 then -(2 ^ 63) else -(magnitude : Int))
    else (if magnitude > 2 ^ 63 - 1 then 2 ^ 63 - 1 else (magnitude : Int))

/-- The variable `chunkSize` (a `uint64_t` declared without initialiser, its
indeterminate value being `indeterminate`) after
`ss2.str(""); ss2 << std::hex << line; ss2 >> chunkSize;` (lines 443-446), and
whether `ss2` is still `good()` afterwards.  `str("")` empties the buffer and
leaves the state flags alone, so once `ss2` is not `good()` neither the
insertion nor the extraction does anything. -/
def readChunkSize (good : Bool) (indeterminate : Nat) (line : Bytes) : Nat × Bool :=
  match extractInteger 16 good line with
  | .untouched => (indeterminate, false)
  | .zeroed _ => (0, false)
  | .number negative magnitude eof =>
    if magnitude ≥ 2 ^ 64 then (2 ^ 64 - 1, false)
    else if negative then ((2 ^ 64 - magnitude) % 2 ^ 64, !eof)
    else (magnitude, !eof)

/-- The input of `sscanf`: the C string, which ends at the first zero byte. -/
def cString : Bytes → Bytes
  | [] => []
  | c :: cs => if c.val = 0 then [] else c :: cString cs

/-- The ordinary characters of a `sscanf` format matched against the input: the
input left, when they all match. -/
def matchLiteral : Bytes → Bytes → Option Bytes
  | [], input => some input
  | _ :: _, [] => none
  | f :: fs, c :: cs => if f = c then matchLiteral fs cs else none

/-- The call `sscanf(line.c_str(), "HTTP/1.1 %d", &code)`: the value stored in
`code` when the call returns 1.  (The conversion of a number outside the range of
`int` is not represented.) -/
def sscanfStatus (line : Bytes) : Option Int :=
  match matchLiteral (str "HTTP/1.1") (cString line) with
  | none => none
  | some rest =>
    let signed := scanSign (skipSpace rest)
    let digits := scanDigits 10 0 0 signed.2
    if digits.2.1 = 0 then none
    else some (if signed.1 then -(digits.1 : Int) else (digits.1 : Int))

/-! ## Records and collaborators of `HttpClient::request` -/

/-- The error kinds `HttpErrorCode` that `IXHttpClient.cpp` uses. -/
inductive HttpErrorCode where
  | Ok
  | CannotConnect
  | Gzip
  | UrlMalformed
  | CannotCreateSocket
  | SendError
  | CannotReadStatusLine
  | MissingStatus
  | HeaderParsingError
  | MissingLocation
  | TooManyRedirects
  | ChunkReadError
  | CannotReadBody
  deriving DecidableEq, Repr

/-- Modelled from the spec: the type `WebSocketHttpHeaders` is declared outside
the sources at hand; the spec calls it a mapping with case-sensitive keys.  It is
the list of its entries in iteration order. -/
abbrev WebSocketHttpHeaders := List (Bytes × Bytes)

/-- The lookup `headers.find(key)`: the value, when there is an entry. -/
def WebSocketHttpHeaders.find (headers : WebSocketHttpHeaders) (key : Bytes) : Option Bytes :=
  List.lookup key headers

/-- The access `headers[key]`: the value of the entry, and the mapping
afterwards; a missing entry is created with an empty value. -/
def WebSocketHttpHeaders.index (headers : WebSocketHttpHeaders) (key : Bytes) :
    Bytes × WebSocketHttpHeaders :=
  match headers.find key with
  | some value => (value, headers)
  | none => ([], headers ++ [(key, [])])

/-- The record `HttpResponse`, in the order of the constructor arguments. -/
structure HttpResponse where
  statusCode : Int
  description : Bytes
  errorCode : HttpErrorCode
  headers : WebSocketHttpHeaders
  payload : Bytes
  errorMsg : Bytes
  uploadSize : Nat
  downloadSize : Nat
  deriving DecidableEq, Repr

/-- The fields of `HttpRequestArgs`, without the timeouts, the progress callback,
the logger and the flag `verbose`: these act only through the socket
collaborator and the log sink. -/
structure HttpRequestArgs where
  url : Bytes
  verb : Bytes
  extraHeaders : WebSocketHttpHeaders
  body : Bytes
  followRedirects : Bool
  maxRedirects : Int
  compress : Bool
  compressRequest : Bool
  multipartBoundary : Bytes
  deriving DecidableEq, Repr

/-- What `UrlParser::parse` stores on success. -/
structure UrlParts where
  protocol : Bytes
  host : Bytes
  path : Bytes
  query : Bytes
  port : Int
  deriving DecidableEq, Repr

/-- How a call of `request` ends: it returns a record, or an exception leaves it. -/
inductive Outcome where
  | returned (response : HttpResponse)
  /-- the exception `std::length_error` of `std::string::reserve` -/
  | lengthError
  deriving DecidableEq, Repr

/-- The collaborators of `request`, none of which is in the sources at hand,
as functions of a state `σ` of the connection and the network behind it; the
cancellation request (timeout, stop flag) is part of how they answer.  The
build configuration and the two constants of the C++ library the code depends
on are fields as well. -/
structure Env (σ : Type) where
  /-- the call `UrlParser::parse(url, protocol, host, path, query, port)` -/
  parse : Bytes → Option UrlParts
  /-- the call `createSocket(tls, -1, errorMsg, _tlsOptions)`: whether a socket
  came back, and `errorMsg` -/
  createSocket : Bool → σ → Bool × Bytes × σ
  /-- the call `_socket->connect(host, port, errMsg2, ...)`: success, and `errMsg2` -/
  connect : Bytes → Int → σ → Bool × Bytes × σ
  /-- the call `_socket->writeBytes(req, ...)` -/
  writeBytes : Bytes → σ → Bool × σ
  /-- the call `_socket->readLine(...)` -/
  readLine : σ → Bool × Bytes × σ
  /-- the call `_socket->readBytes(length, ...)` -/
  readBytes : Nat → σ → Bool × Bytes × σ
  /-- the call `parseHttpHeaders(_socket, ...)` -/
  parseHttpHeaders : σ → Bool × WebSocketHttpHeaders × σ
  /-- the call `userAgent()` -/
  userAgent : Bytes
  /-- whether `IXWEBSOCKET_USE_ZLIB` is defined -/
  useZlib : Bool
  /-- the call `gzipDecompress(payload, decompressedPayload)`: the returned flag
  and the output string -/
  gzipDecompress : Bytes → Bool × Bytes
  /-- the constant `std::string::max_size()` -/
  maxSize : Nat
  /-- the value found in a variable that was never written -/
  indeterminate : σ → Nat

/-! ## `HttpClient::request` (IXHttpClient.cpp 124-550) -/

/-- The verbs. -/
def kPost : Bytes := str "POST"
/-- The verb GET. -/
def kGet : Bytes := str "GET"
/-- The verb HEAD. -/
def kHead : Bytes := str "HEAD"
/-- The verb PUT. -/
def kPut : Bytes := str "PUT"
/-- The verb PATCH. -/
def kPatch : Bytes := str "PATCH"

/-- The request string `req` (lines 174-241). -/
def buildRequest {σ : Type} (C : Env σ) (forceBody : Bool) (args : HttpRequestArgs)
    (verb host path body : Bytes) : Bytes :=
  let ss := verb ++ str " " ++ path ++ str " HTTP/1.1\r\n"
  let ss := ss ++ str "Host: " ++ host ++ str "\r\n"
  let ss := if C.useZlib && args.compress then ss ++ str "Accept-Encoding: gzip" ++ str "\r\n" else ss
  let ss := args.extraHeaders.foldl (fun ss it => ss ++ it.1 ++ str ": " ++ it.2 ++ str "\r\n") ss
  let ss := if (args.extraHeaders.find (str "Accept")).isNone
    then ss ++ str "Accept: */*" ++ str "\r\n" else ss
  let ss := if (args.extraHeaders.find (str "User-Agent")).isNone
    then ss ++ str "User-Agent: " ++ C.userAgent ++ str "\r\n" else ss
  if verb == kPost || verb == kPut || verb == kPatch || forceBody then
    let ss := if C.useZlib && args.compressRequest
      then ss ++ str "Content-Encoding: gzip" ++ str "\r\n" else ss
    let ss := ss ++ str "Content-Length: " ++ formatDec body.length ++ str "\r\n"
    let ss := if (args.extraHeaders.find (str "Content-Type")).isNone then
        (if args.multipartBoundary.isEmpty
          then ss ++ str "Content-Type: application/x-www-form-urlencoded" ++ str "\r\n"
          else ss ++ str "Content-Type: multipart/form-data; boundary=" ++ args.multipartBoundary
                 ++ str "\r\n")
      else ss
    let ss := ss ++ str "\r\n"
    ss ++ body
  else
    ss ++ str "\r\n"

/-- The local variables of `request` once the headers are parsed (line 346):
`code`, `headers`, `errorMsg` (as `createSocket` left it), `uploadSize`, and the
state of the connection. -/
structure Head (σ : Type) where
  code : Int
  headers : WebSocketHttpHeaders
  errorMsg : Bytes
  uploadSize : Nat
  sock : σ

/-- Lines 134-346 of `request`: the URL, the socket, the request string, connect,
write, the status line and the headers.  The result is the record returned on a
failure, or the local variables on success.  `description` stays empty, and
`code`, `headers`, `payload`, `uploadSize`, `downloadSize` keep their initial
values until they are assigned. -/
def openExchange {σ : Type} (C : Env σ) (forceBody : Bool) (args : HttpRequestArgs)
    (url verb body : Bytes) (s : σ) : Except (HttpResponse × σ) (Head σ) :=
  match C.parse url with
  | none =>
    .error (⟨0, [], .UrlMalformed, [], [], str "Cannot parse url: " ++ url, 0, 0⟩, s)
  | some u =>
    let tls := u.protocol == str "https"
    match C.createSocket tls s with
    | (false, errorMsg, s) =>
      .error (⟨0, [], .CannotCreateSocket, [], [], errorMsg, 0, 0⟩, s)
    | (true, errorMsg, s) =>
      let req := buildRequest C forceBody args verb u.host u.path body
      match C.connect u.host u.port s with
      | (false, errMsg2, s) =>
        .error (⟨0, [], .CannotConnect, [], [],
          str "Cannot connect to url: " ++ url ++ str " / error : " ++ errMsg2, 0, 0⟩, s)
      | (true, _, s) =>
        match C.writeBytes req s with
        | (false, s) =>
          .error (⟨0, [], .SendError, [], [], str "Cannot send request", 0, 0⟩, s)
        | (true, s) =>
          let uploadSize := req.length
          match C.readLine s with
          | (false, _, s) =>
            .error (⟨0, [], .CannotReadStatusLine, [], [], str "Cannot retrieve status line",
              uploadSize, 0⟩, s)
          | (true, line, s) =>
            match sscanfStatus line with
            | none =>
              .error (⟨0, [], .MissingStatus, [], [],
                str "Cannot parse response code from status line", uploadSize, 0⟩, s)
            | some code =>
              match C.parseHttpHeaders s with
              | (false, headers, s) =>
                .error (⟨code, [], .HeaderParsingError, headers, [],
                  str "Cannot parse http headers", uploadSize, 0⟩, s)
              | (true, headers, s) => .ok ⟨code, headers, errorMsg, uploadSize, s⟩

/-- How the body selection ends (lines 395-507): with the payload read, with a
record returned early, or with an exception. -/
inductive Body where
  | read (payload : Bytes)
  | failed (response : HttpResponse)
  | lengthError
  deriving DecidableEq, Repr

/-- The loop `while (true)` of the chunked branch (lines 426-490).  `good` is
the state of the stream `ss2`, `payload` and `errorMsg` the variables of that
name.  One unit of `fuel` is one iteration; `none` means the fuel ran out. -/
def readChunks {σ : Type} (C : Env σ) (hd : Head σ) :
    Nat → Bool → Bytes → σ → Option (Body × σ)
  | 0, _, _, _ => none
  | fuel + 1, good, payload, s =>
    match C.readLine s with
    | (false, _, s) =>
      some (.failed ⟨hd.code, [], .ChunkReadError, hd.headers, payload, hd.errorMsg,
        hd.uploadSize, 0⟩, s)
    | (true, line, s) =>
      let parsed := readChunkSize good (C.indeterminate s) line
      let chunkSize := parsed.1
      if (payload.length + chunkSize) % 2 ^ 64 > C.maxSize then some (.lengthError, s)
      else
        match C.readBytes chunkSize s with
        | (false, _, s) =>
          some (.failed ⟨hd.code, [], .ChunkReadError, hd.headers, payload,
            str "Cannot read chunk", hd.uploadSize, 0⟩, s)
        | (true, chunk, s) =>
          let payload := payload ++ chunk
          match C.readLine s with
          | (false, _, s) =>
            some (.failed ⟨hd.code, [], .ChunkReadError, hd.headers, payload, hd.errorMsg,
              hd.uploadSize, 0⟩, s)
          | (true, _, s) =>
            if chunkSize = 0 then some (.read payload, s)
            else readChunks C hd fuel parsed.2 payload s

/-- The body selection (lines 395-507). -/
def readBody {σ : Type} (C : Env σ) (hd : Head σ) (fuel : Nat) : Option (Body × σ) :=
  match hd.headers.find (str "Content-Length") with
  | some value =>
    let contentLength := readContentLength value
    if (contentLength % 2 ^ 64).toNat > C.maxSize then some (.lengthError, hd.sock)
    else
      match C.readBytes (contentLength % 2 ^ 64).toNat hd.sock with
      | (false, _, s) =>
        some (.failed ⟨hd.code, [], .ChunkReadError, hd.headers, [], str "Cannot read chunk",
          hd.uploadSize, 0⟩, s)
      | (true, chunk, s) => some (.read chunk, s)
  | none =>
    if hd.headers.find (str "Transfer-Encoding") = some (str "chunked") then
      readChunks C hd fuel true [] hd.sock
    else if hd.code = 204 then some (.read [], hd.sock)
    else
      some (.failed ⟨hd.code, [], .CannotReadBody, hd.headers, [], str "Cannot read http body",
        hd.uploadSize, 0⟩, hd.sock)

/-- Lines 509-549: the download size, the gzip decoding, the record of a success.
`headers["Content-Encoding"]` creates the entry when it is missing. -/
def finishResponse {σ : Type} (C : Env σ) (hd : Head σ) (payload : Bytes) : HttpResponse :=
  let downloadSize := payload.length
  let indexed := hd.headers.index (str "Content-Encoding")
  let headers := indexed.2
  if indexed.1 = str "gzip" then
    if C.useZlib then
      match C.gzipDecompress payload with
      | (false, _) =>
        ⟨hd.code, [], .Gzip, headers, payload, str "Error decompressing payload",
          hd.uploadSize, downloadSize⟩
      | (true, decompressedPayload) =>
        ⟨hd.code, [], .Ok, headers, decompressedPayload, [], hd.uploadSize, downloadSize⟩
    else
      ⟨hd.code, [], .Gzip, headers, payload,
        str "ixwebsocket was not compiled with gzip support on", hd.uploadSize, downloadSize⟩
  else
    ⟨hd.code, [], .Ok, headers, payload, [], hd.uploadSize, downloadSize⟩

/-- Lines 395-549: the body selection, then the end of the function. -/
def completeExchange {σ : Type} (C : Env σ) (hd : Head σ) (fuel : Nat) : Option (Outcome × σ) :=
  match readBody C hd fuel with
  | none => none
  | some (.lengthError, s) => some (.lengthError, s)
  | some (.failed response, s) => some (.returned response, s)
  | some (.read payload, s) => some (.returned (finishResponse C hd payload), s)

/-- The function `HttpClient::request(url, verb, body, args, redirects)`.  One
unit of `fuel` is spent by each call and by each iteration of the chunk loop;
`none` means the fuel ran out. -/
def request {σ : Type} (C : Env σ) (forceBody : Bool) (args : HttpRequestArgs) :
    Nat → Bytes → Bytes → Bytes → Int → σ → Option (Outcome × σ)
  | 0, _, _, _, _, _ => none
  | fuel + 1, url, verb, body, redirects, s =>
    match openExchange C forceBody args url verb body s with
    | .error (response, s) => some (.returned response, s)
    | .ok hd =>
      if (hd.code ≥ 301 && hd.code ≤ 308) && args.followRedirects then
        match hd.headers.find (str "Location") with
        | none =>
          some (.returned ⟨hd.code, [], .MissingLocation, hd.headers, [],
            str "Missing location header for redirect", hd.uploadSize, 0⟩, hd.sock)
        | some location =>
          if redirects ≥ args.maxRedirects then
            some (.returned ⟨hd.code, [], .TooManyRedirects, hd.headers, [],
              str "Too many redirects: " ++ formatInt redirects, hd.uploadSize, 0⟩, hd.sock)
          else
            request C forceBody args fuel location verb body (redirects + 1) hd.sock
      else if verb == str "HEAD" then
        some (.returned ⟨hd.code, [], .Ok, hd.headers, [], [], hd.uploadSize, 0⟩, hd.sock)
      else completeExchange C hd fuel

/-! ## Descriptions of what the network does -/

/-- The request for `url` sent from state `s` is answered by a 301-308 response
that carries the header `Location: location`; `s'` is the state once its headers
are parsed. -/
def Redirected {σ : Type} (C : Env σ) (forceBody : Bool) (args : HttpRequestArgs)
    (verb body url : Bytes) (s : σ) (location : Bytes) (s' : σ) : Prop :=
  ∃ hd : Head σ, openExchange C forceBody args url verb body s = .ok hd ∧
    301 ≤ hd.code ∧ hd.code ≤ 308 ∧
    hd.headers.find (str "Location") = some location ∧ hd.sock = s'

/-- The server answers `n` successive requests by a redirect: the first is for
`url` from state `s`, each next one for the location of the one before; `url'`
is the last location and `s'` the state after the last of these responses. -/
def RedirectChain {σ : Type} (C : Env σ) (forceBody : Bool) (args : HttpRequestArgs)
    (verb body : Bytes) : Nat → Bytes → σ → Bytes → σ → Prop
  | 0, url, s, url', s' => url = url' ∧ s = s'
  | n + 1, url, s, url', s' =>
    ∃ location s1, Redirected C forceBody args verb body url s location s1 ∧
      RedirectChain C forceBody args verb body n location s1 url' s'

/-- The socket, from state `s`, delivers the chunks `chunks`, each a size line
and its data: `readLine` gives the size line, which reads as the length of the
data (not zero) and leaves the stream `ss2` good; `readBytes` of that length
gives the data; `readLine` gives the line that ends the chunk.  `s'` is the
state after the last chunk. -/
def DeliversChunks {σ : Type} (C : Env σ) : List (Bytes × Bytes) → σ → σ → Prop
  | [], s, s' => s = s'
  | (line, data) :: rest, s, s' =>
    ∃ s1 s2 s3 ending, C.readLine s = (true, line, s1) ∧
      readChunkSize true (C.indeterminate s1) line = (data.length, true) ∧
      data ≠ [] ∧
      C.readBytes data.length s1 = (true, data, s2) ∧
      C.readLine s2 = (true, ending, s3) ∧
      DeliversChunks C rest s3 s'

/-- The chunk payloads, concatenated in order. -/
def chunkPayloads (chunks : List (Bytes × Bytes)) : Bytes :=
  (chunks.map (fun chunk => chunk.2)).flatten

/-- The error kind of the record a call returned. -/
def errorKind {σ : Type} : Option (Outcome × σ) → Option HttpErrorCode
  | some (.returned response, _) => some response.errorCode
  | _ => none

/-- The status code, the error kind and the payload of the record a call returned. -/
def summary {σ : Type} : Option (Outcome × σ) → Option (Int × HttpErrorCode × Bytes)
  | some (.returned response, _) =>
    some (response.statusCode, response.errorCode, response.payload)
  | _ => none

/-! ## A scripted network -/

/-- One answer of a scripted network. -/
inductive Reply where
  /-- `readLine` succeeds with this line -/
  | line (text : Bytes)
  /-- `readBytes(n)` succeeds with these bytes when `n` is their number -/
  | bytes (data : Bytes)
  /-- `parseHttpHeaders` succeeds with these headers -/
  | headers (entries : WebSocketHttpHeaders)
  deriving DecidableEq, Repr

/-- Collaborators that follow a script: the state is the list of answers still
to give.  Every URL parses, with the whole URL as path; the socket is created,
connects and takes every write; each read takes the next answer when it is of its
kind and fails otherwise; a read of zero bytes succeeds at once.  `codec` is the
answer of `gzipDecompress`. -/
def scripted (useZlib : Bool) (codec : Bytes → Bool × Bytes) : Env (List Reply) where
  parse := fun url => some ⟨str "http", str "example.com", url, [], 80⟩
  createSocket := fun _ s => (true, [], s)
  connect := fun _ _ s => (true, [], s)
  writeBytes := fun _ s => (true, s)
  readLine := fun s =>
    match s with
    | .line text :: rest => (true, text, rest)
    | _ => (false, [], s)
  readBytes := fun n s =>
    if n = 0 then (true, [], s)
    else
      match s with
      | .bytes data :: rest => if data.length = n then (true, data, rest) else (false, [], s)
      | _ => (false, [], s)
  parseHttpHeaders := fun s =>
    match s with
    | .headers entries :: rest => (true, entries, rest)
    | _ => (false, [], s)
  userAgent := str "ixwebsocket"
  useZlib := useZlib
  gzipDecompress := codec
  maxSize := 2 ^ 62
  indeterminate := fun _ => 0

/-- A codec run that reports failure, as on a payload that is no gzip stream. -/
def rejectingCodec : Bytes → Bool × Bytes := fun _ => (false, [])

/-- Request arguments with no extra header, redirects followed up to `maxRedirects`. -/
def plainArgs (maxRedirects : Int) : HttpRequestArgs :=
  ⟨[], [], [], [], true, maxRedirects, false, false, []⟩

/-- The status code, the headers and the state of the connection with which an
exchange reaches the redirect test (line 348), when it does. -/
def reached {σ : Type} :
    Except (HttpResponse × σ) (Head σ) → Option (Int × WebSocketHttpHeaders × σ)
  | .ok hd => some (hd.code, hd.headers, hd.sock)
  | .error _ => none

/-! ### Scripts -/

/-- The response `HTTP/1.1 200 OK`, `Content-Length: 5`, body `hello`. -/
def helloScript : List Reply :=
  [.line (str "HTTP/1.1 200 OK\r\n"), .headers [(str "Content-Length", str "5")],
   .bytes (str "hello")]

/-- The same response with the header `Content-Encoding: gzip`. -/
def gzipHelloScript : List Reply :=
  [.line (str "HTTP/1.1 200 OK\r\n"),
   .headers [(str "Content-Length", str "5"), (str "Content-Encoding", str "gzip")],
   .bytes (str "hello")]

/-- The chunked response of body `4\r\nWiki\r\n0\r\n\r\n`, cut after each line end. -/
def wikiScript : List Reply :=
  [.line (str "HTTP/1.1 200 OK\r\n"), .headers [(str "Transfer-Encoding", str "chunked")],
   .line (str "4\r\n"), .bytes (str "Wiki"), .line (str "\r\n"),
   .line (str "0\r\n"), .line (str "\r\n")]

/-- The same response with the header `Content-Encoding: gzip`. -/
def gzipWikiScript : List Reply :=
  [.line (str "HTTP/1.1 200 OK\r\n"),
   .headers [(str "Transfer-Encoding", str "chunked"), (str "Content-Encoding", str "gzip")],
   .line (str "4\r\n"), .bytes (str "Wiki"), .line (str "\r\n"),
   .line (str "0\r\n"), .line (str "\r\n")]

/-- A chunked response whose first size line is `zz`. -/
def zzScript : List Reply :=
  [.line (str "HTTP/1.1 200 OK\r\n"), .headers [(str "Transfer-Encoding", str "chunked")],
   .line (str "zz\r\n"), .line (str "\r\n")]

/-- One redirect to `/b`, then the response `HTTP/1.1 200 OK`, `Content-Length: 2`,
body `ok`. -/
def oneRedirectScript : List Reply :=
  [.line (str "HTTP/1.1 301 Moved Permanently\r\n"), .headers [(str "Location", str "/b")],
   .line (str "HTTP/1.1 200 OK\r\n"), .headers [(str "Content-Length", str "2")],
   .bytes (str "ok")]

/-- Two redirects in a row, to `/b` and then to `/c`. -/
def twoRedirectsScript : List Reply :=
  [.line (str "HTTP/1.1 301 Moved Permanently\r\n"), .headers [(str "Location", str "/b")],
   .line (str "HTTP/1.1 302 Found\r\n"), .headers [(str "Location", str "/c")]]

/-! ## Further descriptions of an invocation -/

/-- The invocation of `request` for `url` at depth `redirects` from state `s`
calls `request` again: the response is a 301-308 one, redirects are followed, the
header `Location` is there and the depth is below `maxRedirects`. -/
def Recurses {σ : Type} (C : Env σ) (forceBody : Bool) (args : HttpRequestArgs)
    (url verb body : Bytes) (redirects : Int) (s : σ) : Prop :=
  ∃ (hd : Head σ) (location : Bytes),
    openExchange C forceBody args url verb body s = .ok hd ∧
    301 ≤ hd.code ∧ hd.code ≤ 308 ∧ args.followRedirects = true ∧
    hd.headers.find (str "Location") = some location ∧ redirects < args.maxRedirects

/-- The byte length of the serialized request when the socket write of it
succeeded (the URL parsed, the socket was created and connected, the write
succeeded); `none` when the call returned at or before a failed write. -/
def writtenSize {σ : Type} (C : Env σ) (forceBody : Bool) (args : HttpRequestArgs)
    (url verb body : Bytes) (s : σ) : Option Nat :=
  match C.parse url with
  | none => none
  | some u =>
    match C.createSocket (u.protocol == str "https") s with
    | (false, _, _) => none
    | (true, _, s) =>
      match C.connect u.host u.port s with
      | (false, _, _) => none
      | (true, _, s) =>
        match C.writeBytes (buildRequest C forceBody args verb u.host u.path body) s with
        | (false, _) => none
        | (true, _) => some (buildRequest C forceBody args verb u.host u.path body).length

/-- The error kinds of the failures that come after the status code and the
headers of a response were parsed. -/
def afterHeaders (kind : HttpErrorCode) : Bool :=
  kind = .MissingLocation || kind = .TooManyRedirects || kind = .ChunkReadError ||
    kind = .CannotReadBody || kind = .Gzip

/-- The error kinds of the failures at or before the write of the request. -/
def beforeWrite (kind : HttpErrorCode) : Bool :=
  kind = .UrlMalformed || kind = .CannotCreateSocket || kind = .CannotConnect ||
    kind = .SendError

/-- The record a call returned, when it returned one. -/
def returnedRecord {σ : Type} : Option (Outcome × σ) → Option HttpResponse
  | some (.returned response, _) => some response
  | _ => none

/-- Request arguments with no extra header and redirects not followed. -/
def noFollowArgs : HttpRequestArgs :=
  ⟨[], [], [], [], false, 5, false, false, []⟩

/-! ### More scripts -/

/-- A `301` response with `Location: /b`, `Content-Length: 5` and the body `moved`. -/
def movedScript : List Reply :=
  [.line (str "HTTP/1.1 301 Moved Permanently\r\n"),
   .headers [(str "Location", str "/b"), (str "Content-Length", str "5")],
   .bytes (str "moved")]

/-- A `301` response with `Location: /b` and neither `Content-Length` nor
`Transfer-Encoding`. -/
def movedNoBodyScript : List Reply :=
  [.line (str "HTTP/1.1 301 Moved Permanently\r\n"), .headers [(str "Location", str "/b")]]

/-- A `301` response without `Location`. -/
def movedNowhereScript : List Reply :=
  [.line (str "HTTP/1.1 301 Moved Permanently\r\n"), .headers [(str "Server", str "x")]]

/-- A `200` response to a HEAD request, with `Content-Length: 5` and
`Content-Encoding: gzip`, and no body. -/
def headScript : List Reply :=
  [.line (str "HTTP/1.1 200 OK\r\n"),
   .headers [(str "Content-Length", str "5"), (str "Content-Encoding", str "gzip")]]

/-- A `200` response with both `Content-Length: 5` and `Transfer-Encoding: chunked`,
and the five bytes `4\r\nWi`. -/
def bothScript : List Reply :=
  [.line (str "HTTP/1.1 200 OK\r\n"),
   .headers [(str "Content-Length", str "5"), (str "Transfer-Encoding", str "chunked")],
   .bytes (str "4\r\nWi")]

/-- A `204` response without headers. -/
def noContentScript : List Reply :=
  [.line (str "HTTP/1.1 204 No Content\r\n"), .headers []]

/-- A `204` response with the header `Content-Encoding: gzip`. -/
def gzipNoContentScript : List Reply :=
  [.line (str "HTTP/1.1 204 No Content\r\n"), .headers [(str "Content-Encoding", str "gzip")]]

/-- A `200` response without `Content-Length` and `Transfer-Encoding`. -/
def noLengthScript : List Reply :=
  [.line (str "HTTP/1.1 200 OK\r\n"), .headers [(str "Server", str "x")]]

/-- A `200` response with `Content-Length: -1`. -/
def negativeLengthScript : List Reply :=
  [.line (str "HTTP/1.1 200 OK\r\n"), .headers [(str "Content-Length", str "-1")]]

/-- A chunked response that ends after its headers: no size line arrives. -/
def cutChunkedScript : List Reply :=
  [.line (str "HTTP/1.1 200 OK\r\n"), .headers [(str "Transfer-Encoding", str "chunked")]]

/-- A codec that answers with the bytes `decoded`, whatever the input. -/
def fixedCodec (decoded : Bytes) : Bytes → Bool × Bytes := fun _ => (true, decoded)

/-! ### The request text as the specification words it -/

/-- The caller supplied no header of this name. -/
def suppliesNo (headers : WebSocketHttpHeaders) (name : Bytes) : Bool :=
  headers.all (fun entry => entry.1 != name)

/-- The verb carries a body: POST, PUT, PATCH, or any verb when force-body is set. -/
def carriesBody (forceBody : Bool) (verb : Bytes) : Bool :=
  forceBody || verb = str "POST" || verb = str "PUT" || verb = str "PATCH"

/-- The lines every request has: the request line, `Host`, `Accept-Encoding: gzip`
iff response compression is requested in a zlib build, each caller header as
`name: value`, in the mapping's order, `Accept: */*` iff the caller supplied no
`Accept` header, the default `User-Agent` iff the caller supplied none. -/
def requestLinesSpec {σ : Type} (C : Env σ) (args : HttpRequestArgs) (verb host path : Bytes) :
    Bytes :=
  verb ++ str " " ++ path ++ str " HTTP/1.1\r\n"
    ++ str "Host: " ++ host ++ str "\r\n"
    ++ (if C.useZlib && args.compress then str "Accept-Encoding: gzip\r\n" else [])
    ++ args.extraHeaders.flatMap (fun header => header.1 ++ str ": " ++ header.2 ++ str "\r\n")
    ++ (if suppliesNo args.extraHeaders (str "Accept") then str "Accept: */*\r\n" else [])
    ++ (if suppliesNo args.extraHeaders (str "User-Agent")
        then str "User-Agent: " ++ C.userAgent ++ str "\r\n" else [])

/-- The default `Content-Type` header: for an empty multipart boundary the
urlencoded form type, otherwise the multipart type with that boundary. -/
def defaultContentTypeSpec (multipartBoundary : Bytes) : Bytes :=
  if multipartBoundary = [] then str "Content-Type: application/x-www-form-urlencoded\r\n"
  else str "Content-Type: multipart/form-data; boundary=" ++ multipartBoundary ++ str "\r\n"

/-- The headers added for a verb that carries a body: `Content-Encoding: gzip`
iff request compression is requested in a zlib build, `Content-Length` with the
decimal byte length of the body, and the default `Content-Type` unless the caller
supplied a `Content-Type` header. -/
def bodyHeadersSpec {σ : Type} (C : Env σ) (args : HttpRequestArgs) (body : Bytes) : Bytes :=
  (if C.useZlib && args.compressRequest then str "Content-Encoding: gzip\r\n" else [])
    ++ str "Content-Length: " ++ formatDec body.length ++ str "\r\n"
    ++ (if suppliesNo args.extraHeaders (str "Content-Type")
        then defaultContentTypeSpec args.multipartBoundary else [])

/-- Request arguments with the caller headers `X-Token: abc` and `Accept: text/html`. -/
def headerArgs : HttpRequestArgs :=
  ⟨[], [], [(str "X-Token", str "abc"), (str "Accept", str "text/html")], [], true, 5, true,
    false, []⟩

/-! ### Reading a serialized query back -/

/-- Lines 573-593 of `request(url, verb, httpParameters, httpFormDataParameters,
args)`: the body it passes on, and the arguments as the assignment to
`args->multipartBoundary` leaves them.  `boundary` is the value returned by
`generateMultipartBoundary()`, `gzipCompress` the codec of a zlib build. -/
def prepareBody (useZlib : Bool) (gzipCompress : Bytes → Bytes) (boundary : Bytes)
    (httpParameters : HttpParameters) (httpFormDataParameters : HttpFormDataParameters)
    (args : HttpRequestArgs) : HttpRequestArgs × Bytes :=
  let prepared : HttpRequestArgs × Bytes :=
    if httpFormDataParameters.isEmpty then
      (args, serializeHttpParameters httpParameters)
    else
      (⟨args.url, args.verb, args.extraHeaders, args.body, args.followRedirects,
          args.maxRedirects, args.compress, args.compressRequest, boundary⟩,
        serializeHttpFormDataParameters boundary httpFormDataParameters httpParameters)
  let body := if useZlib && prepared.1.compressRequest then gzipCompress prepared.2
    else prepared.2
  (prepared.1, body)

/-- The request text of the overload: the main overload builds it from the
arguments and the body that `prepareBody` hands over. -/
def parameterRequestText {σ : Type} (C : Env σ) (gzipCompress : Bytes → Bytes)
    (forceBody : Bool) (boundary : Bytes) (verb host path : Bytes)
    (httpParameters : HttpParameters) (httpFormDataParameters : HttpFormDataParameters)
    (args : HttpRequestArgs) : Bytes :=
  buildRequest C forceBody
    (prepareBody C.useZlib gzipCompress boundary httpParameters httpFormDataParameters args).1
    verb host path
    (prepareBody C.useZlib gzipCompress boundary httpParameters httpFormDataParameters args).2

/-- One value `generateMultipartBoundary()` can return: a permutation of the 62
letters and digits. -/
def firstBoundary : Bytes := str "zyxwvutsrqponmlkjihgfedcbaZYXWVUTSRQPONMLKJIHGFEDCBA9876543210"

/-- Another value of `generateMultipartBoundary()`. -/
def secondBoundary : Bytes :=
  str "0123456789ABCDEFGHIJKLMNOPQRSTUVWXYZabcdefghijklmnopqrstuvwxyz"

/-- The arguments `plainArgs 5` after a POST of the file part `f` with content
`data` through the parameter overload. -/
def reusedArgs : HttpRequestArgs :=
  (prepareBody false id firstBoundary [] [(str "f", str "data")] (plainArgs 5)).1

/-! ## The calls made on the collaborators -/

/-- One call on the socket collaborators, with its arguments. -/
inductive Call where
  | createSocket (tls : Bool)
  | connect (host : Bytes) (port : Int)
  | writeBytes (text : Bytes)
  | readLine
  | readBytes (length : Nat)
  | parseHttpHeaders
  deriving DecidableEq, Repr

/-- The collaborators `C`, with each call on the socket recorded: the state
carries the list of the calls made so far, oldest first. -/
def logged {σ : Type} (C : Env σ) : Env (σ × List Call) where
  parse := C.parse
  createSocket := fun tls s =>
    ((C.createSocket tls s.1).1, (C.createSocket tls s.1).2.1,
      ((C.createSocket tls s.1).2.2, s.2 ++ [.createSocket tls]))
  connect := fun host port s =>
    ((C.connect host port s.1).1, (C.connect host port s.1).2.1,
      ((C.connect host port s.1).2.2, s.2 ++ [.connect host port]))
  writeBytes := fun text s =>
    ((C.writeBytes text s.1).1, ((C.writeBytes text s.1).2, s.2 ++ [.writeBytes text]))
  readLine := fun s =>
    ((C.readLine s.1).1, (C.readLine s.1).2.1, ((C.readLine s.1).2.2, s.2 ++ [.readLine]))
  readBytes := fun length s =>
    ((C.readBytes length s.1).1, (C.readBytes length s.1).2.1,
      ((C.readBytes length s.1).2.2, s.2 ++ [.readBytes length]))
  parseHttpHeaders := fun s =>
    ((C.parseHttpHeaders s.1).1, (C.parseHttpHeaders s.1).2.1,
      ((C.parseHttpHeaders s.1).2.2, s.2 ++ [.parseHttpHeaders]))
  userAgent := C.userAgent
  useZlib := C.useZlib
  gzipDecompress := C.gzipDecompress
  maxSize := C.maxSize
  indeterminate := fun s => C.indeterminate s.1

/-- The error kinds of the failures before a status code is obtained. -/
def earlyFailure (kind : HttpErrorCode) : Bool :=
  kind = .UrlMalformed || kind = .CannotCreateSocket || kind = .CannotConnect ||
    kind = .SendError || kind = .CannotReadStatusLine || kind = .MissingStatus

/-- The calls an invocation of `request` makes on the socket when it returns a
record of this kind before a status code is obtained, given the parsed URL and
the request text. -/
def earlyCalls (kind : HttpErrorCode) (u : UrlParts) (text : Bytes) : List Call :=
  match kind with
  | .UrlMalformed => []
  | .CannotCreateSocket => [.createSocket (u.protocol == str "https")]
  | .CannotConnect => [.createSocket (u.protocol == str "https"), .connect u.host u.port]
  | .SendError =>
    [.createSocket (u.protocol == str "https"), .connect u.host u.port, .writeBytes text]
  | _ =>
    [.createSocket (u.protocol == str "https"), .connect u.host u.port, .writeBytes text,
      .readLine]

/-- One redirect to `/b`, then a first line that is no status line. -/
def redirectThenGarbageScript : List Reply :=
  [.line (str "HTTP/1.1 301 Moved Permanently\r\n"), .headers [(str "Location", str "/b")],
   .line (str "garbage\r\n")]

/-! ## Termination -/

/-- The response stream is finite: `lines s` bounds the number of lines still to
be read in state `s`; a successful `readLine` takes at least one of them (it
consumes at least the two bytes CRLF) and a successful `readBytes` adds none. -/
def FiniteStream {σ : Type} (C : Env σ) (lines : σ → Nat) : Prop :=
  (∀ (s : σ) (line : Bytes) (s' : σ), C.readLine s = (true, line, s') → lines s' + 1 ≤ lines s) ∧
  (∀ (n : Nat) (s : σ) (bytes : Bytes) (s' : σ),
    C.readBytes n s = (true, bytes, s') → lines s' ≤ lines s)

/-- The function `request` with the depth of each invocation of the call tree
recorded, the outermost first: the control flow is that of `request`, and every
invocation puts its argument `redirects` in front of what its recursive call
records. -/
def requestDepths {σ : Type} (C : Env σ) (forceBody : Bool) (args : HttpRequestArgs) :
    Nat → Bytes → Bytes → Bytes → Int → σ → Option ((Outcome × σ) × List Int)
  | 0, _, _, _, _, _ => none
  | fuel + 1, url, verb, body, redirects, s =>
    match openExchange C forceBody args url verb body s with
    | .error (response, s) => some ((.returned response, s), [redirects])
    | .ok hd =>
      if (hd.code ≥ 301 && hd.code ≤ 308) && args.followRedirects then
        match hd.headers.find (str "Location") with
        | none =>
          some ((.returned ⟨hd.code, [], .MissingLocation, hd.headers, [],
            str "Missing location header for redirect", hd.uploadSize, 0⟩, hd.sock), [redirects])
        | some location =>
          if redirects ≥ args.maxRedirects then
            some ((.returned ⟨hd.code, [], .TooManyRedirects, hd.headers, [],
              str "Too many redirects: " ++ formatInt redirects, hd.uploadSize, 0⟩, hd.sock),
              [redirects])
          else
            (requestDepths C forceBody args fuel location verb body (redirects + 1) hd.sock).map
              (fun inner => (inner.1, redirects :: inner.2))
      else if verb == str "HEAD" then
        some ((.returned ⟨hd.code, [], .Ok, hd.headers, [], [], hd.uploadSize, 0⟩, hd.sock),
          [redirects])
      else (completeExchange C hd fuel).map (fun result => (result, [redirects]))

/-- The number of lines left in a script. -/
def scriptLines : List Reply → Nat
  | [] => 0
  | .line _ :: rest => scriptLines rest + 1
  | _ :: rest => scriptLines rest

/-- A `200` response that announces a chunked body and then ends. -/
def chunkedSilenceScript : List Reply :=
  [.line (str "HTTP/1.1 200 OK\r\n"), .headers [(str "Transfer-Encoding", str "chunked")]]

/-! ## The dispatcher (IXHttpClient.cpp 32-49 and 69-122)

A task `τ` is a pair `(args, onResponseCallback)`, a response `ρ` what `request`
returns for it. -/

/-- Where the worker thread stands in `HttpClient::run`, statement by statement. -/
inductive Worker (τ ρ : Type) where
  /-- no thread was started: the client is synchronous -/
  | absent
  /-- line 101, the test of the wait loop -/
  | waiting
  /-- line 106, the first test of `_stop` -/
  | woken
  /-- lines 108-112, `_queue.front()` and `_queue.pop()` -/
  | taking
  /-- line 114, the second test of `_stop`, with the task popped -/
  | popped (task : τ)
  /-- line 116, before the call of `request` -/
  | cleared (task : τ)
  /-- line 116, inside `request` -/
  | executing (task : τ)
  /-- line 117, before the call of the callback -/
  | returned (task : τ) (response : ρ)
  /-- line 119, the third test of `_stop` -/
  | delivered
  /-- the function `run` has returned -/
  | exited
  deriving DecidableEq, Repr

/-- What the worker does that can be seen from outside. -/
inductive Event (τ ρ : Type) where
  /-- `request` is called for the task -/
  | started (task : τ)
  /-- `request` returns the response -/
  | finished (task : τ) (response : ρ)
  /-- the callback of the task is invoked with the response -/
  | called (task : τ) (response : ρ)
  deriving DecidableEq, Repr

/-- The members `_async`, `_stop` and `_queue` of the client and the position of
its worker thread; `submitted` and `events` record, in order, the tasks enqueued
and what the worker did. -/
structure Dispatcher (τ ρ : Type) where
  async : Bool
  stop : Bool
  queue : List τ
  worker : Worker τ ρ
  submitted : List τ
  events : List (Event τ ρ)
  deriving DecidableEq, Repr

/-- The constructor `HttpClient(async)`: the thread is started iff `async`. -/
def construct (τ ρ : Type) (async : Bool) : Dispatcher τ ρ :=
  ⟨async, false, [], if async then .waiting else .absent, [], []⟩

/-- The function `HttpClient::performRequest`: the returned flag and the client
afterwards; `none` when the assertion of line 72 fails, which ends the process.
`assertions` tells whether the build keeps `assert` (no `NDEBUG`). -/
def performRequest {τ ρ : Type} (assertions : Bool) (d : Dispatcher τ ρ) (task : τ) :
    Option (Bool × Dispatcher τ ρ) :=
  if assertions && !d.async then none
  else if !d.async then some (false, d)
  else some (true, ⟨d.async, d.stop, d.queue ++ [task], d.worker, d.submitted ++ [task],
    d.events⟩)

/-- The destructor up to the wake-up of the worker (lines 44-47): the thread is
joinable iff it was started. -/
def shutdown {τ ρ : Type} (d : Dispatcher τ ρ) : Dispatcher τ ρ :=
  if !d.async then d
  else ⟨d.async, true, d.queue, d.worker, d.submitted, d.events⟩

/-- One statement of `HttpClient::run` (lines 91-122), from where the worker
stands; `answer` is what `request` returns when the statement is its return. -/
def runStep {τ ρ : Type} (answer : ρ) (d : Dispatcher τ ρ) : Dispatcher τ ρ :=
  match d.worker with
  | .absent => d
  | .waiting =>
    if !d.stop && d.queue.isEmpty then d
    else ⟨d.async, d.stop, d.queue, .woken, d.submitted, d.events⟩
  | .woken =>
    if d.stop then ⟨d.async, d.stop, d.queue, .exited, d.submitted, d.events⟩
    else ⟨d.async, d.stop, d.queue, .taking, d.submitted, d.events⟩
  | .taking =>
    match d.queue with
    | [] => d
    | task :: rest => ⟨d.async, d.stop, rest, .popped task, d.submitted, d.events⟩
  | .popped task =>
    if d.stop then ⟨d.async, d.stop, d.queue, .exited, d.submitted, d.events⟩
    else ⟨d.async, d.stop, d.queue, .cleared task, d.submitted, d.events⟩
  | .cleared task =>
    ⟨d.async, d.stop, d.queue, .executing task, d.submitted, d.events ++ [.started task]⟩
  | .executing task =>
    ⟨d.async, d.stop, d.queue, .returned task answer, d.submitted,
      d.events ++ [.finished task answer]⟩
  | .returned task response =>
    ⟨d.async, d.stop, d.queue, .delivered, d.submitted, d.events ++ [.called task response]⟩
  | .delivered =>
    if d.stop then ⟨d.async, d.stop, d.queue, .exited, d.submitted, d.events⟩
    else ⟨d.async, d.stop, d.queue, .waiting, d.submitted, d.events⟩
  | .exited => d

/-- What one of the threads does next. -/
inductive Action (τ ρ : Type) where
  /-- a caller runs `performRequest` with the task -/
  | submit (task : τ)
  /-- the owner runs the destructor -/
  | shutdown
  /-- the worker runs its next statement -/
  | worker (answer : ρ)
  deriving DecidableEq, Repr

/-- One step of the dispatcher; `none` when the process ends on the assertion. -/
def act {τ ρ : Type} (assertions : Bool) (a : Action τ ρ) (d : Dispatcher τ ρ) :
    Option (Dispatcher τ ρ) :=
  match a with
  | .submit task => (performRequest assertions d task).map Prod.snd
  | .shutdown => some (shutdown d)
  | .worker answer => some (runStep answer d)

/-- The steps of a schedule, in order. -/
def schedule {τ ρ : Type} (assertions : Bool) :
    List (Action τ ρ) → Dispatcher τ ρ → Option (Dispatcher τ ρ)
  | [], d => some d
  | a :: rest, d => (act assertions a d).bind (schedule assertions rest)

/-- The tasks for which `request` was called, in order. -/
def startedTasks {τ ρ : Type} : List (Event τ ρ) → List τ
  | [] => []
  | .started task :: rest => task :: startedTasks rest
  | _ :: rest => startedTasks rest

/-- What the worker still does when the stop flag is set, from where it stands:
nothing, unless it is past the test of line 114; `answer` is what `request`
returns. -/
def pendingEvents {τ ρ : Type} (w : Worker τ ρ) (answer : ρ) : List (Event τ ρ) :=
  match w with
  | .cleared task => [.started task, .finished task answer, .called task answer]
  | .executing task => [.finished task answer, .called task answer]
  | .returned task response => [.called task response]
  | _ => []

/-- The task the worker has popped and has not started. -/
def heldTask {τ ρ : Type} : Worker τ ρ → List τ
  | .popped task => [task]
  | .cleared task => [task]
  | _ => []

/-- The tasks enqueued are, in order, the tasks started, the task the worker
holds and has not started (or has dropped on leaving), and the queue. -/
def Accounted {τ ρ : Type} (d : Dispatcher τ ρ) : Prop :=
  ∃ held : List τ, d.submitted = startedTasks d.events ++ held ++ d.queue ∧
    (d.worker ≠ .exited → held = heldTask d.worker)

/-- An asynchronous client whose stop flag was set while `request` runs for task
7, with task 8 still queued. -/
def busyDispatcher : Dispatcher Nat Nat :=
  ⟨true, true, [8], .executing 7, [7, 8], [.started 7]⟩

/-! ## The gzip codec (IXGzipCodec.cpp)

The libraries zlib and libdeflate are outside the repository: they are
parameters, described by what their calls return. -/

/-- How a run of zlib's `inflate` over the available input ends: the end of the
stream is reached (`Z_STREAM_END`), the input is used up before it (`Z_OK`, then
`Z_BUF_ERROR`), or an error code is returned. -/
inductive InflateEnd where
  | streamEnd
  | needsInput
  | needDict
  | dataError
  | memError
  deriving DecidableEq, Repr

/-- The library zlib, as far as the codec calls it. -/
structure Zlib where
  /-- the gzip stream that the calls of `deflate` with `Z_FINISH` produce from the
  available input -/
  gz : Bytes → Bytes
  /-- whether `inflateInit2` returns `Z_OK` -/
  inflateInit : Bool
  /-- the bytes that the calls of `inflate` produce from the available input, and
  how the run ends -/
  decode : Bytes → Bytes × InflateEnd

/-- The result codes of `libdeflate_gzip_decompress`. -/
inductive DeflateResult where
  | success
  | badData
  | shortOutput
  | insufficientSpace
  deriving DecidableEq, Repr

/-- The library libdeflate, as far as the codec calls it. -/
structure Libdeflate where
  /-- the value of `libdeflate_gzip_compress_bound` for an input size -/
  compressBound : Nat → Nat
  /-- whether `malloc` of that many bytes succeeds -/
  malloc : Nat → Bool
  /-- the bytes `libdeflate_gzip_compress` writes into a buffer of the bound's
  size; the empty string stands for the return value 0 -/
  gzipCompress : Bytes → Bytes
  /-- the call `libdeflate_gzip_decompress(d, in, in_nbytes, out, out_nbytes_avail,
  NULL)`: the result code, and the output buffer of `out_nbytes_avail` bytes
  afterwards -/
  gzipDecompress : Bytes → Nat → DeflateResult × Bytes

/-- The three builds of the codec: without `IXWEBSOCKET_USE_ZLIB`, with it, and
with `IXWEBSOCKET_USE_DEFLATE` in addition. -/
inductive Backend where
  | absent
  | zlib (Z : Zlib)
  | libdeflate (L : Libdeflate)

/-- The loop of `gzipCompress` (lines 89-101): each call of `deflate` puts the
next bytes of the stream in the buffer of 32768 bytes and returns `Z_OK` while
more are to come; the block is appended to `outstring`.  `pending` is the part of
the stream not yet produced; one unit of `fuel` is one iteration. -/
def deflateLoop : Nat → Bytes → Bytes → Option Bytes
  | 0, _, _ => none
  | fuel + 1, pending, outstring =>
    let outstring := outstring ++ pending.take 32768
    if pending.length > 32768 then deflateLoop fuel (pending.drop 32768) outstring
    else some outstring

/-- The function `gzipCompress`; `none` when the fuel of the loop ran out. -/
def gzipCompress (backend : Backend) (s : Bytes) : Option Bytes :=
  match backend with
  | .absent => some []
  | .libdeflate L =>
    if !L.malloc (L.compressBound s.length) then some []
    else some (L.gzipCompress s)
  | .zlib Z =>
    let availIn := s.length % 2 ^ 32
    let stream := Z.gz (s.take availIn)
    deflateLoop (stream.length / 32768 + 1) stream []

/-- The function `loadDecompressedGzipSize` on the four bytes at `p`. -/
def loadDecompressedGzipSize (p : Bytes) : Nat :=
  ((p.getD 0 0).val <<< 0) ||| ((p.getD 1 0).val <<< 8) ||| ((p.getD 2 0).val <<< 16) |||
    ((p.getD 3 0).val <<< 24)

/-- The index `compressed_size - 4` of line 134, computed on `size_t`. -/
def trailerIndex (compressedSize : Nat) : Nat := (compressedSize + 2 ^ 64 - 4) % 2 ^ 64

/-- The loop of `gzipDecompress` (lines 165-180): each call of `inflate` fills the
buffer of 16384 bytes, or produces what is left and then returns the code of the
ending; the function returns false on `Z_NEED_DICT`, `Z_DATA_ERROR` and
`Z_MEM_ERROR` only, and the loop goes on while the buffer was filled.  `pending`
are the bytes still to produce; one unit of `fuel` is one iteration. -/
def inflateLoop (ending : InflateEnd) : Nat → Bytes → Bytes → Option (Bool × Bytes)
  | 0, _, _ => none
  | fuel + 1, pending, out =>
    if pending.length < 16384 then
      if ending = .needDict ∨ ending = .dataError ∨ ending = .memError then some (false, out)
      else some (true, out ++ pending)
    else inflateLoop ending fuel (pending.drop 16384) (out ++ pending.take 16384)

/-- The function `gzipDecompress(in, out)`: the returned flag and `out`
afterwards.  `none` when a read is outside the input buffer (the trailer of line
134), or when the fuel of the loop ran out. -/
def gzipDecompress (backend : Backend) (input out : Bytes) : Option (Bool × Bytes) :=
  match backend with
  | .absent => some (false, out)
  | .libdeflate L =>
    if trailerIndex input.length + 4 ≤ input.length then
      let uncompressedSize := loadDecompressedGzipSize (input.drop (trailerIndex input.length))
      let result := L.gzipDecompress input uncompressedSize
      some (result.1 == .success, result.2)
    else none
  | .zlib Z =>
    if !Z.inflateInit then some (false, out)
    else
      let availIn := input.length % 2 ^ 32
      let run := Z.decode (input.take availIn)
      inflateLoop run.2 (run.1.length / 16384 + 1) run.1 out

/-! ### A stand-in for the libraries -/

/-- A number below `2^32` as four bytes, the least significant first. -/
def le32 (n : Nat) : Bytes :=
  [Fin.ofNat n, Fin.ofNat (n / 256), Fin.ofNat (n / 65536), Fin.ofNat (n / 16777216)]

/-- A stream in the layout of a gzip member with the data stored as they are: the
ten bytes of the header, the data, a checksum field and the length of the data
modulo `2^32`. -/
def storedStream (s : Bytes) : Bytes :=
  [31, 139, 8, 0, 0, 0, 0, 0, 0, 255] ++ s ++ le32 0 ++ le32 (s.length % 2 ^ 32)

/-- The data of a stored stream; an input shorter than header and trailer is a
stream cut short, another first byte is not a gzip stream. -/
def storedData (input : Bytes) : Bytes × InflateEnd :=
  if input.length < 18 then ([], .needsInput)
  else if input.head? ≠ some 31 then ([], .dataError)
  else ((input.drop 10).take (input.length - 18), .streamEnd)

/-- A library that writes and reads stored streams. -/
def storedZlib : Zlib := ⟨storedStream, true, storedData⟩

/-- A library that writes and reads stored streams, into a buffer that must have
the size of the data. -/
def storedLibdeflate : Libdeflate :=
  ⟨fun n => n + 18, fun _ => true, storedStream,
    fun input avail =>
      if (storedData input).2 = .streamEnd then
        if (storedData input).1.length = avail then (.success, (storedData input).1)
        else if (storedData input).1.length < avail then
          (.shortOutput,
            (storedData input).1 ++ List.replicate (avail - (storedData input).1.length) 0)
        else (.insufficientSpace, (storedData input).1.take avail)
      else (.badData, List.replicate avail 0)⟩

/-! ## Size lines without their line end, and unwritten chunk sizes -/

/-- Modelled from the spec: the function `Socket::readLine` is not in the sources
at hand; the spec has it read up to and excluding a CRLF.  On the bytes still to
come: the line without its CRLF and the bytes after the CRLF, or `none` when no
CRLF comes. -/
def readLineSpec : Bytes → Option (Bytes × Bytes)
  | [] => none
  | [_] => none
  | c :: d :: rest =>
    if c = chr '\r' ∧ d = chr '\n' then some ([], rest)
    else (readLineSpec (d :: rest)).map (fun found => (c :: found.1, found.2))

/-- The collaborators `C`, where a variable that was never written holds `value`. -/
def withIndeterminate {σ : Type} (value : Nat) (C : Env σ) : Env σ :=
  ⟨C.parse, C.createSocket, C.connect, C.writeBytes, C.readLine, C.readBytes,
    C.parseHttpHeaders, C.userAgent, C.useZlib, C.gzipDecompress, C.maxSize, fun _ => value⟩

/-- The chunked response of body `4\r\nWiki\r\n0\r\n\r\n`, with the lines as
`readLineSpec` gives them, without CRLF. -/
def bareWikiScript : List Reply :=
  [.line (str "HTTP/1.1 200 OK"), .headers [(str "Transfer-Encoding", str "chunked")],
   .line (str "4"), .bytes (str "Wiki"), .line [],
   .line (str "0"), .line []]

/-- The chunked response of body `4;q\r\nWiki\r\n0\r\n\r\n`, whose first size line
has a chunk extension, with the lines as `readLineSpec` gives them, without CRLF. -/
def extensionWikiScript : List Reply :=
  [.line (str "HTTP/1.1 200 OK"), .headers [(str "Transfer-Encoding", str "chunked")],
   .line (str "4;q"), .bytes (str "Wiki"), .line [],
   .line (str "0"), .line []]

/-- A chunked response whose first size line is empty (the line end alone); one
more line follows. -/
def emptySizeLineScript : List Reply :=
  [.line (str "HTTP/1.1 200 OK\r\n"), .headers [(str "Transfer-Encoding", str "chunked")],
   .line (str "\r\n"), .line (str "\r\n")]

/-- The numbers of bytes asked of the socket by the calls of `readBytes`, in order. -/
def requestedSizes : List Call → List Nat
  | [] => []
  | .readBytes length :: rest => length :: requestedSizes rest
  | _ :: rest => requestedSizes rest

/-! ## Theorems -/

/-! ### URL codec -/

set_option maxRecDepth 100000 in
theorem percent_field (c : Byte) :
    setw 2 (chr '0') (formatHex true c.val) =
      [upperHexDigit (c.val / 16), upperHexDigit (c.val % 16)] := by
  revert c; decide

set_option maxRecDepth 100000 in
theorem passes_iff_unreserved (c : Byte) :
    (isalnum c || c == chr '-' || c == chr '_' || c == chr '.' || c == chr '~') =
      isUnreserved c := by
  revert c; decide

theorem urlEncode_refines (s : Bytes) : urlEncode s = urlEncodeSpec s := by
  induction s with
  | nil => rfl
  | cons c rest ih =>
    simp only [urlEncode, urlEncodeSpec, List.flatMap_cons, encodeByteSpec,
      passes_iff_unreserved, percent_field]
    rw [ih]
    cases h : isUnreserved c <;> simp [urlEncodeSpec]

/-- C2: `urlEncode` is, byte by byte and in order, the byte itself when it is an
ASCII letter, an ASCII digit or one of `-_.~`, and otherwise `%` followed by the
byte's unsigned value as exactly two uppercase hexadecimal digits. -/
theorem urlEncode_eq_spec (s : Bytes) : urlEncode s = urlEncodeSpec s :=
  urlEncode_refines s

theorem serializeHttpParametersLoop_eq (count : Nat) (hcount : count < 2 ^ 64) :
    ∀ (rest : HttpParameters) (i : Nat), i + rest.length = count →
      serializeHttpParametersLoop count i rest =
        (str "&").intercalate (rest.map encodedPair) := by
  intro rest
  induction rest with
  | nil => intro i _; rfl
  | cons it rest ih =>
    intro i hi
    simp only [List.length_cons] at hi
    have hpred : sizePred count = count - 1 := by
      unfold sizePred
      have : count + 2 ^ 64 - 1 = (count - 1) + 2 ^ 64 := by omega
      rw [this, Nat.add_mod_right, Nat.mod_eq_of_lt (by omega)]
    cases rest with
    | nil =>
      have hlt : ¬ i < count - 1 := by simp at hi; omega
      simp [serializeHttpParametersLoop, hpred, hlt, encodedPair, List.intercalate]
    | cons it2 rest2 =>
      have hlt : i < count - 1 := by simp at hi; omega
      have ih2 := ih (i + 1) (by simp at hi ⊢; omega)
      simp only [serializeHttpParametersLoop, hpred, hlt, if_true] at ih2 ⊢
      rw [ih2]
      simp [encodedPair, List.intercalate, List.intersperse]

/-- C4: for a mapping iterated as `(k1,v1),...,(kn,vn)` (a container, so of fewer
than `2^64` entries), `serializeHttpParameters` returns the encoded pairs
`urlEncode(ki) + "=" + urlEncode(vi)` in iteration order, joined by a single `&`
with none leading or trailing; the empty mapping yields the empty string. -/
theorem serializeHttpParameters_eq (ps : HttpParameters) (h : ps.length < 2 ^ 64) :
    serializeHttpParameters ps = (str "&").intercalate (ps.map encodedPair) ∧
    serializeHttpParameters [] = [] :=
  ⟨serializeHttpParametersLoop_eq ps.length h ps 0 (by simp), rfl⟩

/-- C4, at a mapping of two entries: `a b` to `1&2` and `k` to the empty string. -/
theorem serializeHttpParameters_eq_witness :
    ([(str "a b", str "1&2"), (str "k", [])] : HttpParameters).length < 2 ^ 64 ∧
    serializeHttpParameters [(str "a b", str "1&2"), (str "k", [])] = str "a%20b=1%262&k=" :=
  ⟨by decide,
   ((serializeHttpParameters_eq [(str "a b", str "1&2"), (str "k", [])] (by decide)).1).trans
     (by decide)⟩

theorem foldl_append_blocks (f : Bytes × Bytes → Bytes) (l : List (Bytes × Bytes))
    (acc : Bytes) :
    l.foldl (fun ss it => ss ++ f it) acc = acc ++ l.flatMap f := by
  induction l generalizing acc with
  | nil => simp
  | cons it rest ih => simp [List.foldl_cons, ih, List.flatMap_cons]

theorem formDataBlock_eq_spec (b : Bytes) (it : Bytes × Bytes) :
    formDataBlock b it = fileBlockSpec b it.1 it.2 := by
  simp [formDataBlock, fileBlockSpec, str, List.append_assoc]

theorem parameterBlock_eq_emitted (b : Bytes) (it : Bytes × Bytes) :
    parameterBlock b it = plainBlockEmitted b it.1 it.2 := by
  simp [parameterBlock, plainBlockEmitted, str, List.append_assoc]

/-- C5: the multipart body is one block per entry of the file mapping, in
iteration order, then one block per entry of the plain mapping, in iteration
order, then the closing line `--b--`; each file block is exactly the boundary
line, the `Content-Disposition` line with `name` and `filename`, the
`Content-Type` line, a blank line, the raw value and CRLF; each plain block is the
boundary line, the `Content-Disposition` line with `name` as the code writes it
(with a `;` after the attribute), a blank line, the raw value and CRLF; with both
mappings empty the body is the closing line alone. -/
theorem serializeHttpFormDataParameters_eq (b : Bytes) (F : HttpFormDataParameters)
    (P : HttpParameters) :
    serializeHttpFormDataParameters b F P =
      F.flatMap (fun kv => fileBlockSpec b kv.1 kv.2) ++
        P.flatMap (fun kv => plainBlockEmitted b kv.1 kv.2) ++ closingLineSpec b ∧
    serializeHttpFormDataParameters b [] [] = closingLineSpec b := by
  refine ⟨?_, rfl⟩
  simp only [serializeHttpFormDataParameters, foldl_append_blocks, List.nil_append,
    closingLineSpec]
  have hF : F.flatMap (formDataBlock b) = F.flatMap (fun kv => fileBlockSpec b kv.1 kv.2) :=
    congrArg (fun f => F.flatMap f) (funext (formDataBlock_eq_spec b))
  have hP : P.flatMap (parameterBlock b) = P.flatMap (fun kv => plainBlockEmitted b kv.1 kv.2) :=
    congrArg (fun f => P.flatMap f) (funext (parameterBlock_eq_emitted b))
  rw [hF, hP]

set_option maxRecDepth 100000 in
/-- C5, at boundary `B`, the file part `f` = `data` and the plain parts `k` = `v`
and `a b` = `1&2`: one file block, two plain blocks with the values as they are,
the closing line. -/
theorem serializeHttpFormDataParameters_eq_witness :
    serializeHttpFormDataParameters (str "B") [(str "f", str "data")]
        [(str "k", str "v"), (str "a b", str "1&2")] =
      str ("--B\r\nContent-Disposition: form-data; name=\"f\"; filename=\"f\"\r\n" ++
        "Content-Type: application/octet-stream\r\n\r\ndata\r\n" ++
        "--B\r\nContent-Disposition: form-data; name=\"k\";\r\n\r\nv\r\n" ++
        "--B\r\nContent-Disposition: form-data; name=\"a b\";\r\n\r\n1&2\r\n" ++
        "--B--\r\n") :=
  (serializeHttpFormDataParameters_eq (str "B") [(str "f", str "data")]
    [(str "k", str "v"), (str "a b", str "1&2")]).1.trans (by decide)

/-- C6, the code at boundary `B` and the one plain parameter `(k, v)`: the
`Content-Disposition` line of the block ends in `name="k";`, with a semicolon the
block of the claim does not have. -/
theorem parameterBlock_trailing_semicolon :
    serializeHttpFormDataParameters (str "B") [] [(str "k", str "v")] =
      str "--B\r\nContent-Disposition: form-data; name=\"k\";\r\n\r\nv\r\n--B--\r\n" ∧
    parameterBlock (str "B") (str "k", str "v") ≠ plainBlockSpec (str "B") (str "k") (str "v") := by
  decide

/-! ### The connection engine -/

/-! #### Formatted input of formatted output -/

theorem digitValue_hexDigit (uppercase : Bool) (d : Nat) (hd : d < 16) :
    digitValue 16 (hexDigit uppercase d) = some d := by
  have h : ∀ (u : Bool) (x : Fin 16), digitValue 16 (hexDigit u x.val) = some x.val := by decide
  exact h uppercase ⟨d, hd⟩

theorem digitValue_decDigit (uppercase : Bool) (d : Nat) (hd : d < 10) :
    digitValue 10 (hexDigit uppercase d) = some d := by
  have h : ∀ (u : Bool) (x : Fin 10), digitValue 10 (hexDigit u x.val) = some x.val := by decide
  exact h uppercase ⟨d, hd⟩

theorem hexDigit_plain (uppercase : Bool) (d : Nat) (hd : d < 16) :
    isspace (hexDigit uppercase d) = false ∧ hexDigit uppercase d ≠ chr '-' ∧
    hexDigit uppercase d ≠ chr '+' ∧ hexDigit uppercase d ≠ chr 'x' ∧
    hexDigit uppercase d ≠ chr 'X' := by
  have h : ∀ (u : Bool) (x : Fin 16), isspace (hexDigit u x.val) = false ∧
      hexDigit u x.val ≠ chr '-' ∧ hexDigit u x.val ≠ chr '+' ∧ hexDigit u x.val ≠ chr 'x' ∧
      hexDigit u x.val ≠ chr 'X' := by decide
  exact h uppercase ⟨d, hd⟩

theorem formatAux_append (base : Nat) (uppercase : Bool) (tail : Bytes) :
    ∀ (fuel n : Nat) (acc : Bytes),
      formatAux base uppercase fuel n acc ++ tail =
        formatAux base uppercase fuel n (acc ++ tail) := by
  intro fuel
  induction fuel with
  | zero => intro n acc; rfl
  | succ fuel ih =>
    intro n acc
    simp only [formatAux]
    split
    · rfl
    · rw [ih]; rfl

theorem formatAux_head (base : Nat) (hbase : 0 < base) (uppercase : Bool) :
    ∀ (fuel n : Nat) (acc : Bytes),
      ∃ d rest, d < base ∧
        formatAux base uppercase (fuel + 1) n acc = hexDigit uppercase d :: rest := by
  intro fuel
  induction fuel with
  | zero =>
    intro n acc
    refine ⟨n % base, acc, Nat.mod_lt _ hbase, ?_⟩
    simp only [formatAux]
    split <;> rfl
  | succ fuel ih =>
    intro n acc
    by_cases h : n / base = 0
    · exact ⟨n % base, acc, Nat.mod_lt _ hbase, by simp only [formatAux, h, if_true]⟩
    · obtain ⟨d, rest, hd, heq⟩ := ih (n / base) (hexDigit uppercase (n % base) :: acc)
      refine ⟨d, rest, hd, ?_⟩
      rw [← heq]
      conv => lhs; unfold formatAux
      simp only [h, if_false]

theorem scanDigits_formatAux (base : Nat) (hbase : 2 ≤ base) (uppercase : Bool)
    (hdigit : ∀ d, d < base → digitValue base (hexDigit uppercase d) = some d) :
    ∀ (fuel n : Nat) (acc : Bytes) (a k : Nat), n < fuel →
      ∃ len, scanDigits base a k (formatAux base uppercase fuel n acc) =
        scanDigits base (a * base ^ len + n) (k + len) acc ∧ 1 ≤ len := by
  intro fuel
  induction fuel with
  | zero => intro n acc a k h; omega
  | succ fuel ih =>
    intro n acc a k hn
    have hmod : n % base < base := Nat.mod_lt _ (by omega)
    by_cases h : n / base = 0
    · refine ⟨1, ?_, Nat.le_refl _⟩
      have hlt : n < base := (Nat.div_eq_zero_iff (by omega)).mp h
      simp only [formatAux, h, if_true, scanDigits, Nat.mod_eq_of_lt hlt, hdigit n hlt, pow_one]
    · have hdiv : n / base < fuel := by
        have : n / base < n := Nat.div_lt_self (by
          rcases Nat.eq_zero_or_pos n with h0 | h0
          · subst h0; simp at h
          · exact h0) (by omega)
        omega
      obtain ⟨len, heq, _⟩ := ih (n / base) (hexDigit uppercase (n % base) :: acc) a k hdiv
      refine ⟨len + 1, ?_, by omega⟩
      simp only [formatAux, h, if_false, heq, scanDigits, hdigit _ hmod]
      have : (a * base ^ len + n / base) * base + n % base = a * base ^ (len + 1) + n := by
        have hdm := Nat.div_add_mod n base
        calc (a * base ^ len + n / base) * base + n % base
            = a * base ^ (len + 1) + (base * (n / base) + n % base) := by ring
          _ = a * base ^ (len + 1) + n := by rw [hdm]
      rw [this, Nat.add_assoc]

theorem formatAux_second (uppercase : Bool) :
    ∀ (fuel n : Nat) (acc : Bytes), (∃ c tl, acc = c :: tl ∧ c ≠ chr 'x' ∧ c ≠ chr 'X') →
      ∃ z x rest, formatAux 16 uppercase (fuel + 1) n acc = z :: x :: rest ∧
        x ≠ chr 'x' ∧ x ≠ chr 'X' := by
  intro fuel
  induction fuel with
  | zero =>
    intro n acc ⟨c, tl, hacc, h1, h2⟩
    refine ⟨hexDigit uppercase (n % 16), c, tl, ?_, h1, h2⟩
    subst hacc
    simp only [formatAux]
    split <;> rfl
  | succ fuel ih =>
    intro n acc ⟨c, tl, hacc, h1, h2⟩
    by_cases h : n / 16 = 0
    · exact ⟨hexDigit uppercase (n % 16), c, tl, by subst hacc; simp only [formatAux, h, if_true],
        h1, h2⟩
    · have hp := hexDigit_plain uppercase (n % 16) (Nat.mod_lt _ (by decide))
      obtain ⟨z, x, rest, heq, hx⟩ := ih (n / 16) (hexDigit uppercase (n % 16) :: acc)
        ⟨_, _, rfl, hp.2.2.2.1, hp.2.2.2.2⟩
      refine ⟨z, x, rest, ?_, hx⟩
      rw [← heq]
      conv => lhs; unfold formatAux
      simp only [h, if_false]

/-- A size line made of the hexadecimal digits of `n` (of either case), the line
end and whatever follows reads as the chunk size `n` and leaves the stream good. -/
theorem readChunkSize_sizeLine (uppercase : Bool) (n g : Nat) (hn : n < 2 ^ 64) (rest : Bytes) :
    readChunkSize true g (formatHex uppercase n ++ (str "\r\n" ++ rest)) = (n, true) := by
  have hcr : str "\r\n" ++ rest = chr '\r' :: chr '\n' :: rest := rfl
  have hline : formatHex uppercase n ++ (str "\r\n" ++ rest) =
      formatAux 16 uppercase (n + 1) n (chr '\r' :: chr '\n' :: rest) := by
    rw [formatHex, formatAux_append, hcr]; rfl
  obtain ⟨d, tl, hd, hhead⟩ := formatAux_head 16 (by decide) uppercase n n
    (chr '\r' :: chr '\n' :: rest)
  obtain ⟨z, x, tl2, hsecond, hx, hX⟩ := formatAux_second uppercase n n
    (chr '\r' :: chr '\n' :: rest) ⟨_, _, rfl, by decide, by decide⟩
  obtain ⟨len, hscan, hlen⟩ := scanDigits_formatAux 16 (by decide) uppercase
    (digitValue_hexDigit uppercase) (n + 1) n (chr '\r' :: chr '\n' :: rest) 0 0 (by omega)
  have hp := hexDigit_plain uppercase d hd
  have hcrdigit : digitValue 16 (chr '\r') = none := by decide
  have hskip : skipSpace (hexDigit uppercase d :: tl) = hexDigit uppercase d :: tl := by
    simp [skipSpace, hp.1]
  have hsign : scanSign (hexDigit uppercase d :: tl) = (false, hexDigit uppercase d :: tl) := by
    simp [scanSign, hp.2.1, hp.2.2.1]
  have hlead : scanHexLead 16 (hexDigit uppercase d :: tl) = hexDigit uppercase d :: tl := by
    rw [← hhead, hsecond]; simp [scanHexLead, hx, hX]
  have hdigits : scanDigits 16 0 0 (hexDigit uppercase d :: tl) =
      (n, len, chr '\r' :: chr '\n' :: rest) := by
    rw [← hhead, hscan]
    simp [scanDigits, hcrdigit]
  rw [hline, hhead]
  have hlen0 : len ≠ 0 := by omega
  simp [readChunkSize, extractInteger, hskip, hsign, hlead, hdigits, hlen0]
  omega

theorem scanHexLead_dec (input : Bytes) : scanHexLead 10 input = input := by
  match input with
  | [] => rfl
  | [_] => rfl
  | _ :: _ :: _ => simp [scanHexLead]

/-- A header value made of the decimal digits of `N` reads as the content length `N`. -/
theorem readContentLength_formatDec (N : Nat) (hN : N < 2 ^ 63) :
    readContentLength (formatDec N) = (N : Int) := by
  obtain ⟨d, tl, hd, hhead⟩ := formatAux_head 10 (by decide) false N N []
  obtain ⟨len, hscan, hlen⟩ := scanDigits_formatAux 10 (by decide) false
    (digitValue_decDigit false) (N + 1) N [] 0 0 (by omega)
  have hp := hexDigit_plain false d (by omega)
  have hskip : skipSpace (hexDigit false d :: tl) = hexDigit false d :: tl := by
    simp [skipSpace, hp.1]
  have hsign : scanSign (hexDigit false d :: tl) = (false, hexDigit false d :: tl) := by
    simp [scanSign, hp.2.1, hp.2.2.1]
  have hdigits : scanDigits 10 0 0 (hexDigit false d :: tl) = (N, len, []) := by
    rw [← hhead, hscan]
    simp [scanDigits]
  have hlen0 : len ≠ 0 := by omega
  have hle : ¬ N > 2 ^ 63 - 1 := by omega
  rw [formatDec, hhead]
  simp [readContentLength, extractInteger, hskip, hsign, scanHexLead_dec, hdigits, hlen0]
  omega

/-- A size line whose first character is neither white space, nor a sign, nor a
hexadecimal digit holds no number. -/
theorem extractInteger_no_number (c : Byte) (rest : Bytes) (hspace : isspace c = false)
    (hminus : c ≠ chr '-') (hplus : c ≠ chr '+') (hdigit : digitValue 16 c = none) :
    extractInteger 16 true (c :: rest) = .zeroed false := by
  have hzero : c ≠ chr '0' := by
    intro h; rw [h] at hdigit; exact absurd hdigit (by decide)
  have hlead : scanHexLead 16 (c :: rest) = c :: rest := by
    cases rest with
    | nil => rfl
    | cons x tl => simp [scanHexLead, hzero]
  simp [extractInteger, skipSpace, hspace, scanSign, hminus, hplus, hlead, scanDigits, hdigit]

/-! #### The exchange -/

theorem request_reaches_body {σ : Type} (C : Env σ) (forceBody : Bool) (args : HttpRequestArgs)
    (fuel : Nat) (url verb body : Bytes) (redirects : Int) (s : σ) (hd : Head σ)
    (hopen : openExchange C forceBody args url verb body s = .ok hd)
    (hnr : ¬ (301 ≤ hd.code ∧ hd.code ≤ 308 ∧ args.followRedirects = true))
    (hverb : verb ≠ str "HEAD") :
    request C forceBody args (fuel + 1) url verb body redirects s =
      completeExchange C hd fuel := by
  have hcond : ((decide (hd.code ≥ 301) && decide (hd.code ≤ 308)) && args.followRedirects)
      = false := by
    cases hf : args.followRedirects
    · simp
    · by_cases h1 : 301 ≤ hd.code
      · by_cases h2 : hd.code ≤ 308
        · exact absurd ⟨h1, h2, hf⟩ hnr
        · simp [h2]
      · simp [h1]
  have hv : (verb == str "HEAD") = false := by simpa using hverb
  simp only [request, hopen, hcond, hv]
  simp

theorem readContentLength_lt (value : Bytes) : readContentLength value < 2 ^ 63 := by
  unfold readContentLength
  split
  · decide
  · decide
  · split
    · split
      · decide
      · omega
    · split
      · decide
      · omega

theorem finishResponse_plain {σ : Type} (C : Env σ) (hd : Head σ) (payload : Bytes)
    (hce : hd.headers.find (str "Content-Encoding") ≠ some (str "gzip")) :
    finishResponse C hd payload =
      ⟨hd.code, [], .Ok, (hd.headers.index (str "Content-Encoding")).2, payload, [],
        hd.uploadSize, payload.length⟩ := by
  have h : (hd.headers.index (str "Content-Encoding")).1 ≠ str "gzip" := by
    unfold WebSocketHttpHeaders.index
    cases hf : hd.headers.find (str "Content-Encoding") with
    | none => simp; decide
    | some v =>
      simp only
      intro hv
      exact hce (by rw [hf, hv])
  simp [finishResponse, h]

theorem contentLength_body {σ : Type} (C : Env σ) (hd : Head σ) (fuel : Nat) (value : Bytes)
    (N : Nat) (bytes : Bytes) (s' : σ)
    (hcl : hd.headers.find (str "Content-Length") = some value)
    (hN : readContentLength value = (N : Int))
    (hmax : N ≤ C.maxSize)
    (hread : C.readBytes N hd.sock = (true, bytes, s')) :
    readBody C hd fuel = some (.read bytes, s') := by
  have hlt := readContentLength_lt value
  have hmod : ((N : Int) % 2 ^ 64).toNat = N := by
    rw [hN] at hlt
    have h1 : (N : Int) % 2 ^ 64 = (N : Int) := Int.emod_eq_of_lt (by omega) (by omega)
    rw [h1]; simp
  simp only [readBody, hcl, hN, hmod, hread]
  simp [Nat.not_lt.mpr hmax]

theorem readChunks_delivers {σ : Type} (C : Env σ) (hd : Head σ) (hmax : C.maxSize < 2 ^ 64) :
    ∀ (chunks : List (Bytes × Bytes)) (payload : Bytes) (s s' : σ) (fuel : Nat),
      DeliversChunks C chunks s s' →
      payload.length + (chunkPayloads chunks).length ≤ C.maxSize →
      readChunks C hd (fuel + chunks.length) true payload s =
        readChunks C hd fuel true (payload ++ chunkPayloads chunks) s' := by
  intro chunks
  induction chunks with
  | nil =>
    intro payload s s' fuel h _
    simp only [DeliversChunks] at h
    subst h
    simp [chunkPayloads]
  | cons chunk rest ih =>
    intro payload s s' fuel h hfit
    obtain ⟨line, data⟩ := chunk
    obtain ⟨s1, s2, s3, ending, hline, hsize, hne, hbytes, hend, hrest⟩ := h
    have hcat : chunkPayloads ((line, data) :: rest) = data ++ chunkPayloads rest := by
      simp [chunkPayloads]
    rw [hcat, List.length_append] at hfit
    have hlen : data.length ≠ 0 := by
      intro h0; exact hne (List.length_eq_zero.mp h0)
    have hres : ¬ (payload.length + data.length) % 2 ^ 64 > C.maxSize := by
      rw [Nat.mod_eq_of_lt (by omega)]; omega
    have hstep : readChunks C hd (fuel + rest.length + 1) true payload s =
        readChunks C hd (fuel + rest.length) true (payload ++ data) s3 := by
      simp only [readChunks, hline, hsize, hres, hbytes, hend, hlen, if_false]
    rw [List.length_cons, ← Nat.add_assoc, hstep, hcat, ← List.append_assoc]
    exact ih (payload ++ data) s3 s' fuel hrest (by rw [List.length_append]; omega)

theorem readChunks_zero {σ : Type} (C : Env σ) (hd : Head σ) (fuel : Nat) (good : Bool)
    (payload line data ending : Bytes) (s s1 s2 s3 : σ)
    (hfit : payload.length ≤ C.maxSize) (hmax : C.maxSize < 2 ^ 64)
    (hline : C.readLine s = (true, line, s1))
    (hzero : (readChunkSize good (C.indeterminate s1) line).1 = 0)
    (hbytes : C.readBytes 0 s1 = (true, data, s2))
    (hend : C.readLine s2 = (true, ending, s3)) :
    readChunks C hd (fuel + 1) good payload s = some (.read (payload ++ data), s3) := by
  have hres : ¬ (payload.length + 0) % 2 ^ 64 > C.maxSize := by
    rw [Nat.add_zero, Nat.mod_eq_of_lt (by omega)]; omega
  simp only [readChunks, hline, hzero, hres, hbytes, hend, if_false, if_true]

/-- C7 (amended): when `request` reaches the body selection (URL parsed, socket
created and connected, request written, status line and headers parsed, no
redirect followed, verb not HEAD) for a response that carries `Content-Length: N`
and whose `Content-Encoding` is not `gzip`, and the socket then delivers exactly
`N` body bytes (a string, so `N` is at most `max_size()`), the record returned has
the parsed status code, error kind `Ok`, those `N` bytes as payload and download
size `N`.  (That a header value reads as `N` is `readContentLength`; the decimal
digits of `N` do, by `readContentLength_formatDec`.) -/
theorem contentLength_payload {σ : Type} (C : Env σ) (forceBody : Bool)
    (args : HttpRequestArgs) (fuel : Nat) (url verb body : Bytes) (redirects : Int) (s : σ)
    (hd : Head σ) (value : Bytes) (N : Nat) (bytes : Bytes) (s' : σ)
    (hopen : openExchange C forceBody args url verb body s = .ok hd)
    (hnr : ¬ (301 ≤ hd.code ∧ hd.code ≤ 308 ∧ args.followRedirects = true))
    (hverb : verb ≠ str "HEAD")
    (hcl : hd.headers.find (str "Content-Length") = some value)
    (hN : readContentLength value = (N : Int))
    (hmax : N ≤ C.maxSize)
    (hread : C.readBytes N hd.sock = (true, bytes, s'))
    (hlen : bytes.length = N)
    (hce : hd.headers.find (str "Content-Encoding") ≠ some (str "gzip")) :
    request C forceBody args (fuel + 1) url verb body redirects s =
      some (.returned ⟨hd.code, [], .Ok, (hd.headers.index (str "Content-Encoding")).2, bytes,
        [], hd.uploadSize, N⟩, s') := by
  rw [request_reaches_body C forceBody args fuel url verb body redirects s hd hopen hnr hverb]
  simp only [completeExchange, contentLength_body C hd fuel value N bytes s' hcl hN hmax hread,
    finishResponse_plain C hd bytes hce, hlen]

set_option maxRecDepth 100000 in
/-- C7, at the response `HTTP/1.1 200 OK`, `Content-Length: 5`, body `hello`: code
200, payload `hello`, error kind `Ok`. -/
theorem contentLength_payload_witness :
    request (scripted true rejectingCodec) false (plainArgs 5) 1 (str "/a") kGet [] 0
        helloScript =
      some (.returned ⟨200, [], .Ok,
        [(str "Content-Length", str "5"), (str "Content-Encoding", [])], str "hello", [], 76, 5⟩,
        []) :=
  contentLength_payload (scripted true rejectingCodec) false (plainArgs 5) 0 (str "/a") kGet []
    0 helloScript ⟨200, [(str "Content-Length", str "5")], [], 76, [.bytes (str "hello")]⟩
    (str "5") 5 (str "hello") [] (by rfl) (by decide) (by decide) (by rfl) (by decide)
    (by decide) (by rfl) (by rfl) (by decide)

set_option maxRecDepth 100000 in
/-- C7 as stated fails: the response carries `Content-Length: 5`, the body
selection is reached and the socket delivers the 5 bytes `hello`, but the response
also carries `Content-Encoding: gzip`; the record has error kind `Gzip`, not `Ok`,
in a build without zlib and in a build with zlib whose codec rejects the bytes. -/
theorem contentLength_gzip_counterexample :
    reached (openExchange (scripted true rejectingCodec) false (plainArgs 5) (str "/a") kGet []
        gzipHelloScript) =
      some (200, [(str "Content-Length", str "5"), (str "Content-Encoding", str "gzip")],
        [.bytes (str "hello")]) ∧
    readContentLength (str "5") = 5 ∧
    (scripted true rejectingCodec).readBytes 5 [.bytes (str "hello")] =
      (true, str "hello", []) ∧
    summary (request (scripted false rejectingCodec) false (plainArgs 5) 1 (str "/a") kGet [] 0
        gzipHelloScript) = some (200, .Gzip, str "hello") ∧
    summary (request (scripted true rejectingCodec) false (plainArgs 5) 1 (str "/a") kGet [] 0
        gzipHelloScript) = some (200, .Gzip, str "hello") :=
  ⟨by rfl, by decide, by rfl, by decide, by decide⟩

theorem chunked_body {σ : Type} (C : Env σ) (hd : Head σ)
    (chunks : List (Bytes × Bytes)) (s0 s1 s2 s3 : σ) (lastLine data ending : Bytes)
    (hnocl : hd.headers.find (str "Content-Length") = none)
    (hte : hd.headers.find (str "Transfer-Encoding") = some (str "chunked"))
    (hmax : C.maxSize < 2 ^ 64)
    (hfit : (chunkPayloads chunks).length ≤ C.maxSize)
    (hchunks : DeliversChunks C chunks hd.sock s0)
    (hlast : C.readLine s0 = (true, lastLine, s1))
    (hzero : (readChunkSize true (C.indeterminate s1) lastLine).1 = 0)
    (hread : C.readBytes 0 s1 = (true, data, s2))
    (hend : C.readLine s2 = (true, ending, s3))
    (fuel : Nat) (hfuel : chunks.length + 1 ≤ fuel) :
    readBody C hd fuel = some (.read (chunkPayloads chunks ++ data), s3) := by
  obtain ⟨k, rfl⟩ : ∃ k, fuel = (k + 1) + chunks.length := ⟨fuel - (chunks.length + 1), by omega⟩
  simp only [readBody, hnocl, hte, if_true]
  rw [readChunks_delivers C hd hmax chunks [] hd.sock s0 (k + 1) hchunks (by simpa using hfit)]
  rw [List.nil_append]
  exact readChunks_zero C hd k true _ lastLine data ending s0 s1 s2 s3 hfit hmax hlast hzero
    hread hend

/-- C8 (amended): for a response without `Content-Length`, with
`Transfer-Encoding: chunked` and whose `Content-Encoding` is not `gzip`, when the
socket delivers a sequence of chunks (a size line in which `readLine` returns at
least one character after the hexadecimal number, that many payload bytes, a
closing line) and then a chunk of size zero, `request` returns, given enough
fuel, error kind `Ok` with the concatenation of the chunk payloads as payload.
(The hexadecimal digits of `n` followed by CRLF read as `n`, by
`readChunkSize_sizeLine`; nothing is said of a size line that ends with its last
digit.) -/
theorem chunked_payload {σ : Type} (C : Env σ) (forceBody : Bool)
    (args : HttpRequestArgs) (url verb body : Bytes) (redirects : Int) (s : σ)
    (hd : Head σ) (chunks : List (Bytes × Bytes)) (s0 s1 s2 s3 : σ) (lastLine ending : Bytes)
    (hopen : openExchange C forceBody args url verb body s = .ok hd)
    (hnr : ¬ (301 ≤ hd.code ∧ hd.code ≤ 308 ∧ args.followRedirects = true))
    (hverb : verb ≠ str "HEAD")
    (hnocl : hd.headers.find (str "Content-Length") = none)
    (hte : hd.headers.find (str "Transfer-Encoding") = some (str "chunked"))
    (hmax : C.maxSize < 2 ^ 64)
    (hfit : (chunkPayloads chunks).length ≤ C.maxSize)
    (hchunks : DeliversChunks C chunks hd.sock s0)
    (hlast : C.readLine s0 = (true, lastLine, s1))
    (hzero : (readChunkSize true (C.indeterminate s1) lastLine).1 = 0)
    (hread : C.readBytes 0 s1 = (true, [], s2))
    (hend : C.readLine s2 = (true, ending, s3))
    (hce : hd.headers.find (str "Content-Encoding") ≠ some (str "gzip"))
    (fuel : Nat) (hfuel : chunks.length + 1 ≤ fuel) :
    request C forceBody args (fuel + 1) url verb body redirects s =
      some (.returned ⟨hd.code, [], .Ok, (hd.headers.index (str "Content-Encoding")).2,
        chunkPayloads chunks, [], hd.uploadSize, (chunkPayloads chunks).length⟩, s3) := by
  rw [request_reaches_body C forceBody args fuel url verb body redirects s hd hopen hnr hverb]
  simp only [completeExchange, chunked_body C hd chunks s0 s1 s2 s3 lastLine [] ending hnocl hte
    hmax hfit hchunks hlast hzero hread hend fuel hfuel, List.append_nil,
    finishResponse_plain C hd _ hce]

set_option maxRecDepth 100000 in
/-- C8, at the chunk `Wiki` followed by a chunk of size zero: with the lines
`4\r\n`, `\r\n`, `0\r\n`, `\r\n` of a `readLine` that keeps the CRLF, and with the
lines `4;q`, the empty line, `0`, the empty line that `readLineSpec` gives for a
size line with a chunk extension; payload `Wiki`, error kind `Ok`. -/
theorem chunked_payload_witness :
    request (scripted true rejectingCodec) false (plainArgs 5) 3 (str "/a") kGet [] 0
        wikiScript =
      some (.returned ⟨200, [], .Ok,
        [(str "Transfer-Encoding", str "chunked"), (str "Content-Encoding", [])], str "Wiki",
        [], 76, 4⟩, []) ∧
    request (scripted true rejectingCodec) false (plainArgs 5) 3 (str "/a") kGet [] 0
        extensionWikiScript =
      some (.returned ⟨200, [], .Ok,
        [(str "Transfer-Encoding", str "chunked"), (str "Content-Encoding", [])], str "Wiki",
        [], 76, 4⟩, []) :=
  ⟨chunked_payload (scripted true rejectingCodec) false (plainArgs 5) (str "/a") kGet [] 0
    wikiScript
    ⟨200, [(str "Transfer-Encoding", str "chunked")], [], 76, wikiScript.drop 2⟩
    [(str "4\r\n", str "Wiki")] (wikiScript.drop 5) (wikiScript.drop 6) (wikiScript.drop 6) []
    (str "0\r\n") (str "\r\n")
    (by rfl) (by decide) (by decide) (by rfl) (by rfl) (by decide) (by decide)
    ⟨wikiScript.drop 3, wikiScript.drop 4, wikiScript.drop 5, str "\r\n", by rfl, by decide,
      by decide, by rfl, by rfl, by rfl⟩
    (by rfl) (by decide) (by rfl) (by rfl) (by decide) 2 (by decide),
   chunked_payload (scripted true rejectingCodec) false (plainArgs 5) (str "/a") kGet [] 0
    extensionWikiScript
    ⟨200, [(str "Transfer-Encoding", str "chunked")], [], 76, extensionWikiScript.drop 2⟩
    [(str "4;q", str "Wiki")] (extensionWikiScript.drop 5) (extensionWikiScript.drop 6)
    (extensionWikiScript.drop 6) [] (str "0") []
    (by rfl) (by decide) (by decide) (by rfl) (by rfl) (by decide) (by decide)
    ⟨extensionWikiScript.drop 3, extensionWikiScript.drop 4, extensionWikiScript.drop 5, [],
      by rfl, by decide, by decide, by rfl, by rfl, by rfl⟩
    (by rfl) (by decide) (by rfl) (by rfl) (by decide) 2 (by decide)⟩

set_option maxRecDepth 100000 in
/-- C8 as stated fails, in two ways.  The response with `Transfer-Encoding:
chunked`, no `Content-Length` and the body `4\r\nWiki\r\n0\r\n\r\n` that also
carries `Content-Encoding: gzip` gives error kind `Gzip`, not `Ok`.  And with the
lines as the spec's `readLine` returns them, without CRLF, the size line `4` ends
with its digit: the extraction sets `eofbit` on `ss2`, which is never cleared, so
at the size line `0` nothing is written to `chunkSize`; with the value 4 left in
that variable the record is `ChunkReadError`, not `Ok`. -/
theorem chunked_payload_counterexample :
    summary (request (scripted false rejectingCodec) false (plainArgs 5) 3 (str "/a") kGet [] 0
        gzipWikiScript) = some (200, .Gzip, str "Wiki") ∧
    summary (request (scripted true rejectingCodec) false (plainArgs 5) 3 (str "/a") kGet [] 0
        gzipWikiScript) = some (200, .Gzip, str "Wiki") ∧
    readLineSpec (str "4\r\nWiki\r\n0\r\n\r\n") = some (str "4", str "Wiki\r\n0\r\n\r\n") ∧
    readLineSpec (str "\r\n0\r\n\r\n") = some ([], str "0\r\n\r\n") ∧
    readLineSpec (str "0\r\n\r\n") = some (str "0", str "\r\n") ∧
    readLineSpec (str "\r\n") = some ([], []) ∧
    readChunkSize true 4 (str "4") = (4, false) ∧
    readChunkSize false 4 (str "0") = (4, false) ∧
    reached (openExchange (withIndeterminate 4 (scripted true rejectingCodec)) false (plainArgs 5)
        (str "/a") kGet [] bareWikiScript) =
      some (200, [(str "Transfer-Encoding", str "chunked")], bareWikiScript.drop 2) ∧
    request (withIndeterminate 4 (scripted true rejectingCodec)) false (plainArgs 5) 3 (str "/a")
        kGet [] 0 bareWikiScript =
      some (.returned ⟨200, [], .ChunkReadError, [(str "Transfer-Encoding", str "chunked")],
        str "Wiki", str "Cannot read chunk", 76, 0⟩, [.line []]) :=
  ⟨by decide, by decide, by decide, by decide, by decide, by decide, by decide, by decide,
    by rfl, by rfl⟩

/-- What the chunk loop does, after any number of chunks it delivered, with a size
line in which no number can be read (such as `zz`): the extraction stores 0 and
nobody looks at its failure, `request` asks the socket for 0 bytes, reads one more
line and takes the body to end there. -/
theorem unreadable_size_line {σ : Type} (C : Env σ) (forceBody : Bool)
    (args : HttpRequestArgs) (url verb body : Bytes) (redirects : Int) (s : σ)
    (hd : Head σ) (chunks : List (Bytes × Bytes)) (s0 s1 : σ) (line : Bytes) (eof : Bool)
    (hopen : openExchange C forceBody args url verb body s = .ok hd)
    (hnr : ¬ (301 ≤ hd.code ∧ hd.code ≤ 308 ∧ args.followRedirects = true))
    (hverb : verb ≠ str "HEAD")
    (hnocl : hd.headers.find (str "Content-Length") = none)
    (hte : hd.headers.find (str "Transfer-Encoding") = some (str "chunked"))
    (hmax : C.maxSize < 2 ^ 64)
    (hfit : (chunkPayloads chunks).length ≤ C.maxSize)
    (hchunks : DeliversChunks C chunks hd.sock s0)
    (hline : C.readLine s0 = (true, line, s1))
    (hbad : extractInteger 16 true line = .zeroed eof)
    (fuel : Nat) (hfuel : chunks.length + 1 ≤ fuel) :
    request C forceBody args (fuel + 1) url verb body redirects s =
      match C.readBytes 0 s1 with
      | (false, _, s2) =>
        some (.returned ⟨hd.code, [], .ChunkReadError, hd.headers, chunkPayloads chunks,
          str "Cannot read chunk", hd.uploadSize, 0⟩, s2)
      | (true, data, s2) =>
        match C.readLine s2 with
        | (false, _, s3) =>
          some (.returned ⟨hd.code, [], .ChunkReadError, hd.headers,
            chunkPayloads chunks ++ data, hd.errorMsg, hd.uploadSize, 0⟩, s3)
        | (true, _, s3) =>
          some (.returned (finishResponse C hd (chunkPayloads chunks ++ data)), s3) := by
  rw [request_reaches_body C forceBody args fuel url verb body redirects s hd hopen hnr hverb]
  obtain ⟨k, rfl⟩ : ∃ k, fuel = (k + 1) + chunks.length := ⟨fuel - (chunks.length + 1), by omega⟩
  have hsize : ∀ g, readChunkSize true g line = (0, false) := by
    intro g; simp [readChunkSize, hbad]
  have hres : ¬ ((chunkPayloads chunks).length + 0) % 2 ^ 64 > C.maxSize := by
    rw [Nat.add_zero, Nat.mod_eq_of_lt (by omega)]; omega
  simp only [completeExchange, readBody, hnocl, hte, if_true]
  rw [readChunks_delivers C hd hmax chunks [] hd.sock s0 (k + 1) hchunks (by simpa using hfit)]
  rw [List.nil_append]
  simp only [readChunks, hline, hsize, hres, if_false]
  rcases hb : C.readBytes 0 s1 with ⟨ok, data, s2⟩
  cases ok
  · simp
  · rcases he : C.readLine s2 with ⟨ok2, ending, s3⟩
    cases ok2 <;> simp [he]

set_option maxRecDepth 100000 in
/-- C9: the code does not check the size line.  For the chunked body `zz\r\n\r\n`
the extraction of line 446 fails and stores 0, which the loop takes for the last
chunk: the record has error kind `Ok`, not `ChunkReadError`.  For an empty size
line nothing is written to `chunkSize`, which has no initial value: with the value
1000000 in it the socket is asked for 1000000 bytes, with `2^64 - 1` the call of
`reserve` throws, with 0 the record has error kind `Ok`. -/
theorem malformed_chunk_size_unchecked :
    extractInteger 16 true (str "zz\r\n") = .zeroed false ∧
    reached (openExchange (scripted true rejectingCodec) false (plainArgs 5) (str "/a") kGet []
        zzScript) =
      some (200, [(str "Transfer-Encoding", str "chunked")], zzScript.drop 2) ∧
    summary (request (scripted true rejectingCodec) false (plainArgs 5) 2 (str "/a") kGet [] 0
        zzScript) = some (200, .Ok, []) ∧
    extractInteger 16 true (str "\r\n") = .untouched ∧
    extractInteger 16 true [] = .untouched ∧
    readChunkSize true 1000000 (str "\r\n") = (1000000, false) ∧
    (request (logged (withIndeterminate 1000000 (scripted true rejectingCodec))) false
        (plainArgs 5) 2 (str "/a") kGet [] 0 (emptySizeLineScript, [])).map
        (fun result => requestedSizes result.2.2) = some [1000000] ∧
    (request (withIndeterminate (2 ^ 64 - 1) (scripted true rejectingCodec)) false (plainArgs 5) 2
        (str "/a") kGet [] 0 emptySizeLineScript).map Prod.fst = some .lengthError ∧
    summary (request (withIndeterminate 0 (scripted true rejectingCodec)) false (plainArgs 5) 2
        (str "/a") kGet [] 0 emptySizeLineScript) = some (200, .Ok, []) :=
  ⟨by decide, by rfl, by decide, by decide, by decide, by decide, by rfl, by rfl, by decide⟩

theorem redirect_condition (code : Int) (follow : Bool) :
    ((decide (code ≥ 301) && decide (code ≤ 308)) && follow) = true ↔
      (301 ≤ code ∧ code ≤ 308 ∧ follow = true) := by
  simp [and_assoc]

theorem request_follows {σ : Type} (C : Env σ) (forceBody : Bool) (args : HttpRequestArgs)
    (fuel : Nat) (url verb body location : Bytes) (redirects : Int) (s s1 : σ)
    (hfollow : args.followRedirects = true)
    (hred : Redirected C forceBody args verb body url s location s1)
    (hlt : redirects < args.maxRedirects) :
    request C forceBody args (fuel + 1) url verb body redirects s =
      request C forceBody args fuel location verb body (redirects + 1) s1 := by
  obtain ⟨hd, hopen, h1, h2, hloc, hs⟩ := hred
  have hcond := (redirect_condition hd.code args.followRedirects).mpr ⟨h1, h2, hfollow⟩
  have hge : ¬ redirects ≥ args.maxRedirects := by omega
  simp only [request, hopen, hcond, if_true, hloc, hge, if_false, hs]

theorem request_too_many {σ : Type} (C : Env σ) (forceBody : Bool) (args : HttpRequestArgs)
    (fuel : Nat) (url verb body location : Bytes) (redirects : Int) (s s1 : σ)
    (hfollow : args.followRedirects = true)
    (hred : Redirected C forceBody args verb body url s location s1)
    (hge : redirects ≥ args.maxRedirects) :
    errorKind (request C forceBody args (fuel + 1) url verb body redirects s) =
      some .TooManyRedirects := by
  obtain ⟨hd, hopen, h1, h2, hloc, hs⟩ := hred
  have hcond := (redirect_condition hd.code args.followRedirects).mpr ⟨h1, h2, hfollow⟩
  simp only [request, hopen, hcond, if_true, hloc, hge, errorKind]

theorem request_depth_irrelevant {σ : Type} (C : Env σ) (forceBody : Bool)
    (args : HttpRequestArgs) (fuel : Nat) (url verb body : Bytes) (d d' : Int) (s : σ)
    (hd : Head σ) (hopen : openExchange C forceBody args url verb body s = .ok hd)
    (hcode : ¬ (301 ≤ hd.code ∧ hd.code ≤ 308)) :
    request C forceBody args fuel url verb body d s =
      request C forceBody args fuel url verb body d' s := by
  cases fuel with
  | zero => rfl
  | succ fuel =>
    have hcond : ((decide (hd.code ≥ 301) && decide (hd.code ≤ 308)) && args.followRedirects)
        = false := by
      rw [Bool.eq_false_iff]
      intro h
      have := (redirect_condition hd.code args.followRedirects).mp h
      exact hcode ⟨this.1, this.2.1⟩
    simp only [request, hopen, hcond]
    simp

theorem chain_too_many {σ : Type} (C : Env σ) (forceBody : Bool) (args : HttpRequestArgs)
    (verb body : Bytes) (hfollow : args.followRedirects = true) :
    ∀ (n : Nat) (d : Int) (url : Bytes) (s : σ) (url' : Bytes) (s' : σ) (fuel : Nat),
      d + n = args.maxRedirects →
      RedirectChain C forceBody args verb body (n + 1) url s url' s' →
      n + 1 ≤ fuel →
      errorKind (request C forceBody args fuel url verb body d s) = some .TooManyRedirects := by
  intro n
  induction n with
  | zero =>
    intro d url s url' s' fuel hd hchain hfuel
    obtain ⟨location, s1, hred, _⟩ := hchain
    obtain ⟨k, rfl⟩ : ∃ k, fuel = k + 1 := ⟨fuel - 1, by omega⟩
    exact request_too_many C forceBody args k url verb body location d s s1 hfollow hred
      (by simp at hd; omega)
  | succ n ih =>
    intro d url s url' s' fuel hd hchain hfuel
    obtain ⟨location, s1, hred, hrest⟩ := hchain
    obtain ⟨k, rfl⟩ : ∃ k, fuel = k + 1 := ⟨fuel - 1, by omega⟩
    rw [request_follows C forceBody args k url verb body location d s s1 hfollow hred
      (by push_cast at hd; omega)]
    exact ih (d + 1) location s1 url' s' k (by push_cast at hd ⊢; omega) hrest (by omega)

theorem chain_followed {σ : Type} (C : Env σ) (forceBody : Bool) (args : HttpRequestArgs)
    (verb body : Bytes) (hfollow : args.followRedirects = true) :
    ∀ (k : Nat) (d : Int) (url : Bytes) (s : σ) (url' : Bytes) (s' : σ) (fuel : Nat),
      d + k ≤ args.maxRedirects →
      RedirectChain C forceBody args verb body k url s url' s' →
      request C forceBody args (fuel + k) url verb body d s =
        request C forceBody args fuel url' verb body (d + k) s' := by
  intro k
  induction k with
  | zero =>
    intro d url s url' s' fuel _ hchain
    obtain ⟨rfl, rfl⟩ := hchain
    simp
  | succ k ih =>
    intro d url s url' s' fuel hd hchain
    obtain ⟨location, s1, hred, hrest⟩ := hchain
    rw [← Nat.add_assoc,
      request_follows C forceBody args (fuel + k) url verb body location d s s1 hfollow hred
        (by push_cast at hd; omega),
      ih (d + 1) location s1 url' s' fuel (by push_cast at hd ⊢; omega) hrest]
    congr 1
    push_cast; omega

/-- C10 (amended): with `followRedirects` enabled and `maxRedirects = M`, starting
from `redirects = 0`: if the server answers `M + 1` successive requests with a
301-308 response carrying `Location`, `request` returns error kind
`TooManyRedirects`; if it answers `k` successive requests that way, for any
`k` up to `M` (so for `M - 1`), and the next with a response whose status line and
headers parse and that is no redirect, `request` returns what a request for that
last target returns (error kind `Ok` when its body is read). -/
theorem redirect_bound {σ : Type} (C : Env σ) (forceBody : Bool) (args : HttpRequestArgs)
    (verb body : Bytes) (M : Nat)
    (hfollow : args.followRedirects = true) (hM : args.maxRedirects = (M : Int)) :
    (∀ (url : Bytes) (s : σ) (url' : Bytes) (s' : σ) (fuel : Nat),
      RedirectChain C forceBody args verb body (M + 1) url s url' s' → M + 1 ≤ fuel →
      errorKind (request C forceBody args fuel url verb body 0 s) = some .TooManyRedirects) ∧
    (∀ (k : Nat) (url : Bytes) (s : σ) (url' : Bytes) (s' : σ) (hd : Head σ) (fuel : Nat),
      k ≤ M → RedirectChain C forceBody args verb body k url s url' s' →
      openExchange C forceBody args url' verb body s' = .ok hd →
      ¬ (301 ≤ hd.code ∧ hd.code ≤ 308) →
      request C forceBody args (fuel + k) url verb body 0 s =
        request C forceBody args fuel url' verb body 0 s') := by
  constructor
  · intro url s url' s' fuel hchain hfuel
    exact chain_too_many C forceBody args verb body hfollow M 0 url s url' s' fuel
      (by rw [hM]; simp) hchain hfuel
  · intro k url s url' s' hd fuel hk hchain hopen hcode
    rw [chain_followed C forceBody args verb body hfollow k 0 url s url' s' fuel
      (by rw [hM]; omega) hchain]
    exact request_depth_irrelevant C forceBody args fuel url' verb body _ _ s' hd hopen hcode

set_option maxRecDepth 100000 in
/-- C10, with `maxRedirects = 1`: two redirects in a row give `TooManyRedirects`;
one redirect and then `200 OK` with body `ok` gives code 200, payload `ok`, error
kind `Ok`. -/
theorem redirect_bound_witness :
    errorKind (request (scripted true rejectingCodec) false (plainArgs 1) 2 (str "/a") kGet []
      0 twoRedirectsScript) = some .TooManyRedirects ∧
    summary (request (scripted true rejectingCodec) false (plainArgs 1) 2 (str "/a") kGet []
      0 oneRedirectScript) = some (200, .Ok, str "ok") := by
  have h := redirect_bound (scripted true rejectingCodec) false (plainArgs 1) kGet [] 1
    (by rfl) (by rfl)
  refine ⟨h.1 (str "/a") twoRedirectsScript (str "/c") [] 2 ?_ (by decide), ?_⟩
  · exact ⟨str "/b", twoRedirectsScript.drop 2,
      ⟨⟨301, [(str "Location", str "/b")], [], 76, twoRedirectsScript.drop 2⟩,
        by rfl, by decide, by decide, by rfl, by rfl⟩,
      str "/c", [],
      ⟨⟨302, [(str "Location", str "/c")], [], 76, []⟩,
        by rfl, by decide, by decide, by rfl, by rfl⟩,
      by rfl, by rfl⟩
  · rw [h.2 1 (str "/a") oneRedirectScript (str "/b") (oneRedirectScript.drop 2)
      ⟨200, [(str "Content-Length", str "2")], [], 76, [.bytes (str "ok")]⟩ 1 (by decide)
      ⟨str "/b", oneRedirectScript.drop 2,
        ⟨⟨301, [(str "Location", str "/b")], [], 76, oneRedirectScript.drop 2⟩,
          by rfl, by decide, by decide, by rfl, by rfl⟩, by rfl, by rfl⟩
      (by rfl) (by decide)]
    decide

set_option maxRecDepth 100000 in
/-- C10 as stated fails: with `maxRedirects = 1` the server answers one request
with `301` and `Location: /b` (a chain of `M = 1` redirects); `request` follows it
and returns the `200` response of `/b` with error kind `Ok`, not
`TooManyRedirects`. -/
theorem redirect_depth_counterexample :
    (plainArgs 1).followRedirects = true ∧ (plainArgs 1).maxRedirects = 1 ∧
    RedirectChain (scripted true rejectingCodec) false (plainArgs 1) kGet [] 1 (str "/a")
      oneRedirectScript (str "/b") (oneRedirectScript.drop 2) ∧
    summary (request (scripted true rejectingCodec) false (plainArgs 1) 2 (str "/a") kGet [] 0
      oneRedirectScript) = some (200, .Ok, str "ok") := by
  refine ⟨by rfl, by rfl, ?_, by decide⟩
  exact ⟨str "/b", oneRedirectScript.drop 2,
    ⟨⟨301, [(str "Location", str "/b")], [], 76, oneRedirectScript.drop 2⟩,
      by rfl, by decide, by decide, by rfl, by rfl⟩, by rfl, by rfl⟩

/-! #### Redirects, HEAD and the body selection -/

theorem request_redirect_branch {σ : Type} (C : Env σ) (forceBody : Bool)
    (args : HttpRequestArgs) (fuel : Nat) (url verb body : Bytes) (d : Int) (s : σ)
    (hd : Head σ) (hopen : openExchange C forceBody args url verb body s = .ok hd)
    (h1 : 301 ≤ hd.code) (h2 : hd.code ≤ 308) (hfollow : args.followRedirects = true) :
    request C forceBody args (fuel + 1) url verb body d s =
      match hd.headers.find (str "Location") with
      | none =>
        some (.returned ⟨hd.code, [], .MissingLocation, hd.headers, [],
          str "Missing location header for redirect", hd.uploadSize, 0⟩, hd.sock)
      | some location =>
        if d ≥ args.maxRedirects then
          some (.returned ⟨hd.code, [], .TooManyRedirects, hd.headers, [],
            str "Too many redirects: " ++ formatInt d, hd.uploadSize, 0⟩, hd.sock)
        else request C forceBody args fuel location verb body (d + 1) hd.sock := by
  have hcond := (redirect_condition hd.code args.followRedirects).mpr ⟨h1, h2, hfollow⟩
  simp only [request, hopen, hcond, if_true]

theorem request_no_redirect {σ : Type} (C : Env σ) (forceBody : Bool)
    (args : HttpRequestArgs) (fuel : Nat) (url verb body : Bytes) (d : Int) (s : σ)
    (hd : Head σ) (hopen : openExchange C forceBody args url verb body s = .ok hd)
    (hnr : ¬ (301 ≤ hd.code ∧ hd.code ≤ 308 ∧ args.followRedirects = true)) :
    request C forceBody args (fuel + 1) url verb body d s =
      if verb = str "HEAD" then
        some (.returned ⟨hd.code, [], .Ok, hd.headers, [], [], hd.uploadSize, 0⟩, hd.sock)
      else completeExchange C hd fuel := by
  have hcond : ((decide (hd.code ≥ 301) && decide (hd.code ≤ 308)) && args.followRedirects)
      = false := by
    rw [Bool.eq_false_iff]
    intro h
    exact hnr ((redirect_condition hd.code args.followRedirects).mp h)
  simp only [request, hopen, hcond]
  by_cases hv : verb = str "HEAD" <;> simp [hv]

/-- C11: when `request`, called with depth `d`, has parsed a response with a
status code in 301..308 and `followRedirects` is enabled, then, in this order: if
the headers have no `Location` entry the result is `MissingLocation`, whatever `d`
is; else if `d >= maxRedirects` the result is `TooManyRedirects`; else the result
is exactly the result of `request` for the `Location` value with the same verb,
body and arguments at depth `d + 1`.  For a code outside 301..308 the result is
that of the HEAD branch or of the body selection, in which no call of `request`
occurs. -/
theorem redirect_order {σ : Type} (C : Env σ) (forceBody : Bool)
    (args : HttpRequestArgs) (fuel : Nat) (url verb body : Bytes) (d : Int) (s : σ)
    (hd : Head σ) (hopen : openExchange C forceBody args url verb body s = .ok hd) :
    (301 ≤ hd.code → hd.code ≤ 308 → args.followRedirects = true →
      (hd.headers.find (str "Location") = none →
        request C forceBody args (fuel + 1) url verb body d s =
          some (.returned ⟨hd.code, [], .MissingLocation, hd.headers, [],
            str "Missing location header for redirect", hd.uploadSize, 0⟩, hd.sock)) ∧
      (∀ location, hd.headers.find (str "Location") = some location →
        (d ≥ args.maxRedirects →
          request C forceBody args (fuel + 1) url verb body d s =
            some (.returned ⟨hd.code, [], .TooManyRedirects, hd.headers, [],
              str "Too many redirects: " ++ formatInt d, hd.uploadSize, 0⟩, hd.sock)) ∧
        (d < args.maxRedirects →
          request C forceBody args (fuel + 1) url verb body d s =
            request C forceBody args fuel location verb body (d + 1) hd.sock))) ∧
    (¬ (301 ≤ hd.code ∧ hd.code ≤ 308) →
      request C forceBody args (fuel + 1) url verb body d s =
        if verb = str "HEAD" then
          some (.returned ⟨hd.code, [], .Ok, hd.headers, [], [], hd.uploadSize, 0⟩, hd.sock)
        else completeExchange C hd fuel) := by
  constructor
  · intro h1 h2 hfollow
    have hreq := request_redirect_branch C forceBody args fuel url verb body d s hd hopen h1 h2
      hfollow
    refine ⟨fun hloc => ?_, fun location hloc => ⟨fun hge => ?_, fun hlt => ?_⟩⟩
    · rw [hreq, hloc]
    · rw [hreq, hloc]; simp only [hge, if_true]
    · have hge : ¬ d ≥ args.maxRedirects := by omega
      rw [hreq, hloc]; simp only [hge, if_false]
  · intro hcode
    exact request_no_redirect C forceBody args fuel url verb body d s hd hopen
      (fun h => hcode ⟨h.1, h.2.1⟩)

set_option maxRecDepth 100000 in
/-- C11, at a `301` response without `Location`, with depth 7 above
`maxRedirects = 1`: the result is `MissingLocation`. -/
theorem redirect_order_witness :
    summary (request (scripted true rejectingCodec) false (plainArgs 1) 1 (str "/a") kGet [] 7
      movedNowhereScript) = some (301, .MissingLocation, []) := by
  have h := (redirect_order (scripted true rejectingCodec) false (plainArgs 1) 0 (str "/a")
    kGet [] 7 movedNowhereScript ⟨301, [(str "Server", str "x")], [], 76, []⟩ (by rfl)).1
    (by decide) (by decide) (by rfl)
  rw [h.1 (by rfl)]
  rfl

theorem completeExchange_contentLength {σ : Type} (C : Env σ) (hd : Head σ) (fuel : Nat)
    (value : Bytes) (N : Nat) (bytes : Bytes) (s' : σ)
    (hcl : hd.headers.find (str "Content-Length") = some value)
    (hN : readContentLength value = (N : Int))
    (hmax : N ≤ C.maxSize)
    (hread : C.readBytes N hd.sock = (true, bytes, s'))
    (hce : hd.headers.find (str "Content-Encoding") ≠ some (str "gzip")) :
    completeExchange C hd fuel =
      some (.returned ⟨hd.code, [], .Ok, (hd.headers.index (str "Content-Encoding")).2, bytes,
        [], hd.uploadSize, bytes.length⟩, s') := by
  simp only [completeExchange, contentLength_body C hd fuel value N bytes s' hcl hN hmax hread,
    finishResponse_plain C hd bytes hce]

theorem finishResponse_statusCode {σ : Type} (C : Env σ) (hd : Head σ) (payload : Bytes) :
    (finishResponse C hd payload).statusCode = hd.code := by
  unfold finishResponse
  simp only
  split
  · split
    · split <;> rfl
    · rfl
  · rfl

theorem readChunks_statusCode {σ : Type} (C : Env σ) (hd : Head σ) :
    ∀ (fuel : Nat) (good : Bool) (payload : Bytes) (s s' : σ) (r : HttpResponse),
      readChunks C hd fuel good payload s = some (.failed r, s') →
      r.statusCode = hd.code ∧ r.headers = hd.headers ∧ r.errorCode = .ChunkReadError ∧
        r.uploadSize = hd.uploadSize := by
  intro fuel
  induction fuel with
  | zero => intro good payload s s' r h; simp [readChunks] at h
  | succ fuel ih =>
    intro good payload s s' r h
    simp only [readChunks] at h
    rcases h1 : C.readLine s with ⟨ok1, line, s1⟩
    rw [h1] at h
    cases ok1
    · simp only [Option.some.injEq, Prod.mk.injEq, Body.failed.injEq] at h
      obtain ⟨rfl, _⟩ := h
      exact ⟨rfl, rfl, rfl, rfl⟩
    · simp only at h
      split at h
      · simp at h
      · rcases h2 : C.readBytes (readChunkSize good (C.indeterminate s1) line).1 s1 with
          ⟨ok2, chunk, s2⟩
        rw [h2] at h
        cases ok2
        · simp only [Option.some.injEq, Prod.mk.injEq, Body.failed.injEq] at h
          obtain ⟨rfl, _⟩ := h
          exact ⟨rfl, rfl, rfl, rfl⟩
        · simp only at h
          rcases h3 : C.readLine s2 with ⟨ok3, ending, s3⟩
          rw [h3] at h
          cases ok3
          · simp only [Option.some.injEq, Prod.mk.injEq, Body.failed.injEq] at h
            obtain ⟨rfl, _⟩ := h
            exact ⟨rfl, rfl, rfl, rfl⟩
          · simp only at h
            split at h
            · simp at h
            · exact ih _ _ _ _ r h

theorem readBody_failed {σ : Type} (C : Env σ) (hd : Head σ) (fuel : Nat) (s' : σ)
    (r : HttpResponse) (h : readBody C hd fuel = some (.failed r, s')) :
    r.statusCode = hd.code ∧ r.headers = hd.headers ∧
      (r.errorCode = .ChunkReadError ∨ r.errorCode = .CannotReadBody) ∧
      r.uploadSize = hd.uploadSize := by
  unfold readBody at h
  split at h
  · simp only at h
    split at h
    · simp at h
    · split at h
      · simp only [Option.some.injEq, Prod.mk.injEq, Body.failed.injEq] at h
        obtain ⟨rfl, _⟩ := h
        exact ⟨rfl, rfl, Or.inl rfl, rfl⟩
      · simp at h
  · split at h
    · obtain ⟨h1, h2, h3, h4⟩ := readChunks_statusCode C hd fuel true [] hd.sock s' r h
      exact ⟨h1, h2, Or.inl h3, h4⟩
    · split at h
      · simp at h
      · simp only [Option.some.injEq, Prod.mk.injEq, Body.failed.injEq] at h
        obtain ⟨rfl, _⟩ := h
        exact ⟨rfl, rfl, Or.inr rfl, rfl⟩

theorem completeExchange_statusCode {σ : Type} (C : Env σ) (hd : Head σ) (fuel : Nat) (s' : σ)
    (r : HttpResponse) (h : completeExchange C hd fuel = some (.returned r, s')) :
    r.statusCode = hd.code := by
  unfold completeExchange at h
  split at h
  · simp at h
  · simp at h
  · rename_i response s hbody
    simp only [Option.some.injEq, Prod.mk.injEq, Outcome.returned.injEq] at h
    obtain ⟨rfl, _⟩ := h
    exact (readBody_failed C hd fuel _ _ hbody).1
  · simp only [Option.some.injEq, Prod.mk.injEq, Outcome.returned.injEq] at h
    obtain ⟨rfl, _⟩ := h
    exact finishResponse_statusCode C hd _

/-- C12 (amended): with `followRedirects` disabled, a 301 response (with or
without a `Location` header) makes `request` go on to the HEAD branch or to the
body selection, at whatever depth, without any call of `request`; every record
it returns has status code 301; when the response carries `Content-Length: N`, no
`Content-Encoding: gzip`, and the socket delivers the `N` bytes, the record has
error kind `Ok` and those bytes as payload, as they are. -/
theorem no_follow_moved {σ : Type} (C : Env σ) (forceBody : Bool)
    (args : HttpRequestArgs) (fuel : Nat) (url verb body : Bytes) (d : Int) (s : σ)
    (hd : Head σ) (hfollow : args.followRedirects = false)
    (hopen : openExchange C forceBody args url verb body s = .ok hd)
    (hcode : hd.code = 301) :
    (request C forceBody args (fuel + 1) url verb body d s =
      if verb = str "HEAD" then
        some (.returned ⟨301, [], .Ok, hd.headers, [], [], hd.uploadSize, 0⟩, hd.sock)
      else completeExchange C hd fuel) ∧
    (∀ r s', request C forceBody args (fuel + 1) url verb body d s = some (.returned r, s') →
      r.statusCode = 301) ∧
    (∀ (value : Bytes) (N : Nat) (bytes : Bytes) (s' : σ), verb ≠ str "HEAD" →
      hd.headers.find (str "Content-Length") = some value →
      readContentLength value = (N : Int) → N ≤ C.maxSize →
      C.readBytes N hd.sock = (true, bytes, s') →
      hd.headers.find (str "Content-Encoding") ≠ some (str "gzip") →
      request C forceBody args (fuel + 1) url verb body d s =
        some (.returned ⟨301, [], .Ok, (hd.headers.index (str "Content-Encoding")).2, bytes,
          [], hd.uploadSize, bytes.length⟩, s')) := by
  have hreq := request_no_redirect C forceBody args fuel url verb body d s hd hopen
    (by rw [hfollow]; simp)
  refine ⟨by rw [hreq, hcode], ?_, ?_⟩
  · intro r s' h
    rw [hreq] at h
    by_cases hv : verb = str "HEAD"
    · simp only [hv, if_true, Option.some.injEq, Prod.mk.injEq, Outcome.returned.injEq] at h
      obtain ⟨rfl, _⟩ := h
      exact hcode
    · simp only [hv, if_false] at h
      rw [completeExchange_statusCode C hd fuel s' r h, hcode]
  · intro value N bytes s' hv hcl hN hmax hread hce
    rw [hreq]
    simp only [hv, if_false]
    rw [completeExchange_contentLength C hd fuel value N bytes s' hcl hN hmax hread hce, hcode]

set_option maxRecDepth 100000 in
/-- C12, at a `301` response with `Location: /b`, `Content-Length: 5` and the body
`moved`, redirects not followed: code 301, error kind `Ok`, payload `moved`. -/
theorem no_follow_moved_witness :
    summary (request (scripted true rejectingCodec) false noFollowArgs 1 (str "/a") kGet [] 0
      movedScript) = some (301, .Ok, str "moved") := by
  have h := (no_follow_moved (scripted true rejectingCodec) false noFollowArgs 0 (str "/a")
    kGet [] 0 movedScript
    ⟨301, [(str "Location", str "/b"), (str "Content-Length", str "5")], [], 76,
      [.bytes (str "moved")]⟩ (by rfl) (by rfl) (by rfl)).2.2
    (str "5") 5 (str "moved") [] (by decide) (by rfl) (by decide) (by decide) (by rfl)
    (by decide)
  rw [h]
  rfl

set_option maxRecDepth 100000 in
/-- C12 as stated fails: with `followRedirects` disabled, a `301` response that
carries `Location: /b` and neither `Content-Length` nor `Transfer-Encoding` gives
error kind `CannotReadBody`, not `Ok`. -/
theorem no_follow_moved_counterexample :
    noFollowArgs.followRedirects = false ∧
    reached (openExchange (scripted true rejectingCodec) false noFollowArgs (str "/a") kGet []
      movedNoBodyScript) = some (301, [(str "Location", str "/b")], []) ∧
    summary (request (scripted true rejectingCodec) false noFollowArgs 1 (str "/a") kGet [] 0
      movedNoBodyScript) = some (301, .CannotReadBody, []) :=
  ⟨by rfl, by rfl, by decide⟩

/-- C13: for the verb HEAD, once the status line and the headers are parsed and
no redirect is followed (the code is outside 301..308 or `followRedirects` is
off), `request` returns error kind `Ok` with the parsed code and headers, an empty
payload, download size 0 and an empty diagnostic, whatever the headers are; the
state of the connection is the one the header parser left, so no further read of
the socket is made. -/
theorem head_response {σ : Type} (C : Env σ) (forceBody : Bool)
    (args : HttpRequestArgs) (fuel : Nat) (url body : Bytes) (d : Int) (s : σ) (hd : Head σ)
    (hopen : openExchange C forceBody args url (str "HEAD") body s = .ok hd)
    (hnr : ¬ (301 ≤ hd.code ∧ hd.code ≤ 308 ∧ args.followRedirects = true)) :
    request C forceBody args (fuel + 1) url (str "HEAD") body d s =
      some (.returned ⟨hd.code, [], .Ok, hd.headers, [], [], hd.uploadSize, 0⟩, hd.sock) := by
  rw [request_no_redirect C forceBody args fuel url (str "HEAD") body d s hd hopen hnr]
  simp

set_option maxRecDepth 100000 in
/-- C13, at a `200` response with `Content-Length: 5` and `Content-Encoding: gzip`
to a HEAD request: error kind `Ok`, the two headers, an empty payload, and nothing
is read after the headers. -/
theorem head_response_witness :
    request (scripted true rejectingCodec) false (plainArgs 5) 1 (str "/a") (str "HEAD") [] 0
        headScript =
      some (.returned ⟨200, [], .Ok,
        [(str "Content-Length", str "5"), (str "Content-Encoding", str "gzip")], [], [], 77, 0⟩,
        []) :=
  head_response (scripted true rejectingCodec) false (plainArgs 5) 0 (str "/a") [] 0 headScript
    ⟨200, [(str "Content-Length", str "5"), (str "Content-Encoding", str "gzip")], [], 77, []⟩
    (by rfl) (by decide)

theorem readBody_of_contentLength {σ : Type} (C : Env σ) (hd : Head σ) (fuel : Nat)
    (value : Bytes) (N : Nat)
    (hcl : hd.headers.find (str "Content-Length") = some value)
    (hN : readContentLength value = (N : Int)) (hmax : N ≤ C.maxSize) :
    readBody C hd fuel =
      match C.readBytes N hd.sock with
      | (false, _, s) =>
        some (.failed ⟨hd.code, [], .ChunkReadError, hd.headers, [], str "Cannot read chunk",
          hd.uploadSize, 0⟩, s)
      | (true, chunk, s) => some (.read chunk, s) := by
  have hlt := readContentLength_lt value
  have hmod : ((N : Int) % 2 ^ 64).toNat = N := by
    rw [hN] at hlt
    have h1 : (N : Int) % 2 ^ 64 = (N : Int) := Int.emod_eq_of_lt (by omega) (by omega)
    rw [h1]; simp
  simp only [readBody, hcl, hN, hmod]
  simp [Nat.not_lt.mpr hmax]

/-- C14: when a response that reaches the body selection carries a
`Content-Length` header (reading as `N`), whether or not it also carries
`Transfer-Encoding: chunked`, the body selection is one read of exactly `N` bytes,
which are the payload, and no chunk decoding; the chunk loop is entered only when
`Content-Length` is absent and the `Transfer-Encoding` value equals `chunked`: with
`Content-Length` absent and another or no `Transfer-Encoding`, the body selection
reads nothing. -/
theorem contentLength_precedence {σ : Type} (C : Env σ) (forceBody : Bool)
    (args : HttpRequestArgs) (fuel : Nat) (url verb body : Bytes) (d : Int) (s : σ)
    (hd : Head σ)
    (hopen : openExchange C forceBody args url verb body s = .ok hd)
    (hnr : ¬ (301 ≤ hd.code ∧ hd.code ≤ 308 ∧ args.followRedirects = true))
    (hverb : verb ≠ str "HEAD") :
    (∀ (value : Bytes) (N : Nat), hd.headers.find (str "Content-Length") = some value →
      readContentLength value = (N : Int) → N ≤ C.maxSize →
      readBody C hd fuel =
        (match C.readBytes N hd.sock with
        | (false, _, s) =>
          some (.failed ⟨hd.code, [], .ChunkReadError, hd.headers, [], str "Cannot read chunk",
            hd.uploadSize, 0⟩, s)
        | (true, chunk, s) => some (.read chunk, s)) ∧
      request C forceBody args (fuel + 1) url verb body d s =
        (match C.readBytes N hd.sock with
        | (false, _, s) =>
          some (.returned ⟨hd.code, [], .ChunkReadError, hd.headers, [],
            str "Cannot read chunk", hd.uploadSize, 0⟩, s)
        | (true, chunk, s) => some (.returned (finishResponse C hd chunk), s))) ∧
    (hd.headers.find (str "Content-Length") = none →
      hd.headers.find (str "Transfer-Encoding") = some (str "chunked") →
      readBody C hd fuel = readChunks C hd fuel true [] hd.sock) ∧
    (hd.headers.find (str "Content-Length") = none →
      hd.headers.find (str "Transfer-Encoding") ≠ some (str "chunked") →
      readBody C hd fuel =
        if hd.code = 204 then some (.read [], hd.sock)
        else some (.failed ⟨hd.code, [], .CannotReadBody, hd.headers, [],
          str "Cannot read http body", hd.uploadSize, 0⟩, hd.sock)) := by
  refine ⟨?_, ?_, ?_⟩
  · intro value N hcl hN hmax
    have hbody := readBody_of_contentLength C hd fuel value N hcl hN hmax
    refine ⟨hbody, ?_⟩
    rw [request_reaches_body C forceBody args fuel url verb body d s hd hopen hnr hverb]
    simp only [completeExchange, hbody]
    rcases C.readBytes N hd.sock with ⟨ok, chunk, s1⟩
    cases ok <;> rfl
  · intro hcl hte
    simp only [readBody, hcl, hte, if_true]
  · intro hcl hte
    simp only [readBody, hcl, hte, if_false]

set_option maxRecDepth 100000 in
/-- C14, at a `200` response with `Content-Length: 5` and
`Transfer-Encoding: chunked` whose next five bytes are `4\r\nWi`: the payload is
those five bytes, undecoded. -/
theorem contentLength_precedence_witness :
    summary (request (scripted true rejectingCodec) false (plainArgs 5) 1 (str "/a") kGet [] 0
      bothScript) = some (200, .Ok, str "4\r\nWi") := by
  have h := ((contentLength_precedence (scripted true rejectingCodec) false (plainArgs 5) 0
    (str "/a") kGet [] 0 bothScript
    ⟨200, [(str "Content-Length", str "5"), (str "Transfer-Encoding", str "chunked")], [], 76,
      [.bytes (str "4\r\nWi")]⟩ (by rfl) (by decide) (by decide)).1
    (str "5") 5 (by rfl) (by decide) (by decide)).2
  rw [h]
  rfl

/-- C15 (amended): for a response that reaches the body selection with neither
a `Content-Length` header nor `Transfer-Encoding: chunked`: if the status code is
204 and the response has no `Content-Encoding: gzip`, `request` returns error kind
`Ok` with an empty payload and reads nothing (the state of the connection is the
one the header parser left); for every other status code it returns error kind
`CannotReadBody`, and reads nothing either. -/
theorem neither_length_nor_chunked {σ : Type} (C : Env σ) (forceBody : Bool)
    (args : HttpRequestArgs) (fuel : Nat) (url verb body : Bytes) (d : Int) (s : σ)
    (hd : Head σ)
    (hopen : openExchange C forceBody args url verb body s = .ok hd)
    (hnr : ¬ (301 ≤ hd.code ∧ hd.code ≤ 308 ∧ args.followRedirects = true))
    (hverb : verb ≠ str "HEAD")
    (hcl : hd.headers.find (str "Content-Length") = none)
    (hte : hd.headers.find (str "Transfer-Encoding") ≠ some (str "chunked")) :
    (hd.code = 204 → hd.headers.find (str "Content-Encoding") ≠ some (str "gzip") →
      request C forceBody args (fuel + 1) url verb body d s =
        some (.returned ⟨204, [], .Ok, (hd.headers.index (str "Content-Encoding")).2, [], [],
          hd.uploadSize, 0⟩, hd.sock)) ∧
    (hd.code ≠ 204 →
      request C forceBody args (fuel + 1) url verb body d s =
        some (.returned ⟨hd.code, [], .CannotReadBody, hd.headers, [],
          str "Cannot read http body", hd.uploadSize, 0⟩, hd.sock)) := by
  have hreq := request_reaches_body C forceBody args fuel url verb body d s hd hopen hnr hverb
  constructor
  · intro hcode hce
    rw [hreq]
    simp only [completeExchange, readBody, hcl, hte, if_false, hcode, if_true,
      finishResponse_plain C hd [] hce, List.length_nil]
  · intro hcode
    rw [hreq]
    simp only [completeExchange, readBody, hcl, hte, if_false, hcode]

set_option maxRecDepth 100000 in
/-- C15, at a `204` response without headers (`Ok`, empty payload) and at a `200`
response without `Content-Length` and `Transfer-Encoding` (`CannotReadBody`). -/
theorem neither_length_nor_chunked_witness :
    summary (request (scripted true rejectingCodec) false (plainArgs 5) 1 (str "/a") kGet [] 0
      noContentScript) = some (204, .Ok, []) ∧
    summary (request (scripted true rejectingCodec) false (plainArgs 5) 1 (str "/a") kGet [] 0
      noLengthScript) = some (200, .CannotReadBody, []) := by
  have h1 := (neither_length_nor_chunked (scripted true rejectingCodec) false (plainArgs 5) 0
    (str "/a") kGet [] 0 noContentScript ⟨204, [], [], 76, []⟩ (by rfl) (by decide)
    (by decide) (by rfl) (by decide)).1 (by rfl) (by decide)
  have h2 := (neither_length_nor_chunked (scripted true rejectingCodec) false (plainArgs 5) 0
    (str "/a") kGet [] 0 noLengthScript ⟨200, [(str "Server", str "x")], [], 76, []⟩ (by rfl)
    (by decide) (by decide) (by rfl) (by decide)).2 (by decide)
  rw [h1, h2]
  exact ⟨rfl, rfl⟩

set_option maxRecDepth 100000 in
/-- C15 as stated fails: a `204` response with neither `Content-Length` nor
`Transfer-Encoding` that carries `Content-Encoding: gzip` gives, in a build without
zlib, error kind `Gzip`, not `Ok`. -/
theorem no_content_gzip_counterexample :
    reached (openExchange (scripted false rejectingCodec) false (plainArgs 5) (str "/a") kGet []
      gzipNoContentScript) = some (204, [(str "Content-Encoding", str "gzip")], []) ∧
    summary (request (scripted false rejectingCodec) false (plainArgs 5) 1 (str "/a") kGet [] 0
      gzipNoContentScript) = some (204, .Gzip, []) :=
  ⟨by rfl, by decide⟩

/-! #### Sizes and what failure records keep -/

theorem index_of_value (headers : WebSocketHttpHeaders) (key value : Bytes)
    (hne : value ≠ []) (h : (headers.index key).1 = value) :
    (headers.index key).2 = headers := by
  unfold WebSocketHttpHeaders.index at h ⊢
  cases hf : headers.find key with
  | none => rw [hf] at h; exact absurd h.symm hne
  | some v => rfl

theorem finishResponse_fields {σ : Type} (C : Env σ) (hd : Head σ) (payload : Bytes) :
    (finishResponse C hd payload).uploadSize = hd.uploadSize ∧
    (finishResponse C hd payload).downloadSize = payload.length ∧
    ((finishResponse C hd payload).errorCode = .Ok ∨
      (finishResponse C hd payload).errorCode = .Gzip) ∧
    ((finishResponse C hd payload).errorCode = .Gzip →
      (finishResponse C hd payload).headers = hd.headers ∧
      (finishResponse C hd payload).payload = payload) := by
  have hgz : str "gzip" ≠ [] := by decide
  unfold finishResponse
  simp only
  split
  · rename_i hidx
    have hh := index_of_value hd.headers _ _ hgz hidx
    split
    · split
      · exact ⟨rfl, rfl, Or.inr rfl, fun _ => ⟨hh, rfl⟩⟩
      · exact ⟨rfl, rfl, Or.inl rfl, fun h => by simp at h⟩
    · exact ⟨rfl, rfl, Or.inr rfl, fun _ => ⟨hh, rfl⟩⟩
  · exact ⟨rfl, rfl, Or.inl rfl, fun h => by simp at h⟩

theorem completeExchange_returned {σ : Type} (C : Env σ) (hd : Head σ) (fuel : Nat) (s' : σ)
    (r : HttpResponse) (h : completeExchange C hd fuel = some (.returned r, s')) :
    (∃ payload, readBody C hd fuel = some (.read payload, s') ∧
      r = finishResponse C hd payload) ∨
    (readBody C hd fuel = some (.failed r, s')) := by
  unfold completeExchange at h
  split at h
  · simp at h
  · simp at h
  · rename_i response s hbody
    simp only [Option.some.injEq, Prod.mk.injEq, Outcome.returned.injEq] at h
    obtain ⟨rfl, rfl⟩ := h
    exact Or.inr hbody
  · rename_i payload s hbody
    simp only [Option.some.injEq, Prod.mk.injEq, Outcome.returned.injEq] at h
    obtain ⟨rfl, rfl⟩ := h
    exact Or.inl ⟨payload, hbody, rfl⟩

/-- C17: every record that `request` returns with error kind `Ok` or `Gzip` from
the body selection on comes from a body selection that completed with a payload,
and its download size is the byte length of that payload, as read from the
socket; in particular, for a response with `Content-Encoding: gzip` that the codec
decodes, the download size is the length of the compressed bytes while the
payload is the decompressed bytes. -/
theorem downloadSize_before_decoding {σ : Type} (C : Env σ) (forceBody : Bool)
    (args : HttpRequestArgs) (fuel : Nat) (url verb body : Bytes) (d : Int) (s : σ)
    (hd : Head σ)
    (hopen : openExchange C forceBody args url verb body s = .ok hd)
    (hnr : ¬ (301 ≤ hd.code ∧ hd.code ≤ 308 ∧ args.followRedirects = true))
    (hverb : verb ≠ str "HEAD") :
    (∀ (r : HttpResponse) (s' : σ),
      request C forceBody args (fuel + 1) url verb body d s = some (.returned r, s') →
      (r.errorCode = .Ok ∨ r.errorCode = .Gzip) →
      ∃ payload, readBody C hd fuel = some (.read payload, s') ∧
        r.downloadSize = payload.length) ∧
    (∀ (payload decoded : Bytes) (s' : σ), readBody C hd fuel = some (.read payload, s') →
      hd.headers.find (str "Content-Encoding") = some (str "gzip") → C.useZlib = true →
      C.gzipDecompress payload = (true, decoded) →
      request C forceBody args (fuel + 1) url verb body d s =
        some (.returned ⟨hd.code, [], .Ok, hd.headers, decoded, [], hd.uploadSize,
          payload.length⟩, s')) := by
  have hreq := request_reaches_body C forceBody args fuel url verb body d s hd hopen hnr hverb
  constructor
  · intro r s' hret hkind
    rw [hreq] at hret
    rcases completeExchange_returned C hd fuel s' r hret with ⟨payload, hbody, rfl⟩ | hfail
    · exact ⟨payload, hbody, (finishResponse_fields C hd payload).2.1⟩
    · have hk := (readBody_failed C hd fuel s' r hfail).2.2.1
      rcases hkind with h | h <;> rcases hk with h' | h' <;> rw [h] at h' <;> simp at h'
  · intro payload decoded s' hbody hce hzlib hcodec
    rw [hreq]
    simp only [completeExchange, hbody, finishResponse, WebSocketHttpHeaders.index, hce, hzlib,
      hcodec, if_true]

set_option maxRecDepth 100000 in
/-- C17, at the response with `Content-Length: 5`, `Content-Encoding: gzip` and
the five bytes `hello`, with a codec that decodes them to `hello, world`: the
download size is 5 and the payload is `hello, world`. -/
theorem downloadSize_before_decoding_witness :
    request (scripted true (fixedCodec (str "hello, world"))) false (plainArgs 5) 1 (str "/a")
        kGet [] 0 gzipHelloScript =
      some (.returned ⟨200, [], .Ok,
        [(str "Content-Length", str "5"), (str "Content-Encoding", str "gzip")],
        str "hello, world", [], 76, 5⟩, []) :=
  (downloadSize_before_decoding (scripted true (fixedCodec (str "hello, world"))) false
    (plainArgs 5) 0 (str "/a") kGet [] 0 gzipHelloScript
    ⟨200, [(str "Content-Length", str "5"), (str "Content-Encoding", str "gzip")], [], 76,
      [.bytes (str "hello")]⟩ (by rfl) (by decide) (by decide)).2
    (str "hello") (str "hello, world") [] (by rfl) (by rfl) (by rfl) (by rfl)

theorem openExchange_error {σ : Type} (C : Env σ) (forceBody : Bool) (args : HttpRequestArgs)
    (url verb body : Bytes) (s s1 : σ) (r : HttpResponse)
    (h : openExchange C forceBody args url verb body s = .error (r, s1)) :
    r.uploadSize = (writtenSize C forceBody args url verb body s).getD 0 ∧
    ((writtenSize C forceBody args url verb body s = none) ↔ beforeWrite r.errorCode = true) ∧
    afterHeaders r.errorCode = false ∧ r.errorCode ≠ .Ok ∧
    (r.errorCode ≠ .CannotCreateSocket → r.errorMsg ≠ []) ∧
    (r.errorCode = .HeaderParsingError →
      ∃ s0 line s2, C.readLine s0 = (true, line, s2) ∧ sscanfStatus line = some r.statusCode) ∧
    (r.errorCode ≠ .HeaderParsingError →
      r.statusCode = 0 ∧ r.headers = [] ∧ r.payload = [] ∧ r.downloadSize = 0) := by
  have m1 : ∀ t : Bytes, str "Cannot parse url: " ++ t ≠ [] := by
    intro t; simp [str]
  have m2 : ∀ t : Bytes, str "Cannot connect to url: " ++ t ≠ [] := by
    intro t; simp [str]
  have m3 : str "Cannot send request" ≠ [] := by decide
  have m4 : str "Cannot retrieve status line" ≠ [] := by decide
  have m5 : str "Cannot parse response code from status line" ≠ [] := by decide
  have m6 : str "Cannot parse http headers" ≠ [] := by decide
  unfold openExchange at h
  unfold writtenSize
  cases hp : C.parse url with
  | none =>
    rw [hp] at h
    simp only [Except.error.injEq, Prod.mk.injEq] at h
    obtain ⟨rfl, _⟩ := h
    refine ⟨rfl, ?_, ?_, ?_, ?_, ?_, ?_⟩ <;> simp [beforeWrite, afterHeaders, m1]
  | some u =>
    rw [hp] at h
    simp only at h ⊢
    rcases hc : C.createSocket (u.protocol == str "https") s with ⟨ok, msg, s2⟩
    rw [hc] at h
    cases ok
    · simp only [Except.error.injEq, Prod.mk.injEq] at h
      obtain ⟨rfl, _⟩ := h
      refine ⟨rfl, ?_, ?_, ?_, ?_, ?_, ?_⟩ <;> simp [beforeWrite, afterHeaders]
    · simp only at h ⊢
      rcases hn : C.connect u.host u.port s2 with ⟨ok2, msg2, s3⟩
      rw [hn] at h
      cases ok2
      · simp only [Except.error.injEq, Prod.mk.injEq] at h
        obtain ⟨rfl, _⟩ := h
        refine ⟨rfl, ?_, ?_, ?_, ?_, ?_, ?_⟩ <;>
          simp [beforeWrite, afterHeaders, List.append_assoc, m2]
      · simp only at h ⊢
        rcases hw : C.writeBytes (buildRequest C forceBody args verb u.host u.path body) s3 with
          ⟨ok3, s4⟩
        rw [hw] at h
        cases ok3
        · simp only [Except.error.injEq, Prod.mk.injEq] at h
          obtain ⟨rfl, _⟩ := h
          refine ⟨rfl, ?_, ?_, ?_, ?_, ?_, ?_⟩ <;> simp [beforeWrite, afterHeaders, m3]
        · simp only at h ⊢
          rcases hl : C.readLine s4 with ⟨ok4, line, s5⟩
          rw [hl] at h
          cases ok4
          · simp only [Except.error.injEq, Prod.mk.injEq] at h
            obtain ⟨rfl, _⟩ := h
            refine ⟨rfl, ?_, ?_, ?_, ?_, ?_, ?_⟩ <;> simp [beforeWrite, afterHeaders, m4]
          · simp only at h
            cases hs : sscanfStatus line with
            | none =>
              rw [hs] at h
              simp only [Except.error.injEq, Prod.mk.injEq] at h
              obtain ⟨rfl, _⟩ := h
              refine ⟨rfl, ?_, ?_, ?_, ?_, ?_, ?_⟩ <;> simp [beforeWrite, afterHeaders, m5]
            | some code =>
              rw [hs] at h
              simp only at h
              rcases hh : C.parseHttpHeaders s5 with ⟨ok5, headers, s6⟩
              rw [hh] at h
              cases ok5
              · simp only [Except.error.injEq, Prod.mk.injEq] at h
                obtain ⟨rfl, _⟩ := h
                refine ⟨rfl, ?_, ?_, ?_, ?_, ?_, ?_⟩ <;>
                  simp [beforeWrite, afterHeaders, m6]
                exact ⟨s4, line, ⟨s5, hl⟩, hs⟩
              · simp at h

theorem openExchange_ok {σ : Type} (C : Env σ) (forceBody : Bool) (args : HttpRequestArgs)
    (url verb body : Bytes) (s : σ) (hd : Head σ)
    (h : openExchange C forceBody args url verb body s = .ok hd) :
    writtenSize C forceBody args url verb body s = some hd.uploadSize := by
  unfold openExchange at h
  unfold writtenSize
  cases hp : C.parse url with
  | none => rw [hp] at h; simp at h
  | some u =>
    rw [hp] at h
    simp only at h ⊢
    rcases hc : C.createSocket (u.protocol == str "https") s with ⟨ok, msg, s2⟩
    rw [hc] at h
    cases ok
    · simp at h
    · simp only at h ⊢
      rcases hn : C.connect u.host u.port s2 with ⟨ok2, msg2, s3⟩
      rw [hn] at h
      cases ok2
      · simp at h
      · simp only at h ⊢
        rcases hw : C.writeBytes (buildRequest C forceBody args verb u.host u.path body) s3 with
          ⟨ok3, s4⟩
        rw [hw] at h
        cases ok3
        · simp at h
        · simp only at h ⊢
          rcases hl : C.readLine s4 with ⟨ok4, line, s5⟩
          rw [hl] at h
          cases ok4
          · simp at h
          · simp only at h
            cases hs : sscanfStatus line with
            | none => rw [hs] at h; simp at h
            | some code =>
              rw [hs] at h
              simp only at h
              rcases hh : C.parseHttpHeaders s5 with ⟨ok5, headers, s6⟩
              rw [hh] at h
              cases ok5
              · simp at h
              · simp only [Except.ok.injEq] at h
                rw [← h]

theorem request_step_record {σ : Type} (C : Env σ) (forceBody : Bool) (args : HttpRequestArgs)
    (fuel : Nat) (url verb body : Bytes) (d : Int) (s s' : σ) (hd : Head σ) (r : HttpResponse)
    (hopen : openExchange C forceBody args url verb body s = .ok hd)
    (hnrec : ¬ Recurses C forceBody args url verb body d s)
    (hret : request C forceBody args (fuel + 1) url verb body d s = some (.returned r, s')) :
    r.statusCode = hd.code ∧ r.uploadSize = hd.uploadSize ∧ beforeWrite r.errorCode = false ∧
    (r.errorCode ≠ .Ok → r.headers = hd.headers) ∧ r.errorCode ≠ .HeaderParsingError := by
  by_cases hred : 301 ≤ hd.code ∧ hd.code ≤ 308 ∧ args.followRedirects = true
  · rw [request_redirect_branch C forceBody args fuel url verb body d s hd hopen hred.1 hred.2.1
      hred.2.2] at hret
    cases hloc : hd.headers.find (str "Location") with
    | none =>
      rw [hloc] at hret
      simp only [Option.some.injEq, Prod.mk.injEq, Outcome.returned.injEq] at hret
      obtain ⟨rfl, _⟩ := hret
      exact ⟨rfl, rfl, by simp [beforeWrite], fun _ => rfl, by simp⟩
    | some location =>
      rw [hloc] at hret
      by_cases hge : d ≥ args.maxRedirects
      · simp only [hge, if_true, Option.some.injEq, Prod.mk.injEq, Outcome.returned.injEq]
          at hret
        obtain ⟨rfl, _⟩ := hret
        exact ⟨rfl, rfl, by simp [beforeWrite], fun _ => rfl, by simp⟩
      · exact absurd ⟨hd, location, hopen, hred.1, hred.2.1, hred.2.2, hloc, by omega⟩ hnrec
  · rw [request_no_redirect C forceBody args fuel url verb body d s hd hopen hred] at hret
    by_cases hv : verb = str "HEAD"
    · simp only [hv, if_true, Option.some.injEq, Prod.mk.injEq, Outcome.returned.injEq] at hret
      obtain ⟨rfl, _⟩ := hret
      exact ⟨rfl, rfl, by simp [beforeWrite], fun h => absurd rfl h, by simp⟩
    · simp only [hv, if_false] at hret
      rcases completeExchange_returned C hd fuel s' r hret with ⟨payload, _, rfl⟩ | hfail
      · have hf := finishResponse_fields C hd payload
        refine ⟨finishResponse_statusCode C hd payload, hf.1, ?_, ?_, ?_⟩
        · rcases hf.2.2.1 with h | h <;> rw [h] <;> decide
        · intro hne
          rcases hf.2.2.1 with h | h
          · exact absurd h hne
          · exact (hf.2.2.2 h).1
        · rcases hf.2.2.1 with h | h <;> rw [h] <;> decide
      · have hf := readBody_failed C hd fuel s' r hfail
        refine ⟨hf.1, hf.2.2.2, ?_, fun _ => hf.2.1, ?_⟩
        · rcases hf.2.2.1 with h | h <;> rw [h] <;> decide
        · rcases hf.2.2.1 with h | h <;> rw [h] <;> decide

/-- C16: for every invocation of `request` that does not call `request` again
and returns a record: if the socket write of the serialized request succeeded,
the upload size of the record is the byte length of the serialized request,
whatever step fails or succeeds afterwards; if the call returned at or before a
failed write, the upload size is 0; and the second case is the one of the error
kinds `UrlMalformed`, `CannotCreateSocket`, `CannotConnect` and `SendError`. -/
theorem uploadSize_invariant {σ : Type} (C : Env σ) (forceBody : Bool)
    (args : HttpRequestArgs) (fuel : Nat) (url verb body : Bytes) (d : Int) (s s' : σ)
    (r : HttpResponse)
    (hnrec : ¬ Recurses C forceBody args url verb body d s)
    (hret : request C forceBody args (fuel + 1) url verb body d s = some (.returned r, s')) :
    r.uploadSize = (writtenSize C forceBody args url verb body s).getD 0 ∧
    (writtenSize C forceBody args url verb body s = none ↔ beforeWrite r.errorCode = true) := by
  cases hopen : openExchange C forceBody args url verb body s with
  | error e =>
    obtain ⟨r0, s0⟩ := e
    have hr : r = r0 := by
      simp only [request, hopen, Option.some.injEq, Prod.mk.injEq, Outcome.returned.injEq]
        at hret
      exact hret.1.symm
    subst hr
    have h := openExchange_error C forceBody args url verb body s s0 r hopen
    exact ⟨h.1, h.2.1⟩
  | ok hd =>
    have h := request_step_record C forceBody args fuel url verb body d s s' hd r hopen hnrec
      hret
    rw [openExchange_ok C forceBody args url verb body s hd hopen]
    refine ⟨h.2.1, ?_⟩
    rw [h.2.2.1]
    simp

set_option maxRecDepth 100000 in
/-- C16, at a `200` response without `Content-Length` and `Transfer-Encoding`:
the record has error kind `CannotReadBody` and upload size 76, the length of the
request that was written. -/
theorem uploadSize_invariant_witness :
    request (scripted true rejectingCodec) false (plainArgs 5) 1 (str "/a") kGet [] 0
        noLengthScript =
      some (.returned ⟨200, [], .CannotReadBody, [(str "Server", str "x")], [],
        str "Cannot read http body", 76, 0⟩, []) ∧
    writtenSize (scripted true rejectingCodec) false (plainArgs 5) (str "/a") kGet []
      noLengthScript = some 76 ∧
    (76 : Nat) = (writtenSize (scripted true rejectingCodec) false (plainArgs 5) (str "/a") kGet
      [] noLengthScript).getD 0 := by
  have h := uploadSize_invariant (scripted true rejectingCodec) false (plainArgs 5) 0 (str "/a")
    kGet [] 0 noLengthScript []
    ⟨200, [], .CannotReadBody, [(str "Server", str "x")], [], str "Cannot read http body", 76, 0⟩
    (by
      rintro ⟨hd, location, hopen, h1, _⟩
      have hcode : hd.code = 200 := by
        have : (Except.ok hd : Except (HttpResponse × List Reply) (Head (List Reply))) =
            .ok ⟨200, [(str "Server", str "x")], [], 76, []⟩ := hopen.symm.trans (by rfl)
        simp only [Except.ok.injEq] at this
        rw [this]
      omega)
    (by rfl)
  exact ⟨by rfl, by rfl, h.1⟩

set_option maxRecDepth 100000 in
/-- C19, the code at a `200` response with `Content-Length: -1`: the variable
`contentLength` becomes -1, `payload.reserve` is called with `2^64 - 1`, above
`max_size()`, and `std::length_error` leaves `request`: no record is returned. -/
theorem negative_contentLength_throws :
    readContentLength (str "-1") = -1 ∧
    request (scripted true rejectingCodec) false (plainArgs 5) 1 (str "/a") kGet [] 0
      negativeLengthScript = some (.lengthError, []) ∧
    returnedRecord (request (scripted true rejectingCodec) false (plainArgs 5) 1 (str "/a") kGet
      [] 0 negativeLengthScript) = none :=
  ⟨by decide, by rfl, by rfl⟩

set_option maxRecDepth 100000 in
/-- C20, the code at a chunked response that ends after its headers, with a
socket factory that leaves `errorMsg` empty on success: the read of the size line
fails and the record has error kind `ChunkReadError` with an empty diagnostic. -/
theorem chunk_line_failure_empty_diagnostic :
    request (scripted true rejectingCodec) false (plainArgs 5) 2 (str "/a") kGet [] 0
        cutChunkedScript =
      some (.returned ⟨200, [], .ChunkReadError, [(str "Transfer-Encoding", str "chunked")], [],
        [], 76, 0⟩, []) :=
  by rfl

/-! #### The request text -/

theorem find_isNone_eq_suppliesNo (headers : WebSocketHttpHeaders) (name : Bytes) :
    (headers.find name).isNone = suppliesNo headers name := by
  unfold WebSocketHttpHeaders.find suppliesNo
  induction headers with
  | nil => rfl
  | cons entry rest ih =>
    obtain ⟨k, v⟩ := entry
    by_cases h : name = k
    · subst h; simp [List.lookup]
    · have h' : (name == k) = false := by simpa using h
      have h2 : k ≠ name := fun e => h e.symm
      simp only [List.lookup, h', List.all_cons, ih]
      simp [h2]

theorem foldl_header_lines (headers : WebSocketHttpHeaders) (ss : Bytes) :
    headers.foldl (fun ss it => ss ++ it.1 ++ str ": " ++ it.2 ++ str "\r\n") ss =
      ss ++ headers.flatMap (fun header => header.1 ++ str ": " ++ header.2 ++ str "\r\n") := by
  induction headers generalizing ss with
  | nil => simp
  | cons it rest ih =>
    rw [List.foldl_cons, ih, List.flatMap_cons]
    simp only [List.append_assoc]

theorem carriesBody_eq (forceBody : Bool) (verb : Bytes) :
    (verb == kPost || verb == kPut || verb == kPatch || forceBody) = carriesBody forceBody verb := by
  unfold carriesBody kPost kPut kPatch
  by_cases h1 : verb = str "POST" <;> by_cases h2 : verb = str "PUT" <;>
    by_cases h3 : verb = str "PATCH" <;> cases forceBody <;> simp [h1, h2, h3]

theorem requestLines_eq {σ : Type} (C : Env σ) (args : HttpRequestArgs)
    (verb host path : Bytes) :
    (let ss := verb ++ str " " ++ path ++ str " HTTP/1.1\r\n"
     let ss := ss ++ str "Host: " ++ host ++ str "\r\n"
     let ss := if C.useZlib && args.compress then ss ++ str "Accept-Encoding: gzip" ++ str "\r\n"
       else ss
     let ss := args.extraHeaders.foldl
       (fun ss it => ss ++ it.1 ++ str ": " ++ it.2 ++ str "\r\n") ss
     let ss := if (args.extraHeaders.find (str "Accept")).isNone
       then ss ++ str "Accept: */*" ++ str "\r\n" else ss
     if (args.extraHeaders.find (str "User-Agent")).isNone
       then ss ++ str "User-Agent: " ++ C.userAgent ++ str "\r\n" else ss) =
      requestLinesSpec C args verb host path := by
  have e1 : str "Accept-Encoding: gzip\r\n" = str "Accept-Encoding: gzip" ++ str "\r\n" := by
    decide
  have e2 : str "Accept: */*\r\n" = str "Accept: */*" ++ str "\r\n" := by decide
  unfold requestLinesSpec
  simp only [foldl_header_lines, find_isNone_eq_suppliesNo, e1, e2]
  cases (C.useZlib && args.compress) <;>
    cases suppliesNo args.extraHeaders (str "Accept") <;>
    cases suppliesNo args.extraHeaders (str "User-Agent") <;>
    simp only [if_true, if_false, Bool.false_eq_true, List.append_assoc, List.append_nil,
      List.nil_append]

theorem bodyHeaders_eq {σ : Type} (C : Env σ) (args : HttpRequestArgs) (body ss : Bytes) :
    (let ss := if C.useZlib && args.compressRequest
       then ss ++ str "Content-Encoding: gzip" ++ str "\r\n" else ss
     let ss := ss ++ str "Content-Length: " ++ formatDec body.length ++ str "\r\n"
     let ss := if (args.extraHeaders.find (str "Content-Type")).isNone then
         (if args.multipartBoundary.isEmpty
           then ss ++ str "Content-Type: application/x-www-form-urlencoded" ++ str "\r\n"
           else ss ++ str "Content-Type: multipart/form-data; boundary=" ++ args.multipartBoundary
                  ++ str "\r\n")
       else ss
     let ss := ss ++ str "\r\n"
     ss ++ body) = ss ++ bodyHeadersSpec C args body ++ str "\r\n" ++ body := by
  have e3 : str "Content-Encoding: gzip\r\n" = str "Content-Encoding: gzip" ++ str "\r\n" := by
    decide
  have e4 : str "Content-Type: application/x-www-form-urlencoded\r\n" =
      str "Content-Type: application/x-www-form-urlencoded" ++ str "\r\n" := by decide
  unfold bodyHeadersSpec defaultContentTypeSpec
  simp only [find_isNone_eq_suppliesNo, e3, e4]
  cases hb : args.multipartBoundary with
  | nil =>
    cases (C.useZlib && args.compressRequest) <;>
      cases suppliesNo args.extraHeaders (str "Content-Type") <;>
      simp only [if_true, if_false, Bool.false_eq_true, List.append_assoc, List.append_nil,
        List.nil_append, List.isEmpty_nil]
  | cons b bs =>
    cases (C.useZlib && args.compressRequest) <;>
      cases suppliesNo args.extraHeaders (str "Content-Type") <;>
      simp only [if_true, if_false, Bool.false_eq_true, List.append_assoc, List.append_nil,
        List.nil_append, List.isEmpty_cons, reduceCtorEq]

theorem buildRequest_lines {σ : Type} (C : Env σ) (forceBody : Bool) (args : HttpRequestArgs)
    (verb host path body : Bytes) :
    buildRequest C forceBody args verb host path body =
      if carriesBody forceBody verb then
        requestLinesSpec C args verb host path ++ bodyHeadersSpec C args body ++ str "\r\n" ++ body
      else requestLinesSpec C args verb host path ++ str "\r\n" := by
  have h1 := requestLines_eq C args verb host path
  unfold buildRequest
  simp only [carriesBody_eq] at h1 ⊢
  rw [h1]
  cases carriesBody forceBody verb
  · simp only [if_false, Bool.false_eq_true]
  · simp only [if_true]
    exact bodyHeaders_eq C args body _

theorem bodyHeadersSpec_ends {σ : Type} (C : Env σ) (args : HttpRequestArgs) (body : Bytes) :
    ∃ q, bodyHeadersSpec C args body = q ++ str "\r\n" := by
  have e4 : str "Content-Type: application/x-www-form-urlencoded\r\n" =
      str "Content-Type: application/x-www-form-urlencoded" ++ str "\r\n" := by decide
  unfold bodyHeadersSpec defaultContentTypeSpec
  cases suppliesNo args.extraHeaders (str "Content-Type")
  · exact ⟨_, by simp only [Bool.false_eq_true, if_false, List.append_nil]; rfl⟩
  · by_cases hb : args.multipartBoundary = []
    · simp only [if_true, hb, e4]
      exact ⟨_, (List.append_assoc _ _ _).symm⟩
    · simp only [if_true, hb, if_false]
      exact ⟨_, (List.append_assoc _ _ _).symm⟩

/-- C21: for a verb that carries no body (not POST, PUT or PATCH, force-body off)
the request text built by `request` is exactly the request line, `Host`,
`Accept-Encoding: gzip` iff response compression is requested in a zlib build, the
caller headers in the mapping's order, `Accept: */*` iff the caller supplied no
`Accept`, the default `User-Agent` iff the caller supplied none, and one blank
line; the body argument does not occur in it. -/
theorem request_text_without_body {σ : Type} (C : Env σ) (forceBody : Bool)
    (args : HttpRequestArgs) (verb host path body : Bytes)
    (h : carriesBody forceBody verb = false) :
    buildRequest C forceBody args verb host path body =
      requestLinesSpec C args verb host path ++ str "\r\n" := by
  rw [buildRequest_lines, h]; rfl

set_option maxRecDepth 100000 in
/-- C21, at a GET of `/index.html` with the caller headers `X-Token` and `Accept`,
response compression requested in a zlib build, and a body argument that is not
empty: the text has neither `Content-Length` nor the body. -/
theorem request_text_without_body_witness :
    carriesBody false (str "GET") = false ∧
    buildRequest (scripted true rejectingCodec) false headerArgs (str "GET") (str "example.com")
        (str "/index.html") (str "ignored") =
      requestLinesSpec (scripted true rejectingCodec) headerArgs (str "GET") (str "example.com")
        (str "/index.html") ++ str "\r\n" ∧
    requestLinesSpec (scripted true rejectingCodec) headerArgs (str "GET") (str "example.com")
        (str "/index.html") ++ str "\r\n" =
      str ("GET /index.html HTTP/1.1\r\nHost: example.com\r\nAccept-Encoding: gzip\r\n" ++
        "X-Token: abc\r\nAccept: text/html\r\nUser-Agent: ixwebsocket\r\n\r\n") :=
  ⟨by decide, request_text_without_body _ _ _ _ _ _ _ (by decide), by decide⟩

/-- C22: for a verb that carries a body (POST, PUT, PATCH, or any verb with
force-body) the request text is the common lines, then `Content-Encoding: gzip` iff
request compression is requested in a zlib build, `Content-Length` with the
decimal byte length of the body, one default `Content-Type` unless the caller
supplied a `Content-Type` header (urlencoded for an empty multipart boundary,
otherwise multipart with that boundary), a blank line and the body; so it ends with
`\r\n\r\n` followed by exactly the body bytes. -/
theorem request_text_with_body {σ : Type} (C : Env σ) (forceBody : Bool)
    (args : HttpRequestArgs) (verb host path body : Bytes)
    (h : carriesBody forceBody verb = true) :
    buildRequest C forceBody args verb host path body =
        requestLinesSpec C args verb host path
          ++ ((if C.useZlib && args.compressRequest then str "Content-Encoding: gzip\r\n" else [])
            ++ str "Content-Length: " ++ formatDec body.length ++ str "\r\n"
            ++ (if suppliesNo args.extraHeaders (str "Content-Type") then
                  (if args.multipartBoundary = []
                    then str "Content-Type: application/x-www-form-urlencoded\r\n"
                    else str "Content-Type: multipart/form-data; boundary="
                      ++ args.multipartBoundary ++ str "\r\n")
                else []))
          ++ str "\r\n" ++ body ∧
      ∃ pre, buildRequest C forceBody args verb host path body = pre ++ str "\r\n\r\n" ++ body := by
  rw [buildRequest_lines, h]
  refine ⟨rfl, ?_⟩
  obtain ⟨q, hq⟩ := bodyHeadersSpec_ends C args body
  refine ⟨requestLinesSpec C args verb host path ++ q, ?_⟩
  simp only [if_true, hq, List.append_assoc]
  rfl

set_option maxRecDepth 100000 in
/-- C22, at a POST of the body `a=1&b=2` with the same caller headers and an empty
multipart boundary: `Content-Length: 7`, the urlencoded default type, a blank line
and the body. -/
theorem request_text_with_body_witness :
    carriesBody false (str "POST") = true ∧
    (buildRequest (scripted true rejectingCodec) false headerArgs (str "POST") (str "example.com")
        (str "/form") (str "a=1&b=2") =
        requestLinesSpec (scripted true rejectingCodec) headerArgs (str "POST")
            (str "example.com") (str "/form")
          ++ ((if (scripted true rejectingCodec).useZlib && headerArgs.compressRequest
                then str "Content-Encoding: gzip\r\n" else [])
            ++ str "Content-Length: " ++ formatDec (str "a=1&b=2").length ++ str "\r\n"
            ++ (if suppliesNo headerArgs.extraHeaders (str "Content-Type") then
                  (if headerArgs.multipartBoundary = []
                    then str "Content-Type: application/x-www-form-urlencoded\r\n"
                    else str "Content-Type: multipart/form-data; boundary="
                      ++ headerArgs.multipartBoundary ++ str "\r\n")
                else []))
          ++ str "\r\n" ++ str "a=1&b=2" ∧
      ∃ pre, buildRequest (scripted true rejectingCodec) false headerArgs (str "POST")
        (str "example.com") (str "/form") (str "a=1&b=2") =
          pre ++ str "\r\n\r\n" ++ str "a=1&b=2") ∧
    buildRequest (scripted true rejectingCodec) false headerArgs (str "POST") (str "example.com")
        (str "/form") (str "a=1&b=2") =
      str ("POST /form HTTP/1.1\r\nHost: example.com\r\nAccept-Encoding: gzip\r\n" ++
        "X-Token: abc\r\nAccept: text/html\r\nUser-Agent: ixwebsocket\r\n" ++
        "Content-Length: 7\r\nContent-Type: application/x-www-form-urlencoded\r\n\r\na=1&b=2") :=
  ⟨by decide, request_text_with_body _ _ _ _ _ _ _ (by decide), by decide⟩

/-! #### Framing of the serialized parameters -/

theorem prepareBody_plain (useZlib : Bool) (gzipCompress : Bytes → Bytes) (boundary : Bytes)
    (P : HttpParameters) (args : HttpRequestArgs) (hc : args.compressRequest = false) :
    prepareBody useZlib gzipCompress boundary P [] args = (args, serializeHttpParameters P) := by
  simp [prepareBody, hc]

/-- With a body verb, no caller `Content-Type` and request compression off, the
overload called with a non-empty form-data mapping writes the multipart type with
the boundary of its body; called with an empty form-data mapping it writes the
type that the boundary already stored in the arguments selects, with the
urlencoded body. -/
theorem parameterRequestText_eq {σ : Type} (C : Env σ) (gzipCompress : Bytes → Bytes)
    (forceBody : Bool) (boundary verb host path : Bytes) (P : HttpParameters)
    (F : HttpFormDataParameters) (args : HttpRequestArgs)
    (hverb : carriesBody forceBody verb = true)
    (hct : suppliesNo args.extraHeaders (str "Content-Type") = true)
    (hc : args.compressRequest = false) (hb : boundary ≠ []) :
    parameterRequestText C gzipCompress forceBody boundary verb host path P F args =
      if F = [] then
        requestLinesSpec C args verb host path
          ++ str "Content-Length: " ++ formatDec (serializeHttpParameters P).length ++ str "\r\n"
          ++ defaultContentTypeSpec args.multipartBoundary
          ++ str "\r\n" ++ serializeHttpParameters P
      else
        requestLinesSpec C args verb host path
          ++ str "Content-Length: "
          ++ formatDec (serializeHttpFormDataParameters boundary F P).length ++ str "\r\n"
          ++ str "Content-Type: multipart/form-data; boundary=" ++ boundary ++ str "\r\n"
          ++ str "\r\n" ++ serializeHttpFormDataParameters boundary F P := by
  unfold parameterRequestText
  rw [buildRequest_lines, hverb]
  by_cases hF : F = []
  · subst hF
    rw [prepareBody_plain _ _ _ _ _ hc]
    simp [bodyHeadersSpec, hct, hc, List.append_assoc]
  · cases F with
    | nil => exact absurd rfl hF
    | cons entry rest =>
      simp [prepareBody, bodyHeadersSpec, defaultContentTypeSpec, requestLinesSpec, hct, hc, hb,
        List.append_assoc]

set_option maxRecDepth 100000 in
/-- C30: arguments reused after a multipart request keep its boundary, and the
overload called with them, the parameters `a` = `1` and no form data, on POST with
no caller `Content-Type` and request compression off, writes the header
`Content-Type: multipart/form-data; boundary=...` with the old boundary although
the body is the urlencoded `a=1`. -/
theorem stale_boundary_content_type :
    reusedArgs.multipartBoundary = firstBoundary ∧
    suppliesNo reusedArgs.extraHeaders (str "Content-Type") = true ∧
    reusedArgs.compressRequest = false ∧
    (prepareBody false id secondBoundary [(str "a", str "1")] [] reusedArgs).2 =
      serializeHttpParameters [(str "a", str "1")] ∧
    parameterRequestText (scripted false rejectingCodec) id false secondBoundary (str "POST")
        (str "example.com") (str "/submit") [(str "a", str "1")] [] reusedArgs =
      str ("POST /submit HTTP/1.1\r\nHost: example.com\r\nAccept: */*\r\n" ++
        "User-Agent: ixwebsocket\r\nContent-Length: 3\r\n" ++
        "Content-Type: multipart/form-data; " ++
        "boundary=zyxwvutsrqponmlkjihgfedcbaZYXWVUTSRQPONMLKJIHGFEDCBA9876543210\r\n" ++
        "\r\na=1") := by
  refine ⟨by decide, by decide, by decide, by decide, by decide⟩

/-! #### Failures before a status code is obtained -/

theorem request_step_kind {σ : Type} (C : Env σ) (forceBody : Bool) (args : HttpRequestArgs)
    (fuel : Nat) (url verb body : Bytes) (d : Int) (s s' : σ) (hd : Head σ) (r : HttpResponse)
    (hopen : openExchange C forceBody args url verb body s = .ok hd)
    (hnrec : ¬ Recurses C forceBody args url verb body d s)
    (hret : request C forceBody args (fuel + 1) url verb body d s = some (.returned r, s')) :
    earlyFailure r.errorCode = false := by
  by_cases hred : 301 ≤ hd.code ∧ hd.code ≤ 308 ∧ args.followRedirects = true
  · rw [request_redirect_branch C forceBody args fuel url verb body d s hd hopen hred.1 hred.2.1
      hred.2.2] at hret
    cases hloc : hd.headers.find (str "Location") with
    | none =>
      rw [hloc] at hret
      simp only [Option.some.injEq, Prod.mk.injEq, Outcome.returned.injEq] at hret
      obtain ⟨rfl, _⟩ := hret
      rfl
    | some location =>
      rw [hloc] at hret
      by_cases hge : d ≥ args.maxRedirects
      · simp only [hge, if_true, Option.some.injEq, Prod.mk.injEq, Outcome.returned.injEq]
          at hret
        obtain ⟨rfl, _⟩ := hret
        rfl
      · exact absurd ⟨hd, location, hopen, hred.1, hred.2.1, hred.2.2, hloc, by omega⟩ hnrec
  · rw [request_no_redirect C forceBody args fuel url verb body d s hd hopen hred] at hret
    by_cases hv : verb = str "HEAD"
    · simp only [hv, if_true, Option.some.injEq, Prod.mk.injEq, Outcome.returned.injEq] at hret
      obtain ⟨rfl, _⟩ := hret
      rfl
    · simp only [hv, if_false] at hret
      rcases completeExchange_returned C hd fuel s' r hret with ⟨payload, _, rfl⟩ | hfail
      · rcases (finishResponse_fields C hd payload).2.2.1 with h | h <;> rw [h] <;> rfl
      · rcases (readBody_failed C hd fuel s' r hfail).2.2.1 with h | h <;> rw [h] <;> rfl

theorem request_early_record {σ : Type} (C : Env σ) (forceBody : Bool)
    (args : HttpRequestArgs) (verb body : Bytes) :
    ∀ (fuel : Nat) (url : Bytes) (d : Int) (s s' : σ) (r : HttpResponse),
      request C forceBody args fuel url verb body d s = some (.returned r, s') →
      earlyFailure r.errorCode = true →
      ∃ (n : Nat) (url' : Bytes) (s0 : σ),
        RedirectChain C forceBody args verb body n url s url' s0 ∧
        openExchange C forceBody args url' verb body s0 = .error (r, s') := by
  intro fuel
  induction fuel with
  | zero => intro url d s s' r h; simp [request] at h
  | succ fuel ih =>
    intro url d s s' r hret hk
    cases hopen : openExchange C forceBody args url verb body s with
    | error e =>
      obtain ⟨r0, s0⟩ := e
      simp only [request, hopen, Option.some.injEq, Prod.mk.injEq, Outcome.returned.injEq]
        at hret
      obtain ⟨rfl, rfl⟩ := hret
      exact ⟨0, url, s, ⟨rfl, rfl⟩, hopen⟩
    | ok hd =>
      by_cases hrec : Recurses C forceBody args url verb body d s
      · obtain ⟨hd2, location, hopen2, h1, h2, hfollow, hloc, hlt⟩ := hrec
        have hge : ¬ d ≥ args.maxRedirects := by omega
        rw [request_redirect_branch C forceBody args fuel url verb body d s hd2 hopen2 h1 h2
          hfollow, hloc] at hret
        simp only [hge, if_false] at hret
        obtain ⟨n, url', s0, hchain, herr⟩ := ih location (d + 1) hd2.sock s' r hret hk
        exact ⟨n + 1, url', s0, ⟨location, hd2.sock, ⟨hd2, hopen2, h1, h2, hloc, rfl⟩, hchain⟩,
          herr⟩
      · have h := request_step_kind C forceBody args fuel url verb body d s s' hd r hopen
          hrec hret
        rw [h] at hk
        exact absurd hk (by decide)

theorem openExchange_logged_error {σ : Type} (C : Env σ) (forceBody : Bool)
    (args : HttpRequestArgs) (url verb body : Bytes) (s s1 : σ) (log log1 : List Call)
    (r : HttpResponse)
    (h : openExchange (logged C) forceBody args url verb body (s, log) = .error (r, (s1, log1)))
    (hk : earlyFailure r.errorCode = true) :
    (r.errorCode = .UrlMalformed → C.parse url = none ∧ s1 = s ∧ log1 = log) ∧
    (r.errorCode ≠ .UrlMalformed →
      ∃ u, C.parse url = some u ∧
        log1 = log ++ earlyCalls r.errorCode u (buildRequest C forceBody args verb u.host u.path
          body)) := by
  have hb : ∀ (u : UrlParts), buildRequest (logged C) forceBody args verb u.host u.path body =
      buildRequest C forceBody args verb u.host u.path body := fun _ => rfl
  unfold openExchange at h
  cases hp : C.parse url with
  | none =>
    have hp' : (logged C).parse url = none := hp
    rw [hp'] at h
    simp only [Except.error.injEq, Prod.mk.injEq] at h
    obtain ⟨rfl, rfl, rfl⟩ := h
    exact ⟨fun _ => ⟨rfl, rfl, rfl⟩, fun hne => absurd rfl hne⟩
  | some u =>
    have hp' : (logged C).parse url = some u := hp
    rw [hp'] at h
    simp only [hb] at h
    rcases hc : C.createSocket (u.protocol == str "https") s with ⟨ok, msg, s2⟩
    have hc' : (logged C).createSocket (u.protocol == str "https") (s, log) =
        (ok, msg, (s2, log ++ [.createSocket (u.protocol == str "https")])) := by
      simp [logged, hc]
    rw [hc'] at h
    cases ok
    · simp only [Except.error.injEq, Prod.mk.injEq] at h
      obtain ⟨rfl, rfl, rfl⟩ := h
      exact ⟨fun hne => by simp at hne, fun _ => ⟨u, rfl, rfl⟩⟩
    · simp only at h
      rcases hn : C.connect u.host u.port s2 with ⟨ok2, msg2, s3⟩
      have hn' : (logged C).connect u.host u.port
          (s2, log ++ [.createSocket (u.protocol == str "https")]) =
          (ok2, msg2, (s3, log ++ [.createSocket (u.protocol == str "https")] ++
            [.connect u.host u.port])) := by
        simp [logged, hn]
      rw [hn'] at h
      cases ok2
      · simp only [Except.error.injEq, Prod.mk.injEq] at h
        obtain ⟨rfl, rfl, rfl⟩ := h
        exact ⟨fun hne => by simp at hne, fun _ => ⟨u, rfl, by simp [earlyCalls]⟩⟩
      · simp only at h
        rcases hw : C.writeBytes (buildRequest C forceBody args verb u.host u.path body) s3 with
          ⟨ok3, s4⟩
        have hw' : (logged C).writeBytes (buildRequest C forceBody args verb u.host u.path body)
            (s3, log ++ [.createSocket (u.protocol == str "https")] ++
              [.connect u.host u.port]) =
            (ok3, (s4, log ++ [.createSocket (u.protocol == str "https")] ++
              [.connect u.host u.port] ++
              [.writeBytes (buildRequest C forceBody args verb u.host u.path body)])) := by
          simp [logged, hw]
        rw [hw'] at h
        cases ok3
        · simp only [Except.error.injEq, Prod.mk.injEq] at h
          obtain ⟨rfl, rfl, rfl⟩ := h
          exact ⟨fun hne => by simp at hne, fun _ => ⟨u, rfl, by simp [earlyCalls]⟩⟩
        · simp only at h
          rcases hl : C.readLine s4 with ⟨ok4, line, s5⟩
          have hl' : (logged C).readLine
              (s4, log ++ [.createSocket (u.protocol == str "https")] ++
                [.connect u.host u.port] ++
                [.writeBytes (buildRequest C forceBody args verb u.host u.path body)]) =
              (ok4, line, (s5, log ++ [.createSocket (u.protocol == str "https")] ++
                [.connect u.host u.port] ++
                [.writeBytes (buildRequest C forceBody args verb u.host u.path body)] ++
                [.readLine])) := by
            simp [logged, hl]
          rw [hl'] at h
          cases ok4
          · simp only [Except.error.injEq, Prod.mk.injEq] at h
            obtain ⟨rfl, rfl, rfl⟩ := h
            exact ⟨fun hne => by simp at hne, fun _ => ⟨u, rfl, by simp [earlyCalls]⟩⟩
          · simp only at h
            cases hs : sscanfStatus line with
            | none =>
              rw [hs] at h
              simp only [Except.error.injEq, Prod.mk.injEq] at h
              obtain ⟨rfl, rfl, rfl⟩ := h
              exact ⟨fun hne => by simp at hne, fun _ => ⟨u, rfl, by simp [earlyCalls]⟩⟩
            | some code =>
              rw [hs] at h
              simp only at h
              split at h
              · simp only [Except.error.injEq, Prod.mk.injEq] at h
                obtain ⟨rfl, _⟩ := h
                simp [earlyFailure] at hk
              · simp at h

/-- C27: every record that `request` returns with error kind `UrlMalformed`,
`CannotCreateSocket`, `CannotConnect`, `SendError`, `CannotReadStatusLine` or
`MissingStatus` has status code 0, no header, an empty payload and download size
0; and with the calls on the socket recorded, the invocation that returns it
(reached from the first one through redirect responses) makes no call after the
failing step: none at all on `UrlMalformed`, only `createSocket` on
`CannotCreateSocket`, `createSocket` and `connect` on `CannotConnect`, these and the
write of the request on `SendError`, these and one `readLine` on
`CannotReadStatusLine` and `MissingStatus`. -/
theorem early_failure_records {σ : Type} (C : Env σ) (forceBody : Bool)
    (args : HttpRequestArgs) (verb body : Bytes) :
    (∀ (fuel : Nat) (url : Bytes) (d : Int) (s s' : σ) (r : HttpResponse),
      request C forceBody args fuel url verb body d s = some (.returned r, s') →
      earlyFailure r.errorCode = true →
      r.statusCode = 0 ∧ r.headers = [] ∧ r.payload = [] ∧ r.downloadSize = 0) ∧
    (∀ (fuel : Nat) (url : Bytes) (d : Int) (s s' : σ) (log log' : List Call)
        (r : HttpResponse),
      request (logged C) forceBody args fuel url verb body d (s, log) =
        some (.returned r, (s', log')) →
      earlyFailure r.errorCode = true →
      ∃ (n : Nat) (url' : Bytes) (s0 : σ) (log0 : List Call),
        RedirectChain (logged C) forceBody args verb body n url (s, log) url' (s0, log0) ∧
        (r.errorCode = .UrlMalformed → C.parse url' = none ∧ s' = s0 ∧ log' = log0) ∧
        (r.errorCode ≠ .UrlMalformed →
          ∃ u, C.parse url' = some u ∧
            log' = log0 ++ earlyCalls r.errorCode u
              (buildRequest C forceBody args verb u.host u.path body))) := by
  constructor
  · intro fuel url d s s' r hret hk
    obtain ⟨n, url', s0, _, herr⟩ :=
      request_early_record C forceBody args verb body fuel url d s s' r hret hk
    have hne : r.errorCode ≠ .HeaderParsingError := by
      intro h; rw [h] at hk; exact absurd hk (by decide)
    exact (openExchange_error C forceBody args url' verb body s0 s' r herr).2.2.2.2.2.2 hne
  · intro fuel url d s s' log log' r hret hk
    obtain ⟨n, url', ⟨s0, log0⟩, hchain, herr⟩ :=
      request_early_record (logged C) forceBody args verb body fuel url d (s, log) (s', log') r
        hret hk
    exact ⟨n, url', s0, log0, hchain,
      openExchange_logged_error C forceBody args url' verb body s0 s' log0 log' r herr hk⟩

set_option maxRecDepth 100000 in
/-- C27, at a redirect to `/b` followed by a first line that is no status line:
the record has kind `MissingStatus`, status code 0, no header and no payload, and
the calls of the second invocation end with the `readLine` of that line. -/
theorem early_failure_records_witness :
    request (logged (scripted true rejectingCodec)) false (plainArgs 5) 2 (str "/a") kGet [] 0
        (redirectThenGarbageScript, []) =
      some (.returned
        ⟨0, [], .MissingStatus, [], [], str "Cannot parse response code from status line",
          76, 0⟩,
        ([], [.createSocket false, .connect (str "example.com") 80,
          .writeBytes (buildRequest (scripted true rejectingCodec) false (plainArgs 5) kGet
            (str "example.com") (str "/a") []),
          .readLine, .parseHttpHeaders,
          .createSocket false, .connect (str "example.com") 80,
          .writeBytes (buildRequest (scripted true rejectingCodec) false (plainArgs 5) kGet
            (str "example.com") (str "/b") []),
          .readLine])) ∧
    ((0 : Int) = 0 ∧ ([] : WebSocketHttpHeaders) = [] ∧ ([] : Bytes) = [] ∧ (0 : Nat) = 0) := by
  have hrun : request (logged (scripted true rejectingCodec)) false (plainArgs 5) 2 (str "/a")
      kGet [] 0 (redirectThenGarbageScript, []) =
      some (.returned
        ⟨0, [], .MissingStatus, [], [], str "Cannot parse response code from status line",
          76, 0⟩,
        ([], [.createSocket false, .connect (str "example.com") 80,
          .writeBytes (buildRequest (scripted true rejectingCodec) false (plainArgs 5) kGet
            (str "example.com") (str "/a") []),
          .readLine, .parseHttpHeaders,
          .createSocket false, .connect (str "example.com") 80,
          .writeBytes (buildRequest (scripted true rejectingCodec) false (plainArgs 5) kGet
            (str "example.com") (str "/b") []),
          .readLine])) := by rfl
  exact ⟨hrun,
    (early_failure_records (logged (scripted true rejectingCodec)) false (plainArgs 5) kGet
      []).1 2 (str "/a") 0 (redirectThenGarbageScript, []) _ _ hrun (by decide)⟩

/-! #### Termination -/

theorem requestDepths_result {σ : Type} (C : Env σ) (forceBody : Bool) (args : HttpRequestArgs)
    (verb body : Bytes) :
    ∀ (fuel : Nat) (url : Bytes) (d : Int) (s : σ),
      (requestDepths C forceBody args fuel url verb body d s).map Prod.fst =
        request C forceBody args fuel url verb body d s := by
  intro fuel
  induction fuel with
  | zero => intro url d s; rfl
  | succ fuel ih =>
    intro url d s
    unfold requestDepths request
    cases openExchange C forceBody args url verb body s with
    | error e => rfl
    | ok hd =>
      simp only
      split
      · cases hd.headers.find (str "Location") with
        | none => rfl
        | some location =>
          simp only
          split
          · rfl
          · rw [← ih location (d + 1) hd.sock, Option.map_map]
            rfl
      · split
        · rfl
        · rw [Option.map_map]
          simp [Function.comp_def]

theorem requestDepths_bound {σ : Type} (C : Env σ) (forceBody : Bool) (args : HttpRequestArgs)
    (verb body : Bytes) :
    ∀ (fuel : Nat) (url : Bytes) (d : Int) (s : σ) (result : Outcome × σ) (depths : List Int),
      requestDepths C forceBody args fuel url verb body d s = some (result, depths) →
      (∀ d' ∈ depths, d ≤ d' ∧ (d' = d ∨ d' ≤ args.maxRedirects)) ∧
      depths.length ≤ (args.maxRedirects - d).toNat + 1 := by
  intro fuel
  induction fuel with
  | zero => intro url d s result depths h; simp [requestDepths] at h
  | succ fuel ih =>
    intro url d s result depths h
    have single : ∀ (x : Outcome × σ), some (x, [d]) = some (result, depths) →
        (∀ d' ∈ depths, d ≤ d' ∧ (d' = d ∨ d' ≤ args.maxRedirects)) ∧
        depths.length ≤ (args.maxRedirects - d).toNat + 1 := by
      intro x hx
      simp only [Option.some.injEq, Prod.mk.injEq] at hx
      obtain ⟨_, rfl⟩ := hx
      simp
    unfold requestDepths at h
    cases hopen : openExchange C forceBody args url verb body s with
    | error e => rw [hopen] at h; exact single _ h
    | ok hd =>
      rw [hopen] at h
      simp only at h
      split at h
      · cases hloc : hd.headers.find (str "Location") with
        | none => rw [hloc] at h; exact single _ h
        | some location =>
          rw [hloc] at h
          simp only at h
          split at h
          · exact single _ h
          · rename_i hge
            cases hin : requestDepths C forceBody args fuel location verb body (d + 1) hd.sock with
            | none => rw [hin] at h; simp at h
            | some inner =>
              rw [hin] at h
              simp only [Option.map_some', Option.some.injEq, Prod.mk.injEq] at h
              obtain ⟨_, rfl⟩ := h
              obtain ⟨h1, h2⟩ := ih location (d + 1) hd.sock inner.1 inner.2 hin
              constructor
              · intro d' hd'
                rcases List.mem_cons.1 hd' with rfl | hmem
                · exact ⟨le_refl _, Or.inl rfl⟩
                · obtain ⟨ha, hb⟩ := h1 d' hmem
                  refine ⟨by omega, Or.inr ?_⟩
                  rcases hb with rfl | hb
                  · omega
                  · exact hb
              · simp only [List.length_cons]
                omega
      · split at h
        · exact single _ h
        · cases hc : completeExchange C hd fuel with
          | none => rw [hc] at h; simp at h
          | some x =>
            rw [hc] at h
            exact single _ h
theorem readChunks_mono {σ : Type} (C : Env σ) (hd : Head σ) :
    ∀ (fuel : Nat) (good : Bool) (payload : Bytes) (s : σ) (x : Body × σ),
      readChunks C hd fuel good payload s = some x →
      readChunks C hd (fuel + 1) good payload s = some x := by
  intro fuel
  induction fuel with
  | zero => intro good payload s x h; simp [readChunks] at h
  | succ fuel ih =>
    intro good payload s x h
    unfold readChunks at h ⊢
    rcases hl : C.readLine s with ⟨ok, line, s1⟩
    rw [hl] at h
    cases ok
    · exact h
    · simp only at h ⊢
      by_cases hbig : (payload.length + (readChunkSize good (C.indeterminate s1) line).1) % 2 ^ 64
          > C.maxSize
      · rw [if_pos hbig] at h ⊢
        exact h
      · rw [if_neg hbig] at h ⊢
        rcases hb : C.readBytes (readChunkSize good (C.indeterminate s1) line).1 s1 with
          ⟨ok2, chunk, s2⟩
        rw [hb] at h
        cases ok2
        · exact h
        · simp only at h ⊢
          rcases hl2 : C.readLine s2 with ⟨ok3, line2, s3⟩
          rw [hl2] at h
          cases ok3
          · exact h
          · simp only at h ⊢
            by_cases hz : (readChunkSize good (C.indeterminate s1) line).1 = 0
            · rw [if_pos hz] at h ⊢
              exact h
            · rw [if_neg hz] at h ⊢
              exact ih _ _ _ x h

theorem readChunks_mono_le {σ : Type} (C : Env σ) (hd : Head σ) (fuel fuel' : Nat)
    (hle : fuel ≤ fuel') (good : Bool) (payload : Bytes) (s : σ) (x : Body × σ)
    (h : readChunks C hd fuel good payload s = some x) :
    readChunks C hd fuel' good payload s = some x := by
  induction fuel', hle using Nat.le_induction with
  | base => exact h
  | succ n _ ih => exact readChunks_mono C hd n good payload s x ih

theorem readChunks_terminates {σ : Type} (C : Env σ) (lines : σ → Nat)
    (hfin : FiniteStream C lines) (hd : Head σ) :
    ∀ (fuel : Nat) (good : Bool) (payload : Bytes) (s : σ), lines s / 2 + 1 ≤ fuel →
      readChunks C hd fuel good payload s ≠ none := by
  intro fuel
  induction fuel with
  | zero => intro good payload s h; omega
  | succ fuel ih =>
    intro good payload s hfuel
    unfold readChunks
    rcases hl : C.readLine s with ⟨ok, line, s1⟩
    cases ok
    · simp
    · simp only
      split
      · simp
      · rcases hb : C.readBytes (readChunkSize good (C.indeterminate s1) line).1 s1 with
          ⟨ok2, chunk, s2⟩
        cases ok2
        · simp
        · simp only
          rcases hl2 : C.readLine s2 with ⟨ok3, line2, s3⟩
          cases ok3
          · simp
          · simp only
            split
            · simp
            · have h1 := hfin.1 s line s1 hl
              have h2 := hfin.2 _ s1 chunk s2 hb
              have h3 := hfin.1 s2 line2 s3 hl2
              exact ih _ _ s3 (by omega)

theorem completeExchange_terminates {σ : Type} (C : Env σ) (lines : σ → Nat)
    (hfin : FiniteStream C lines) (hd : Head σ) :
    ∃ result, ∀ fuel, lines hd.sock / 2 + 1 ≤ fuel → completeExchange C hd fuel = some result := by
  cases hb : readBody C hd (lines hd.sock / 2 + 1) with
  | none =>
    exfalso
    unfold readBody at hb
    split at hb
    · simp only at hb
      split at hb
      · simp at hb
      · split at hb <;> simp at hb
    · split at hb
      · exact readChunks_terminates C lines hfin hd _ true [] hd.sock (le_refl _) hb
      · split at hb <;> simp at hb
  | some x =>
    have hall : ∀ fuel, lines hd.sock / 2 + 1 ≤ fuel → readBody C hd fuel = some x := by
      intro fuel hfuel
      unfold readBody at hb ⊢
      split
      · rename_i value hcl
        rw [hcl] at hb
        exact hb
      · rename_i hcl
        rw [hcl] at hb
        simp only at hb ⊢
        split
        · rename_i hte
          simp only [hte, if_true] at hb
          exact readChunks_mono_le C hd _ fuel hfuel true [] hd.sock x hb
        · rename_i hte
          simp only [hte, if_false] at hb
          exact hb
    cases hc : completeExchange C hd (lines hd.sock / 2 + 1) with
    | none => simp [completeExchange, hb] at hc; cases x with
      | mk b s => cases b <;> simp at hc
    | some result =>
      refine ⟨result, fun fuel hfuel => ?_⟩
      unfold completeExchange at hc ⊢
      rw [hall fuel hfuel]
      rw [hb] at hc
      exact hc

theorem request_step_terminates {σ : Type} (C : Env σ) (forceBody : Bool)
    (args : HttpRequestArgs) (verb body : Bytes) (lines : σ → Nat)
    (hfin : FiniteStream C lines) (url : Bytes) (d : Int) (s : σ)
    (hnrec : ¬ Recurses C forceBody args url verb body d s) :
    ∃ (fuel0 : Nat) (result : Outcome × σ), ∀ fuel, fuel0 ≤ fuel →
      request C forceBody args fuel url verb body d s = some result := by
  cases hopen : openExchange C forceBody args url verb body s with
  | error e =>
    refine ⟨1, (.returned e.1, e.2), fun fuel hfuel => ?_⟩
    obtain ⟨f, rfl⟩ : ∃ f, fuel = f + 1 := ⟨fuel - 1, by omega⟩
    simp only [request, hopen]
  | ok hd =>
    by_cases hred : 301 ≤ hd.code ∧ hd.code ≤ 308 ∧ args.followRedirects = true
    · cases hloc : hd.headers.find (str "Location") with
      | none =>
        refine ⟨1, (.returned ⟨hd.code, [], .MissingLocation, hd.headers, [],
          str "Missing location header for redirect", hd.uploadSize, 0⟩, hd.sock),
          fun fuel hfuel => ?_⟩
        obtain ⟨f, rfl⟩ : ∃ f, fuel = f + 1 := ⟨fuel - 1, by omega⟩
        rw [request_redirect_branch C forceBody args f url verb body d s hd hopen hred.1 hred.2.1
          hred.2.2, hloc]
      | some location =>
        by_cases hge : d ≥ args.maxRedirects
        · refine ⟨1, (.returned ⟨hd.code, [], .TooManyRedirects, hd.headers, [],
            str "Too many redirects: " ++ formatInt d, hd.uploadSize, 0⟩, hd.sock),
            fun fuel hfuel => ?_⟩
          obtain ⟨f, rfl⟩ : ∃ f, fuel = f + 1 := ⟨fuel - 1, by omega⟩
          rw [request_redirect_branch C forceBody args f url verb body d s hd hopen hred.1
            hred.2.1 hred.2.2, hloc]
          simp only [hge, if_true]
        · exact absurd ⟨hd, location, hopen, hred.1, hred.2.1, hred.2.2, hloc, by omega⟩ hnrec
    · by_cases hv : verb = str "HEAD"
      · refine ⟨1, (.returned ⟨hd.code, [], .Ok, hd.headers, [], [], hd.uploadSize, 0⟩,
          hd.sock), fun fuel hfuel => ?_⟩
        obtain ⟨f, rfl⟩ : ∃ f, fuel = f + 1 := ⟨fuel - 1, by omega⟩
        rw [request_no_redirect C forceBody args f url verb body d s hd hopen hred]
        simp only [hv, if_true]
      · obtain ⟨result, hres⟩ := completeExchange_terminates C lines hfin hd
        refine ⟨lines hd.sock / 2 + 2, result, fun fuel hfuel => ?_⟩
        obtain ⟨f, rfl⟩ : ∃ f, fuel = f + 1 := ⟨fuel - 1, by omega⟩
        rw [request_no_redirect C forceBody args f url verb body d s hd hopen hred]
        simp only [hv, if_false]
        exact hres f (by omega)

theorem request_terminates_aux {σ : Type} (C : Env σ) (forceBody : Bool)
    (args : HttpRequestArgs) (verb body : Bytes) (lines : σ → Nat)
    (hfin : FiniteStream C lines) :
    ∀ (k : Nat) (url : Bytes) (d : Int) (s : σ), (args.maxRedirects - d).toNat ≤ k →
      ∃ (fuel0 : Nat) (result : Outcome × σ), ∀ fuel, fuel0 ≤ fuel →
        request C forceBody args fuel url verb body d s = some result := by
  intro k
  induction k with
  | zero =>
    intro url d s hk
    apply request_step_terminates C forceBody args verb body lines hfin url d s
    rintro ⟨_, _, _, _, _, _, _, hlt⟩
    omega
  | succ k ih =>
    intro url d s hk
    by_cases hrec : Recurses C forceBody args url verb body d s
    · obtain ⟨hd, location, hopen, h1, h2, hfollow, hloc, hlt⟩ := hrec
      obtain ⟨fuel1, result, hres⟩ := ih location (d + 1) hd.sock (by omega)
      refine ⟨fuel1 + 1, result, fun fuel hfuel => ?_⟩
      obtain ⟨f, rfl⟩ : ∃ f, fuel = f + 1 := ⟨fuel - 1, by omega⟩
      have hge : ¬ d ≥ args.maxRedirects := by omega
      rw [request_redirect_branch C forceBody args f url verb body d s hd hopen h1 h2 hfollow,
        hloc]
      simp only [hge, if_false]
      exact hres f (by omega)
    · exact request_step_terminates C forceBody args verb body lines hfin url d s hrec

theorem scripted_finite (useZlib : Bool) (codec : Bytes → Bool × Bytes) :
    FiniteStream (scripted useZlib codec) scriptLines := by
  constructor
  · intro s line s' h
    cases s with
    | nil => simp [scripted] at h
    | cons reply rest =>
      cases reply <;> simp [scripted] at h
      obtain ⟨_, rfl⟩ := h
      simp [scriptLines]
  · intro n s bytes s' h
    simp only [scripted] at h
    by_cases hn : n = 0
    · simp [hn] at h
      rw [h.2]
    · simp only [hn, if_false] at h
      cases s with
      | nil => simp at h
      | cons reply rest =>
        cases reply with
        | line text => simp at h
        | headers entries => simp at h
        | bytes data =>
          simp only at h
          by_cases hlen : data.length = n
          · simp [hlen] at h
            rw [← h.2]
            simp [scriptLines]
          · simp [hlen] at h

/-- C28 (amended): for every `maxRedirects` and every socket whose response stream
is finite, `request` terminates: from some amount of fuel on it gives one and the
same result.  The recursion is entered at depth `d` only when `d < maxRedirects`,
so in a call tree started at depth 0 every invocation other than the first runs
with a depth between 1 and `maxRedirects` (the first runs at depth 0 whatever
`maxRedirects` is), and the tree has at most `max(maxRedirects, 0) + 1`
invocations, hence exchanges.  The chunk loop ends within `L / 2 + 1` iterations
when `L` lines are left in the stream: every iteration but the last reads two
lines. -/
theorem request_terminates {σ : Type} (C : Env σ) (forceBody : Bool) (args : HttpRequestArgs)
    (verb body : Bytes) (lines : σ → Nat) (hfin : FiniteStream C lines) :
    (∀ (url : Bytes) (d : Int) (s : σ), ∃ (fuel0 : Nat) (result : Outcome × σ),
      ∀ fuel, fuel0 ≤ fuel → request C forceBody args fuel url verb body d s = some result) ∧
    (∀ (fuel : Nat) (url : Bytes) (d : Int) (s : σ),
      (requestDepths C forceBody args fuel url verb body d s).map Prod.fst =
        request C forceBody args fuel url verb body d s) ∧
    (∀ (fuel : Nat) (url : Bytes) (s : σ) (result : Outcome × σ) (depths : List Int),
      requestDepths C forceBody args fuel url verb body 0 s = some (result, depths) →
      (∀ d ∈ depths, d = 0 ∨ (0 < d ∧ d ≤ args.maxRedirects)) ∧
      depths.length ≤ args.maxRedirects.toNat + 1) ∧
    (∀ (hd : Head σ) (fuel : Nat) (good : Bool) (payload : Bytes) (s : σ),
      lines s / 2 + 1 ≤ fuel → readChunks C hd fuel good payload s ≠ none) := by
  refine ⟨?_, ?_, ?_, ?_⟩
  · intro url d s
    exact request_terminates_aux C forceBody args verb body lines hfin _ url d s (le_refl _)
  · exact requestDepths_result C forceBody args verb body
  · intro fuel url s result depths h
    obtain ⟨h1, h2⟩ := requestDepths_bound C forceBody args verb body fuel url 0 s result depths h
    refine ⟨fun d hd => ?_, by simpa using h2⟩
    obtain ⟨ha, hb⟩ := h1 d hd
    rcases hb with hb | hb
    · exact Or.inl hb
    · by_cases h0 : d = 0
      · exact Or.inl h0
      · exact Or.inr ⟨by omega, hb⟩
  · intro hd fuel good payload s hfuel
    exact readChunks_terminates C lines hfin hd fuel good payload s hfuel

set_option maxRecDepth 100000 in
/-- C28, with `maxRedirects = 1` at one redirect followed by a `200` response: the
invocations run at the depths 0 and 1, and the chunk loop of a stream with four
lines left ends within three iterations. -/
theorem request_terminates_witness :
    FiniteStream (scripted true rejectingCodec) scriptLines ∧
    requestDepths (scripted true rejectingCodec) false (plainArgs 1) 2 (str "/a") kGet [] 0
        oneRedirectScript =
      some ((.returned ⟨200, [], .Ok, [(str "Content-Length", str "2"),
        (str "Content-Encoding", [])], str "ok", [], 76, 2⟩, []), [0, 1]) ∧
    ((∀ d ∈ ([0, 1] : List Int), d = 0 ∨ (0 < d ∧ d ≤ (plainArgs 1).maxRedirects)) ∧
      ([0, 1] : List Int).length ≤ (plainArgs 1).maxRedirects.toNat + 1) ∧
    readChunks (scripted true rejectingCodec) ⟨200, [], [], 76, wikiScript.drop 2⟩ 3 true []
      (wikiScript.drop 2) ≠ none := by
  have h := request_terminates (scripted true rejectingCodec) false (plainArgs 1) kGet []
    scriptLines (scripted_finite true rejectingCodec)
  have hrun : requestDepths (scripted true rejectingCodec) false (plainArgs 1) 2 (str "/a") kGet
      [] 0 oneRedirectScript =
      some ((.returned ⟨200, [], .Ok, [(str "Content-Length", str "2"),
        (str "Content-Encoding", [])], str "ok", [], 76, 2⟩, []), [0, 1]) := by rfl
  exact ⟨scripted_finite true rejectingCodec, hrun, h.2.2.1 2 (str "/a") oneRedirectScript _ _ hrun,
    h.2.2.2 _ 3 true [] (wikiScript.drop 2) (by decide)⟩

set_option maxRecDepth 100000 in
/-- C28 as stated fails at its edges.  With `maxRedirects = -1` the call tree
started at depth 0 has one invocation, and it runs at depth 0, which is greater
than `maxRedirects`.  And when a chunked response ends right after its headers, no
line is left in the stream, yet the chunk loop performs one iteration, the one
whose `readLine` fails. -/
theorem request_terminates_counterexample :
    (plainArgs (-1)).maxRedirects = -1 ∧
    requestDepths (scripted true rejectingCodec) false (plainArgs (-1)) 1 (str "/a") kGet [] 0
        helloScript =
      some ((.returned ⟨200, [], .Ok, [(str "Content-Length", str "5"),
        (str "Content-Encoding", [])], str "hello", [], 76, 5⟩, []), [0]) ∧
    ¬ (∀ d ∈ ([0] : List Int), d ≤ (plainArgs (-1)).maxRedirects) ∧
    reached (openExchange (scripted true rejectingCodec) false (plainArgs 5) (str "/a") kGet []
        chunkedSilenceScript) =
      some (200, [(str "Transfer-Encoding", str "chunked")], []) ∧
    scriptLines [] = 0 ∧
    readChunks (scripted true rejectingCodec)
        ⟨200, [(str "Transfer-Encoding", str "chunked")], [], 76, []⟩ 0 true [] [] = none ∧
    readChunks (scripted true rejectingCodec)
        ⟨200, [(str "Transfer-Encoding", str "chunked")], [], 76, []⟩ 1 true [] [] =
      some (.failed ⟨200, [], .ChunkReadError, [(str "Transfer-Encoding", str "chunked")], [],
        [], 76, 0⟩, []) := by
  refine ⟨by rfl, by rfl, by decide, by rfl, by rfl, by rfl, by rfl⟩

/-! #### The dispatcher -/

theorem startedTasks_append {τ ρ : Type} (l1 l2 : List (Event τ ρ)) :
    startedTasks (l1 ++ l2) = startedTasks l1 ++ startedTasks l2 := by
  induction l1 with
  | nil => rfl
  | cons e rest ih => cases e <;> simp [startedTasks, ih]

theorem accounted_runStep {τ ρ : Type} (answer : ρ) (d : Dispatcher τ ρ) (h : Accounted d) :
    Accounted (runStep answer d) := by
  obtain ⟨held, hsub, hheld⟩ := h
  unfold runStep
  cases hw : d.worker with
  | absent => exact ⟨held, hsub, hheld⟩
  | waiting =>
    have hh : held = [] := by rw [hheld (by rw [hw]; simp), hw]; rfl
    simp only
    split
    · exact ⟨held, hsub, hheld⟩
    · exact ⟨held, hsub, fun _ => hh⟩
  | woken =>
    have hh : held = [] := by rw [hheld (by rw [hw]; simp), hw]; rfl
    simp only
    split
    · exact ⟨held, hsub, fun hne => absurd rfl hne⟩
    · exact ⟨held, hsub, fun _ => hh⟩
  | taking =>
    have hh : held = [] := by rw [hheld (by rw [hw]; simp), hw]; rfl
    simp only
    cases hq : d.queue with
    | nil => exact ⟨held, hsub, hheld⟩
    | cons task rest =>
      refine ⟨[task], ?_, fun _ => rfl⟩
      simp only [hsub, hh, hq]
      simp
  | popped task =>
    have hh : held = [task] := by rw [hheld (by rw [hw]; simp), hw]; rfl
    simp only
    split
    · exact ⟨held, hsub, fun hne => absurd rfl hne⟩
    · exact ⟨held, hsub, fun _ => hh⟩
  | cleared task =>
    have hh : held = [task] := by rw [hheld (by rw [hw]; simp), hw]; rfl
    refine ⟨[], ?_, fun _ => rfl⟩
    simp only [hsub, hh, startedTasks_append, startedTasks]
    simp
  | executing task =>
    have hh : held = [] := by rw [hheld (by rw [hw]; simp), hw]; rfl
    refine ⟨[], ?_, fun _ => rfl⟩
    simp only [hsub, hh, startedTasks_append, startedTasks]
    simp
  | returned task response =>
    have hh : held = [] := by rw [hheld (by rw [hw]; simp), hw]; rfl
    refine ⟨[], ?_, fun _ => rfl⟩
    simp only [hsub, hh, startedTasks_append, startedTasks]
    simp
  | delivered =>
    have hh : held = [] := by rw [hheld (by rw [hw]; simp), hw]; rfl
    simp only
    split
    · exact ⟨held, hsub, fun hne => absurd rfl hne⟩
    · exact ⟨held, hsub, fun _ => hh⟩
  | exited => exact ⟨held, hsub, hheld⟩

theorem accounted_act {τ ρ : Type} (assertions : Bool) (a : Action τ ρ) (d d' : Dispatcher τ ρ)
    (h : Accounted d) (hact : act assertions a d = some d') : Accounted d' := by
  cases a with
  | submit task =>
    simp only [act, performRequest] at hact
    split at hact
    · simp at hact
    · split at hact
      · simp only [Option.map_some', Option.some.injEq] at hact
        rw [← hact]; exact h
      · simp only [Option.map_some', Option.some.injEq] at hact
        obtain ⟨held, hsub, hheld⟩ := h
        rw [← hact]
        exact ⟨held, by simp only [hsub, List.append_assoc], hheld⟩
  | shutdown =>
    simp only [act, shutdown, Option.some.injEq] at hact
    rw [← hact]
    split
    · exact h
    · exact h
  | worker answer =>
    simp only [act, Option.some.injEq] at hact
    rw [← hact]
    exact accounted_runStep answer d h

theorem accounted_schedule {τ ρ : Type} (assertions : Bool) (actions : List (Action τ ρ)) :
    ∀ (d d' : Dispatcher τ ρ), Accounted d → schedule assertions actions d = some d' →
      Accounted d' := by
  induction actions with
  | nil =>
    intro d d' h hs
    simp only [schedule, Option.some.injEq] at hs
    rw [← hs]; exact h
  | cons a rest ih =>
    intro d d' h hs
    simp only [schedule] at hs
    cases hact : act assertions a d with
    | none => rw [hact] at hs; simp at hs
    | some d1 =>
      rw [hact] at hs
      exact ih d1 d' (accounted_act assertions a d d1 h hact) hs

theorem schedule_async {τ ρ : Type} (assertions : Bool) (actions : List (Action τ ρ)) :
    ∀ (d : Dispatcher τ ρ), d.async = true →
      ∃ d', schedule assertions actions d = some d' ∧ d'.async = true := by
  induction actions with
  | nil => intro d h; exact ⟨d, rfl, h⟩
  | cons a rest ih =>
    intro d h
    have hstep : ∃ d1, act assertions a d = some d1 ∧ d1.async = true := by
      cases a with
      | submit task => simp [act, performRequest, h]
      | shutdown => simp [act, shutdown, h]
      | worker answer =>
        refine ⟨runStep answer d, rfl, ?_⟩
        unfold runStep
        split <;> try split
        all_goals exact h
    obtain ⟨d1, h1, h2⟩ := hstep
    obtain ⟨d', h3, h4⟩ := ih d1 h2
    exact ⟨d', by simp only [schedule, h1, Option.some_bind, h3], h4⟩

theorem stop_runStep {τ ρ : Type} (answer : ρ) (d : Dispatcher τ ρ) (hstop : d.stop = true) :
    (runStep answer d).stop = true ∧
    ∃ e, (runStep answer d).events = d.events ++ e ∧
      ∀ r, ∃ r', e ++ pendingEvents (runStep answer d).worker r = pendingEvents d.worker r' := by
  unfold runStep
  cases hw : d.worker with
  | absent => exact ⟨hstop, [], by simp, fun r => ⟨r, by simp [hw]⟩⟩
  | waiting =>
    simp only [hstop, Bool.not_true, Bool.false_and, if_false, Bool.false_eq_true]
    exact ⟨trivial, [], by simp, fun r => ⟨r, by simp [pendingEvents]⟩⟩
  | woken =>
    simp only [hstop, if_true]
    exact ⟨trivial, [], by simp, fun r => ⟨r, by simp [pendingEvents]⟩⟩
  | taking =>
    simp only
    cases hq : d.queue with
    | nil => exact ⟨hstop, [], by simp, fun r => ⟨r, by simp [hw]⟩⟩
    | cons task rest => exact ⟨hstop, [], by simp, fun r => ⟨r, by simp [pendingEvents]⟩⟩
  | popped task =>
    simp only [hstop, if_true]
    exact ⟨trivial, [], by simp, fun r => ⟨r, by simp [pendingEvents]⟩⟩
  | cleared task =>
    exact ⟨hstop, [.started task], rfl, fun r => ⟨r, by simp [pendingEvents]⟩⟩
  | executing task =>
    exact ⟨hstop, [.finished task answer], rfl, fun r => ⟨answer, by simp [pendingEvents]⟩⟩
  | returned task response =>
    exact ⟨hstop, [.called task response], rfl, fun r => ⟨r, by simp [pendingEvents]⟩⟩
  | delivered =>
    simp only [hstop, if_true]
    exact ⟨trivial, [], by simp, fun r => ⟨r, by simp [pendingEvents]⟩⟩
  | exited => exact ⟨hstop, [], by simp, fun r => ⟨r, by simp [hw]⟩⟩

theorem stop_act {τ ρ : Type} (assertions : Bool) (a : Action τ ρ) (d d1 : Dispatcher τ ρ)
    (hstop : d.stop = true) (hact : act assertions a d = some d1) :
    d1.stop = true ∧
    ((d1.events = d.events ∧ d1.worker = d.worker) ∨
      ∃ e, d1.events = d.events ++ e ∧
        (∃ r', e <+: pendingEvents d.worker r') ∧
        ∀ r, ∃ r', e ++ pendingEvents d1.worker r = pendingEvents d.worker r') := by
  cases a with
  | submit task =>
    simp only [act, performRequest] at hact
    split at hact
    · simp at hact
    · split at hact
      · simp only [Option.map_some', Option.some.injEq] at hact
        rw [← hact]; exact ⟨hstop, Or.inl ⟨rfl, rfl⟩⟩
      · simp only [Option.map_some', Option.some.injEq] at hact
        rw [← hact]; exact ⟨hstop, Or.inl ⟨rfl, rfl⟩⟩
  | shutdown =>
    simp only [act, shutdown, Option.some.injEq] at hact
    rw [← hact]
    split
    · exact ⟨hstop, Or.inl ⟨rfl, rfl⟩⟩
    · exact ⟨rfl, Or.inl ⟨rfl, rfl⟩⟩
  | worker answer =>
    simp only [act, Option.some.injEq] at hact
    rw [← hact]
    obtain ⟨h1, e, h2, h3⟩ := stop_runStep answer d hstop
    refine ⟨h1, Or.inr ⟨e, h2, ?_, h3⟩⟩
    obtain ⟨r', hr'⟩ := h3 answer
    exact ⟨r', ⟨_, hr'⟩⟩

theorem stop_schedule {τ ρ : Type} (assertions : Bool) (actions : List (Action τ ρ)) :
    ∀ (d d' : Dispatcher τ ρ), d.stop = true → schedule assertions actions d = some d' →
      d'.stop = true ∧
      ∃ l, d'.events = d.events ++ l ∧ (l = [] ∨ ∃ r, l <+: pendingEvents d.worker r) := by
  induction actions with
  | nil =>
    intro d d' hstop hs
    simp only [schedule, Option.some.injEq] at hs
    rw [← hs]
    exact ⟨hstop, [], by simp, Or.inl rfl⟩
  | cons a rest ih =>
    intro d d' hstop hs
    simp only [schedule] at hs
    cases hact : act assertions a d with
    | none => rw [hact] at hs; simp at hs
    | some d1 =>
      rw [hact] at hs
      simp only [Option.some_bind] at hs
      obtain ⟨hstop1, hstep⟩ := stop_act assertions a d d1 hstop hact
      obtain ⟨hstop', l1, hl1, hpre⟩ := ih d1 d' hstop1 hs
      refine ⟨hstop', ?_⟩
      rcases hstep with ⟨he, hw⟩ | ⟨e, he, hepre, hall⟩
      · exact ⟨l1, by rw [hl1, he], by rw [← hw]; exact hpre⟩
      · refine ⟨e ++ l1, by rw [hl1, he, List.append_assoc], ?_⟩
        rcases hpre with rfl | ⟨r, hr⟩
        · right
          obtain ⟨r', hr'⟩ := hepre
          exact ⟨r', by simpa using hr'⟩
        · right
          obtain ⟨r', hr'⟩ := hall r
          refine ⟨r', ?_⟩
          rw [← hr']
          exact (List.prefix_append_right_inj e).2 hr

theorem startedTasks_prefix_nil {τ ρ : Type} (l full : List (Event τ ρ)) (h : l <+: full)
    (hfull : startedTasks full = []) : startedTasks l = [] := by
  obtain ⟨t, rfl⟩ := h
  rw [startedTasks_append] at hfull
  exact (List.append_eq_nil.1 hfull).1

theorem accounted_construct (τ ρ : Type) (async : Bool) : Accounted (construct τ ρ async) :=
  ⟨[], rfl, fun _ => by cases async <;> rfl⟩

/-- C23 (amended): in a build without assertions, `performRequest` on a
synchronous client returns false and leaves the client, so the queue, unchanged;
on an asynchronous client it returns true, in every build, and the new queue is
the old queue with the task appended at the back; the worker pops the front of the
queue; and after any schedule of submissions, worker statements and a shutdown on
an asynchronous client, the tasks for which `request` was called are, in order, a
prefix of the tasks submitted. -/
theorem performRequest_order (τ ρ : Type) :
    (∀ (d : Dispatcher τ ρ) (task : τ), d.async = false →
      performRequest false d task = some (false, d)) ∧
    (∀ (assertions : Bool) (d : Dispatcher τ ρ) (task : τ), d.async = true →
      performRequest assertions d task =
        some (true, ⟨d.async, d.stop, d.queue ++ [task], d.worker, d.submitted ++ [task],
          d.events⟩)) ∧
    (∀ (answer : ρ) (d : Dispatcher τ ρ) (task : τ) (rest : List τ),
      d.worker = .taking → d.queue = task :: rest →
      (runStep answer d).worker = .popped task ∧ (runStep answer d).queue = rest) ∧
    (∀ (assertions : Bool) (actions : List (Action τ ρ)),
      ∃ d, schedule assertions actions (construct τ ρ true) = some d ∧
        startedTasks d.events <+: d.submitted) := by
  refine ⟨?_, ?_, ?_, ?_⟩
  · intro d task h
    simp [performRequest, h]
  · intro assertions d task h
    simp [performRequest, h]
  · intro answer d task rest hw hq
    simp [runStep, hw, hq]
  · intro assertions actions
    obtain ⟨d, hd, _⟩ := schedule_async assertions actions (construct τ ρ true) rfl
    obtain ⟨held, hsub, _⟩ := accounted_schedule assertions actions (construct τ ρ true) d
      (accounted_construct τ ρ true) hd
    refine ⟨d, hd, ?_⟩
    rw [hsub, List.append_assoc]
    exact List.prefix_append _ _

/-- C23, at a synchronous client without assertions, and at an asynchronous
client where the tasks 1, 2 and 3 are submitted while the worker runs: `request`
was called for 1 and then 2. -/
theorem performRequest_order_witness :
    performRequest false (construct Nat Nat false) 7 = some (false, construct Nat Nat false) ∧
    schedule true
        [.submit 1, .submit 2, .worker 0, .worker 0, .worker 0, .worker 0, .worker 0,
         .worker 10, .submit 3, .worker 0, .worker 0, .worker 0, .worker 0, .worker 0,
         .worker 0, .worker 0]
        (construct Nat Nat true) =
      some ⟨true, false, [3], .executing 2, [1, 2, 3],
        [.started 1, .finished 1 10, .called 1 10, .started 2]⟩ ∧
    (∃ d, schedule true
        [.submit 1, .submit 2, .worker 0, .worker 0, .worker 0, .worker 0, .worker 0,
         .worker 10, .submit 3, .worker 0, .worker 0, .worker 0, .worker 0, .worker 0,
         .worker 0, .worker 0]
        (construct Nat Nat true) = some d ∧ startedTasks d.events <+: d.submitted) :=
  ⟨(performRequest_order Nat Nat).1 (construct Nat Nat false) 7 rfl, by rfl,
    (performRequest_order Nat Nat).2.2.2 true _⟩

/-- C23 as stated fails in a build that keeps assertions: on a synchronous client
the assertion of line 72 fails, so `performRequest` does not return false, the
process ends. -/
theorem performRequest_assert_counterexample :
    (construct Nat Nat false).async = false ∧
    performRequest true (construct Nat Nat false) 7 = none ∧
    performRequest true (construct Nat Nat false) 7 ≠ some (false, construct Nat Nat false) :=
  ⟨by rfl, by rfl, by decide⟩

/-- C24 (amended): from any state in which the stop flag is set, whatever the
threads do next, the flag stays set and the worker adds to what it has done at
most what is pending where it stands: nothing when it is waiting, at a test of
the flag or gone (the tasks still queued and the task popped before the test of
line 114 are dropped); the return of `request` and one call of the callback, with
the response returned, when `request` is running; that one call when `request`
has returned; and the start, the return and the call for a task that had passed
the test of line 114 before the flag was set.  So no task is started unless the
worker was past that test, and a task in progress has its callback invoked once
the worker has run three statements, after which the worker is gone. -/
theorem stop_flag_honoured {τ ρ : Type} (assertions : Bool) (actions : List (Action τ ρ))
    (d d' : Dispatcher τ ρ) (hstop : d.stop = true)
    (hrun : schedule assertions actions d = some d') :
    d'.stop = true ∧
    (∃ l, d'.events = d.events ++ l ∧ (l = [] ∨ ∃ r, l <+: pendingEvents d.worker r)) ∧
    ((∀ task, d.worker ≠ .cleared task) → startedTasks d'.events = startedTasks d.events) ∧
    (∀ (task : τ) (r r2 r3 : ρ), d.worker = .executing task →
      (schedule assertions [.worker r, .worker r2, .worker r3] d).map
          (fun x => (x.worker, x.events)) =
        some (.exited, d.events ++ [.finished task r, .called task r])) := by
  obtain ⟨h1, l, hl, hpre⟩ := stop_schedule assertions actions d d' hstop hrun
  refine ⟨h1, ⟨l, hl, hpre⟩, ?_, ?_⟩
  · intro hnc
    rw [hl, startedTasks_append]
    suffices hnil : startedTasks l = [] by rw [hnil, List.append_nil]
    rcases hpre with rfl | ⟨r, hr⟩
    · rfl
    · apply startedTasks_prefix_nil l _ hr
      cases hw : d.worker with
      | cleared task => exact absurd hw (hnc task)
      | _ => rfl
  · intro task r r2 r3 hw
    simp [schedule, act, runStep, hw, hstop]

/-- C24, at an asynchronous client whose stop flag was set while `request` runs
for task 7 and task 8 is queued: the callback of 7 is invoked once, task 8 is
never started, also when task 9 is submitted meanwhile. -/
theorem stop_flag_honoured_witness :
    busyDispatcher.stop = true ∧
    schedule false [.worker 200, .submit 9, .worker 0, .worker 0, .worker 0] busyDispatcher =
      some ⟨true, true, [8, 9], .exited, [7, 8, 9],
        [.started 7, .finished 7 200, .called 7 200]⟩ ∧
    startedTasks [.started 7, .finished 7 200, .called (7 : Nat) (200 : Nat)] =
      startedTasks busyDispatcher.events := by
  have hrun : schedule false [.worker 200, .submit 9, .worker 0, .worker 0, .worker 0]
      busyDispatcher =
      some ⟨true, true, [8, 9], .exited, [7, 8, 9],
        [.started 7, .finished 7 200, .called 7 200]⟩ := by rfl
  exact ⟨by rfl, hrun,
    (stop_flag_honoured false _ busyDispatcher _ (by rfl) hrun).2.2.1
      (fun task h => Worker.noConfusion h)⟩

/-- C24 as stated fails: the worker pops task 7 and passes the test of line 114,
then the stop flag is set, with 7 not yet started; the worker goes on to call
`request` for 7 and invokes its callback. -/
theorem stop_race_counterexample :
    schedule false [.submit 7, .worker 0, .worker 0, .worker 0, .worker 0, .shutdown]
        (construct Nat Nat true) =
      some ⟨true, true, [], .cleared 7, [7], []⟩ ∧
    schedule false [.worker 0, .worker 200, .worker 0]
        (⟨true, true, [], .cleared 7, [7], []⟩ : Dispatcher Nat Nat) =
      some ⟨true, true, [], .delivered, [7],
        [.started 7, .finished 7 200, .called 7 200]⟩ :=
  ⟨by rfl, by rfl⟩

/-! #### The gzip codec -/

theorem inflateLoop_eq (ending : InflateEnd) : ∀ (fuel : Nat) (pending out : Bytes),
    pending.length / 16384 + 1 ≤ fuel →
      inflateLoop ending fuel pending out =
        if ending = .needDict ∨ ending = .dataError ∨ ending = .memError then
          some (false, out ++ pending.take (16384 * (pending.length / 16384)))
        else some (true, out ++ pending) := by
  intro fuel
  induction fuel with
  | zero => intro pending out h; omega
  | succ fuel ih =>
    intro pending out h
    unfold inflateLoop
    by_cases hlen : pending.length < 16384
    · rw [if_pos hlen]
      have hz : pending.length / 16384 = 0 := Nat.div_eq_of_lt hlen
      simp [hz]
    · rw [if_neg hlen, ih _ _ (by simp only [List.length_drop]; omega)]
      have hdiv : pending.length / 16384 = (pending.length - 16384) / 16384 + 1 := by omega
      have hsplit : pending.take (16384 * (pending.length / 16384)) =
          pending.take 16384 ++
            (pending.drop 16384).take (16384 * ((pending.length - 16384) / 16384)) := by
        rw [hdiv, Nat.mul_add, Nat.mul_one, Nat.add_comm, List.take_add]
      simp only [List.length_drop, hsplit, List.append_assoc, List.take_append_drop]

theorem gzipDecompress_zlib (Z : Zlib) (input out : Bytes) (hinit : Z.inflateInit = true) :
    gzipDecompress (.zlib Z) input out =
      if (Z.decode (input.take (input.length % 2 ^ 32))).2 = .needDict ∨
          (Z.decode (input.take (input.length % 2 ^ 32))).2 = .dataError ∨
          (Z.decode (input.take (input.length % 2 ^ 32))).2 = .memError then
        some (false, out ++ (Z.decode (input.take (input.length % 2 ^ 32))).1.take
          (16384 * ((Z.decode (input.take (input.length % 2 ^ 32))).1.length / 16384)))
      else some (true, out ++ (Z.decode (input.take (input.length % 2 ^ 32))).1) := by
  simp only [gzipDecompress, hinit, Bool.not_true, Bool.false_eq_true, if_false]
  rw [inflateLoop_eq _ _ _ _ (le_refl _)]

theorem trailerIndex_of_lt (n : Nat) (h4 : n < 4) : ¬ (trailerIndex n + 4 ≤ n) := by
  unfold trailerIndex
  have e : (n + 2 ^ 64 - 4) % 2 ^ 64 = n + 2 ^ 64 - 4 := Nat.mod_eq_of_lt (by omega)
  rw [e]
  omega

/-- C26: `gzipDecompress` does not fail safely.  In the libdeflate build, for an
input shorter than four bytes the index `compressed_size - 4` wraps on `size_t`
and the trailer is read outside the input buffer, whatever the library.  In the
zlib build, when `inflate` uses up the input before the end of the stream (a
stream cut short, the empty string), none of the three codes tested is returned
and the function reports success with the bytes produced so far. -/
theorem gzipDecompress_not_safe (Z : Zlib) (L : Libdeflate) (input out : Bytes) :
    (input.length < 4 →
      ¬ (trailerIndex input.length + 4 ≤ input.length) ∧
      gzipDecompress (.libdeflate L) input out = none) ∧
    (Z.inflateInit = true →
      (Z.decode (input.take (input.length % 2 ^ 32))).2 = .needsInput →
      gzipDecompress (.zlib Z) input out =
        some (true, out ++ (Z.decode (input.take (input.length % 2 ^ 32))).1)) := by
  constructor
  · intro h
    have hout := trailerIndex_of_lt input.length h
    exact ⟨hout, by simp only [gzipDecompress, hout, if_false]⟩
  · intro hinit hend
    rw [gzipDecompress_zlib Z input out hinit, hend]
    simp

set_option maxRecDepth 100000 in
/-- C26, at the empty string and at the first twelve bytes of the stored stream
of `hello`: the libdeflate build reads at index `2^64 - 4` of an empty buffer, the
zlib build returns true with an empty output. -/
theorem gzipDecompress_not_safe_witness :
    trailerIndex ([] : Bytes).length = 2 ^ 64 - 4 ∧
    (¬ (trailerIndex ([] : Bytes).length + 4 ≤ ([] : Bytes).length) ∧
      gzipDecompress (.libdeflate storedLibdeflate) [] [] = none) ∧
    storedZlib.decode [] = ([], .needsInput) ∧
    gzipDecompress (.zlib storedZlib) [] [] = some (true, [] ++ (storedZlib.decode []).1) ∧
    gzipDecompress (.zlib storedZlib) ((storedStream (str "hello")).take 12) [] =
      some (true, []) :=
  ⟨by decide, (gzipDecompress_not_safe storedZlib storedLibdeflate [] []).1 (by decide), by rfl,
    (gzipDecompress_not_safe storedZlib storedLibdeflate [] []).2 (by rfl) (by rfl), by decide⟩

end IX
